import Mathlib

/-!
# libvmdk sparse extent files: empty-block detection, header parsing, grain directory

A shallow embedding of `libvmdk/libvmdk_extent_file.c` and of the path handling of
`vmdktools/vmdkmount.c`.

* Buffers are lists of bytes; a read outside the buffer makes the model return `none`
  (respectively `Outcome.undefined`) instead of a value.
* Machine integers are natural numbers, reduced modulo `2 ^ w` wherever the C
  arithmetic can wrap.  The width of `size_t` is a parameter (`SizeWidth`); `int` is 32 bits.
* The extent file structure is passed explicitly: the parser returns the return code, the
  error it reported and the structure as the C code leaves it.
-/

set_option maxRecDepth 100000

namespace Libvmdk

/-- A byte of a buffer (`uint8_t`). -/
abbrev Byte := Fin 256

/-- The width of `size_t` / `ssize_t` on the platform the library is built for. -/
inductive SizeWidth where
  | w32
  | w64
  deriving DecidableEq, Repr

/-- Number of bits of `size_t`. -/
def SizeWidth.bits : SizeWidth → Nat
  | .w32 => 32
  | .w64 => 64

/-- The constant `SSIZE_MAX`. -/
def SSIZE_MAX (sw : SizeWidth) : Nat := 2 ^ (sw.bits - 1) - 1

/-- The constant `INT_MAX` of a 32-bit `int`. -/
def INT_MAX : Nat := 2 ^ 31 - 1

/-- Subtraction on `size_t`: unsigned, wraps modulo `2 ^ bits`. -/
def size_sub (sw : SizeWidth) (a b : Nat) : Nat := (a + 2 ^ sw.bits - b % 2 ^ sw.bits) % 2 ^ sw.bits

/-! ## `libvmdk_extent_file_check_for_empty_block` (lines 220-311) -/

/-- What a loop of the empty-block check hands on: either the function has returned `code`,
or control falls through with the three loop variables. -/
inductive Step where
  | ret (code : Int)
  | next (data_start data_index data_size : Nat)
  deriving DecidableEq, Repr

/-- A load of one `libvmdk_aligned_t` of `W` bytes at byte index `i`.  The word is an unsigned
integer, so two words are equal exactly when their `W` bytes are; the model keeps the bytes.
A word not fully inside the buffer cannot be loaded. -/
def read_word (data : List Byte) (W i : Nat) : Option (List Byte) :=
  if i + W ≤ data.length then some ((data.drop i).take W) else none

/-- Lines 266-275, "align the data start": while the address of `data_start` is not a multiple
of `W`, compare `*data_start` with `*data_index` and advance both. -/
def align_data_start (sw : SizeWidth) (W addr : Nat) (data : List Byte) :
    Nat → Nat → Nat → Nat → Option Step
  | fuel, data_start, data_index, data_size =>
    if (addr + data_start) % W ≠ 0 then
      match fuel with
      | 0 => none
      | fuel + 1 =>
        match data[data_start]?, data[data_index]? with
        | some x, some y =>
          if x ≠ y then some (.ret 0)
          else align_data_start sw W addr data fuel (data_start + 1) (data_index + 1)
                 (size_sub sw data_size 1)
        | _, _ => none
    else some (.next data_start data_index data_size)

/-- Lines 278-286, "align the data index": while the address of `data_index` is not a multiple
of `W`, compare `*data_start` with `*data_index` and advance `data_index`. -/
def align_data_index (sw : SizeWidth) (W addr : Nat) (data : List Byte) :
    Nat → Nat → Nat → Nat → Option Step
  | fuel, data_start, data_index, data_size =>
    if (addr + data_index) % W ≠ 0 then
      match fuel with
      | 0 => none
      | fuel + 1 =>
        match data[data_start]?, data[data_index]? with
        | some x, some y =>
          if x ≠ y then some (.ret 0)
          else align_data_index sw W addr data fuel data_start (data_index + 1)
                 (size_sub sw data_size 1)
        | _, _ => none
    else some (.next data_start data_index data_size)

/-- Lines 290-298: while more than `W` bytes remain, compare the word at `aligned_data_start`
with the word at `aligned_data_index` and advance the latter by one word. -/
def aligned_loop (sw : SizeWidth) (W : Nat) (data : List Byte) :
    Nat → Nat → Nat → Nat → Option Step
  | fuel, data_start, data_index, data_size =>
    if data_size > W then
      match fuel with
      | 0 => none
      | fuel + 1 =>
        match read_word data W data_start, read_word data W data_index with
        | some x, some y =>
          if x ≠ y then some (.ret 0)
          else aligned_loop sw W data fuel data_start (data_index + W) (size_sub sw data_size W)
        | _, _ => none
    else some (.next data_start data_index data_size)

/-- Lines 301-310: the byte-wise loop over what remains; falls out with `return( 1 )`. -/
def byte_loop (sw : SizeWidth) (data : List Byte) : Nat → Nat → Nat → Nat → Option Int
  | fuel, data_start, data_index, data_size =>
    if data_size ≠ 0 then
      match fuel with
      | 0 => none
      | fuel + 1 =>
        match data[data_start]?, data[data_index]? with
        | some x, some y =>
          if x ≠ y then some 0
          else byte_loop sw data fuel data_start (data_index + 1) (size_sub sw data_size 1)
        | _, _ => none
    else some 1

/-- The function `libvmdk_extent_file_check_for_empty_block` on a non-NULL buffer `data` that
starts at address `addr`, with `W = sizeof( libvmdk_aligned_t )`.  The result is the return
value, or `none` when the run would read outside the buffer.  Every loop iteration advances
an index that is then read, so `data.length` iterations are enough for each loop whenever no
read fails; the loops get that much fuel. -/
def libvmdk_extent_file_check_for_empty_block (sw : SizeWidth) (W addr : Nat)
    (data : List Byte) : Option Int :=
  let data_size := data.length
  if data_size > SSIZE_MAX sw then some (-1)
  else
    let data_size := size_sub sw data_size 1
    if data_size > 2 * W then
      match align_data_start sw W addr data data.length 0 1 data_size with
      | none => none
      | some (.ret code) => some code
      | some (.next data_start data_index data_size) =>
        match align_data_index sw W addr data data.length data_start data_index data_size with
        | none => none
        | some (.ret code) => some code
        | some (.next data_start data_index data_size) =>
          match aligned_loop sw W data data.length data_start data_index data_size with
          | none => none
          | some (.ret code) => some code
          | some (.next data_start data_index data_size) =>
            byte_loop sw data data.length data_start data_index data_size
    else byte_loop sw data data.length 0 1 data_size

/-- The byte-wise definition of the specification (section 4.I): compare `buf[0]` against
every subsequent byte; the buffer is a fill block when no inequality is found. -/
def empty_block_bytewise : List Byte → Bool
  | [] => true
  | b :: rest => rest.all (fun x => x == b)


/-- Number of bytes from address `x` up to the next multiple of `W`. -/
def align_distance (W x : Nat) : Nat := (W - x % W) % W

/-- All bytes of `data` before index `i` exist and equal `b0`. -/
def PrefixConst (data : List Byte) (b0 : Byte) (i : Nat) : Prop :=
  ∀ j, j < i → data[j]? = some b0


/-! ## The extent file structure and the file header (lines 42-43, 619-1140) -/

/-- Modelled from the spec: the values `LIBVMDK_FILE_TYPE_COWD_SPARSE_DATA` and
`LIBVMDK_FILE_TYPE_VMDK_SPARSE_DATA` of `extent_file->file_type`; their definitions
(libvmdk_definitions.h) are not part of the sources at hand.  Only their being different is
used.  `zero_filled` stands for the content of the field after `memory_set( ..., 0, ... )`,
before a header has been read. -/
inductive FileType where
  | zero_filled
  | COWD_SPARSE_DATA
  | VMDK_SPARSE_DATA
  deriving DecidableEq, Repr

/-- Modelled from the spec: `LIBVMDK_COMPRESSION_METHOD_NONE` (section 6: 0 = None). -/
def LIBVMDK_COMPRESSION_METHOD_NONE : Nat := 0

/-- Modelled from the spec: `LIBVMDK_COMPRESSION_METHOD_DEFLATE` (section 6: 1 = Deflate). -/
def LIBVMDK_COMPRESSION_METHOD_DEFLATE : Nat := 1

/-- Modelled from the spec: the fields of `libvmdk_extent_file_t` that the header parser
uses (libvmdk_extent_file.h is not part of the sources at hand).  The widths follow the
copy and print statements of the parser: `format_version`, `flags`,
`number_of_grain_table_entries` and `number_of_grain_directory_entries` are 32-bit,
`compression_method` is 16-bit, `is_dirty` is a byte, `grain_table_size` and
`grain_directory_size` are `size_t`, the other sizes and offsets are 64-bit. -/
structure ExtentFile where
  file_type : FileType
  format_version : Nat
  flags : Nat
  maximum_data_size : Nat
  grain_size : Nat
  descriptor_offset : Nat
  descriptor_size : Nat
  primary_grain_directory_offset : Nat
  secondary_grain_directory_offset : Nat
  number_of_grain_table_entries : Nat
  grain_table_size : Nat
  number_of_grain_directory_entries : Nat
  grain_directory_size : Nat
  is_dirty : Nat
  compression_method : Nat
  deriving DecidableEq, Repr

/-- The extent file as `libvmdk_extent_file_initialize` leaves it (lines 91-94): the
structure is cleared with `memory_set( *extent_file, 0, sizeof( libvmdk_extent_file_t ) )`. -/
def libvmdk_extent_file_initialize : ExtentFile :=
  { file_type := .zero_filled, format_version := 0, flags := 0, maximum_data_size := 0,
    grain_size := 0, descriptor_offset := 0, descriptor_size := 0,
    primary_grain_directory_offset := 0, secondary_grain_directory_offset := 0,
    number_of_grain_table_entries := 0, grain_table_size := 0,
    number_of_grain_directory_entries := 0, grain_directory_size := 0, is_dirty := 0,
    compression_method := 0 }

/-- Line 42: `const char cowd_sparse_file_signature[ 4 ] = "DWOC";`, the bytes
`'D' 'W' 'O' 'C'`. -/
def cowd_sparse_file_signature : List Byte := [0x44, 0x57, 0x4F, 0x43]

/-- Line 43: `const char vmdk_sparse_file_signature[ 4 ] = "KDMV";`, the bytes
`'K' 'D' 'M' 'V'`. -/
def vmdk_sparse_file_signature : List Byte := [0x4B, 0x44, 0x4D, 0x56]

/-- Modelled from the spec: `sizeof( cowd_sparse_file_header_t )`; the header declaration is
not part of the sources at hand, section 6 gives the COWD sparse header 512 bytes. -/
def sizeof_cowd_sparse_file_header_t : Nat := 512

/-- Modelled from the spec: `sizeof( vmdk_sparse_file_header_t )`; section 6 gives the KDMV
sparse header 512 bytes (0x4F bytes of fields and 433 bytes of padding). -/
def sizeof_vmdk_sparse_file_header_t : Nat := 512

/-- The value of the byte at `offset`, as an unsigned integer.  The parser reads header fields
only after it has checked that the buffer holds a full header, so the default is never
used there. -/
def byte_value (data : List Byte) (offset : Nat) : Nat := (data.getD offset 0).val

/-- The little-endian value of the `count` bytes at `offset`. -/
def little_endian_value (data : List Byte) (offset : Nat) : Nat → Nat
  | 0 => 0
  | count + 1 => byte_value data offset + 256 * little_endian_value data (offset + 1) count

/-- Modelled from the spec: the macro `byte_stream_copy_to_uint16_little_endian`
(byte_stream.h, not part of the sources at hand): "all multi-byte integers are
little-endian". -/
def byte_stream_copy_to_uint16_little_endian (data : List Byte) (offset : Nat) : Nat :=
  little_endian_value data offset 2

/-- Modelled from the spec: the macro `byte_stream_copy_to_uint32_little_endian`. -/
def byte_stream_copy_to_uint32_little_endian (data : List Byte) (offset : Nat) : Nat :=
  little_endian_value data offset 4

/-- Modelled from the spec: the macro `byte_stream_copy_to_uint64_little_endian`. -/
def byte_stream_copy_to_uint64_little_endian (data : List Byte) (offset : Nat) : Nat :=
  little_endian_value data offset 8

/-- The errors that `libvmdk_extent_file_read_file_header_data` reports with
`libcerror_error_set`, one per call in the function, in source order. -/
inductive HeaderError where
  | data_size_exceeds_maximum
  | cowd_data_too_small
  | vmdk_data_too_small
  | unsupported_file_signature
  | grain_sectors_zero
  | grain_sectors_less_equal_8
  | grain_sectors_not_power_of_2
  | grain_table_entries_zero
  | grain_table_entries_exceeds_maximum
  | single_end_of_line_character
  | non_end_of_line_character
  | first_double_end_of_line_character
  | second_double_end_of_line_character
  | compression_method
  | descriptor_size_exceeds_maximum
  | grain_directory_entries_exceeds_maximum
  | grain_table_size_exceeds_maximum
  | grain_directory_size_exceeds_maximum
  deriving DecidableEq, Repr

/-- The libcerror codes that the parser passes to `libcerror_error_set`. -/
inductive ErrorCode where
  | ARGUMENT_ERROR_VALUE_EXCEEDS_MAXIMUM
  | ARGUMENT_ERROR_VALUE_TOO_SMALL
  | RUNTIME_ERROR_UNSUPPORTED_VALUE
  | RUNTIME_ERROR_VALUE_EXCEEDS_MAXIMUM
  deriving DecidableEq, Repr

/-- The error code passed along with each error of the parser. -/
def HeaderError.code : HeaderError → ErrorCode
  | .data_size_exceeds_maximum => .ARGUMENT_ERROR_VALUE_EXCEEDS_MAXIMUM
  | .cowd_data_too_small => .ARGUMENT_ERROR_VALUE_TOO_SMALL
  | .vmdk_data_too_small => .ARGUMENT_ERROR_VALUE_TOO_SMALL
  | .unsupported_file_signature => .RUNTIME_ERROR_UNSUPPORTED_VALUE
  | .grain_sectors_zero => .RUNTIME_ERROR_UNSUPPORTED_VALUE
  | .grain_sectors_less_equal_8 => .RUNTIME_ERROR_UNSUPPORTED_VALUE
  | .grain_sectors_not_power_of_2 => .RUNTIME_ERROR_UNSUPPORTED_VALUE
  | .grain_table_entries_zero => .RUNTIME_ERROR_UNSUPPORTED_VALUE
  | .grain_table_entries_exceeds_maximum => .RUNTIME_ERROR_VALUE_EXCEEDS_MAXIMUM
  | .single_end_of_line_character => .RUNTIME_ERROR_UNSUPPORTED_VALUE
  | .non_end_of_line_character => .RUNTIME_ERROR_UNSUPPORTED_VALUE
  | .first_double_end_of_line_character => .RUNTIME_ERROR_UNSUPPORTED_VALUE
  | .second_double_end_of_line_character => .RUNTIME_ERROR_UNSUPPORTED_VALUE
  | .compression_method => .RUNTIME_ERROR_UNSUPPORTED_VALUE
  | .descriptor_size_exceeds_maximum => .ARGUMENT_ERROR_VALUE_EXCEEDS_MAXIMUM
  | .grain_directory_entries_exceeds_maximum => .RUNTIME_ERROR_VALUE_EXCEEDS_MAXIMUM
  | .grain_table_size_exceeds_maximum => .RUNTIME_ERROR_VALUE_EXCEEDS_MAXIMUM
  | .grain_directory_size_exceeds_maximum => .RUNTIME_ERROR_VALUE_EXCEEDS_MAXIMUM

/-- What a call of the parser does: `success` is `return( 1 )`, `failure` is `return( -1 )`
after the given error was set; both carry the extent file as the call leaves it.
`undefined` is a run that reads outside the buffer or divides by zero. -/
inductive Outcome where
  | success (extent_file : ExtentFile)
  | failure (error : HeaderError) (extent_file : ExtentFile)
  | undefined
  deriving DecidableEq, Repr

/-- The value returned by the C function, if the run is defined. -/
def Outcome.return_value : Outcome → Option Int
  | .success _ => some 1
  | .failure _ _ => some (-1)
  | .undefined => none

/-- Lines 726-795: the header values are copied into the extent file, by file type.  The
offsets of the fields are modelled from the spec (section 6, wire formats); the header
declarations are not part of the sources at hand. -/
def copy_header_values (extent_file : ExtentFile) (file_header_data : List Byte) : ExtentFile :=
  if extent_file.file_type = .COWD_SPARSE_DATA then
    { extent_file with
      format_version := byte_stream_copy_to_uint32_little_endian file_header_data 0x04
      flags := byte_stream_copy_to_uint32_little_endian file_header_data 0x08
      maximum_data_size := byte_stream_copy_to_uint32_little_endian file_header_data 0x0C
      grain_size := byte_stream_copy_to_uint32_little_endian file_header_data 0x10
      primary_grain_directory_offset :=
        byte_stream_copy_to_uint32_little_endian file_header_data 0x14
      number_of_grain_directory_entries :=
        byte_stream_copy_to_uint32_little_endian file_header_data 0x18 }
  else if extent_file.file_type = .VMDK_SPARSE_DATA then
    { extent_file with
      format_version := byte_stream_copy_to_uint32_little_endian file_header_data 0x04
      flags := byte_stream_copy_to_uint32_little_endian file_header_data 0x08
      maximum_data_size := byte_stream_copy_to_uint64_little_endian file_header_data 0x0C
      grain_size := byte_stream_copy_to_uint64_little_endian file_header_data 0x14
      descriptor_offset := byte_stream_copy_to_uint64_little_endian file_header_data 0x1C
      descriptor_size := byte_stream_copy_to_uint64_little_endian file_header_data 0x24
      number_of_grain_table_entries :=
        byte_stream_copy_to_uint32_little_endian file_header_data 0x2C
      secondary_grain_directory_offset :=
        byte_stream_copy_to_uint64_little_endian file_header_data 0x30
      primary_grain_directory_offset :=
        byte_stream_copy_to_uint64_little_endian file_header_data 0x38
      is_dirty := byte_value file_header_data 0x48
      compression_method := byte_stream_copy_to_uint16_little_endian file_header_data 0x4D }
  else extent_file

/-- Lines 919-1049: the checks on the copied values, in source order; the first one that
fails determines the error.  `none` means that all of them pass. -/
def check_header_values (extent_file : ExtentFile) (file_header_data : List Byte) :
    Option HeaderError :=
  if extent_file.grain_size = 0 then some .grain_sectors_zero
  else if extent_file.file_type = .VMDK_SPARSE_DATA ∧ extent_file.grain_size ≤ 8 then
    some .grain_sectors_less_equal_8
  else if extent_file.file_type = .VMDK_SPARSE_DATA ∧ extent_file.grain_size % 2 ≠ 0 then
    some .grain_sectors_not_power_of_2
  else if extent_file.file_type = .VMDK_SPARSE_DATA
      ∧ extent_file.number_of_grain_table_entries = 0 then
    some .grain_table_entries_zero
  else if extent_file.file_type = .VMDK_SPARSE_DATA
      ∧ extent_file.number_of_grain_table_entries > INT_MAX then
    some .grain_table_entries_exceeds_maximum
  else if extent_file.file_type = .VMDK_SPARSE_DATA
      ∧ byte_value file_header_data 0x49 ≠ 0x0A then
    some .single_end_of_line_character
  else if extent_file.file_type = .VMDK_SPARSE_DATA
      ∧ byte_value file_header_data 0x4A ≠ 0x20 then
    some .non_end_of_line_character
  else if extent_file.file_type = .VMDK_SPARSE_DATA
      ∧ byte_value file_header_data 0x4B ≠ 0x0D then
    some .first_double_end_of_line_character
  else if extent_file.file_type = .VMDK_SPARSE_DATA
      ∧ byte_value file_header_data 0x4C ≠ 0x0A then
    some .second_double_end_of_line_character
  else if extent_file.compression_method ≠ LIBVMDK_COMPRESSION_METHOD_NONE
      ∧ extent_file.compression_method ≠ LIBVMDK_COMPRESSION_METHOD_DEFLATE then
    some .compression_method
  else none

/-- Lines 1052-1054: "change all sector values to byte values", in 64-bit arithmetic. -/
def sector_values_to_byte_values (extent_file : ExtentFile) : ExtentFile :=
  { extent_file with
    maximum_data_size := extent_file.maximum_data_size * 512 % 2 ^ 64
    grain_size := extent_file.grain_size * 512 % 2 ^ 64
    primary_grain_directory_offset :=
      extent_file.primary_grain_directory_offset * 512 % 2 ^ 64 }

/-- Lines 1062-1068: the number of grain directory entries of a VMDK sparse file.  The
product and the quotient are 64-bit, the result is stored in a 32-bit field. -/
def vmdk_number_of_grain_directory_entries (maximum_data_size number_of_grain_table_entries
    grain_size : Nat) : Nat :=
  let divisor := number_of_grain_table_entries * grain_size % 2 ^ 64
  let quotient := maximum_data_size / divisor % 2 ^ 32
  if maximum_data_size % divisor ≠ 0 then (quotient + 1) % 2 ^ 32 else quotient

/-- Lines 1062-1071: the values set for a VMDK sparse file once the sector values of lines
1052-1054 are byte values. -/
def set_vmdk_values (extent_file : ExtentFile) : ExtentFile :=
  { extent_file with
    number_of_grain_directory_entries :=
      vmdk_number_of_grain_directory_entries extent_file.maximum_data_size
        extent_file.number_of_grain_table_entries extent_file.grain_size
    descriptor_offset := extent_file.descriptor_offset * 512 % 2 ^ 64
    descriptor_size := extent_file.descriptor_size * 512 % 2 ^ 64
    secondary_grain_directory_offset :=
      extent_file.secondary_grain_directory_offset * 512 % 2 ^ 64 }

/-- Lines 1056-1072: the values that depend on the file type.  `none` is the division by
zero of lines 1062-1065. -/
def set_file_type_values (extent_file : ExtentFile) : Option ExtentFile :=
  if extent_file.file_type = .COWD_SPARSE_DATA then
    some { extent_file with number_of_grain_table_entries := 4096 }
  else if extent_file.file_type = .VMDK_SPARSE_DATA then
    if extent_file.number_of_grain_table_entries * extent_file.grain_size % 2 ^ 64 = 0 then none
    else some (set_vmdk_values extent_file)
  else some extent_file

/-- Lines 1073-1118: the checks on the derived values; the last two are compiled only when
`SIZEOF_SIZE_T <= 4`. -/
def check_derived_values (sw : SizeWidth) (extent_file : ExtentFile) : Option HeaderError :=
  if extent_file.descriptor_size > SSIZE_MAX sw then some .descriptor_size_exceeds_maximum
  else if extent_file.number_of_grain_directory_entries > INT_MAX then
    some .grain_directory_entries_exceeds_maximum
  else if sw = .w32 ∧ extent_file.number_of_grain_table_entries > SSIZE_MAX sw / 4 then
    some .grain_table_size_exceeds_maximum
  else if sw = .w32 ∧ extent_file.number_of_grain_directory_entries > SSIZE_MAX sw / 4 then
    some .grain_directory_size_exceeds_maximum
  else none

/-- Lines 1119-1128 and 1129-1138: four bytes per entry, then "the data is sector aligned":
a size that is not a multiple of 512 is rounded up to the next one.  The arithmetic is
that of `size_t`. -/
def sector_aligned_size (sw : SizeWidth) (number_of_entries : Nat) : Nat :=
  let size := number_of_entries * 4 % 2 ^ sw.bits
  if size % 512 ≠ 0 then (size / 512 + 1) * 512 % 2 ^ sw.bits else size

/-- Lines 1050-1140: everything after the checks on the copied values. -/
def set_derived_values (sw : SizeWidth) (extent_file : ExtentFile) : Outcome :=
  let extent_file := sector_values_to_byte_values extent_file
  match set_file_type_values extent_file with
  | none => .undefined
  | some extent_file =>
    match check_derived_values sw extent_file with
    | some error => .failure error extent_file
    | none =>
      .success { extent_file with
        grain_table_size := sector_aligned_size sw extent_file.number_of_grain_table_entries
        grain_directory_size :=
          sector_aligned_size sw extent_file.number_of_grain_directory_entries }

/-- Lines 714-1140: the part of the parser after the file type has been set. -/
def read_header_values (sw : SizeWidth) (extent_file : ExtentFile)
    (file_header_data : List Byte) : Outcome :=
  let extent_file := copy_header_values extent_file file_header_data
  match check_header_values extent_file file_header_data with
  | some error => .failure error extent_file
  | none => set_derived_values sw extent_file

/-- The function `libvmdk_extent_file_read_file_header_data` on a non-NULL extent file and a
non-NULL buffer `file_header_data` of `file_header_data_size = file_header_data.length`
bytes.  The signature is compared before any size check, so a buffer of less than 4 bytes
is read past its end. -/
def libvmdk_extent_file_read_file_header_data (sw : SizeWidth) (extent_file : ExtentFile)
    (file_header_data : List Byte) : Outcome :=
  let file_header_data_size := file_header_data.length
  if file_header_data_size > SSIZE_MAX sw then
    .failure .data_size_exceeds_maximum extent_file
  else if file_header_data_size < 4 then .undefined
  else if file_header_data.take 4 = cowd_sparse_file_signature then
    if file_header_data_size < sizeof_cowd_sparse_file_header_t then
      .failure .cowd_data_too_small extent_file
    else
      read_header_values sw { extent_file with file_type := .COWD_SPARSE_DATA }
        file_header_data
  else if file_header_data.take 4 = vmdk_sparse_file_signature then
    if file_header_data_size < sizeof_vmdk_sparse_file_header_t then
      .failure .vmdk_data_too_small extent_file
    else
      read_header_values sw { extent_file with file_type := .VMDK_SPARSE_DATA }
        file_header_data
  else .failure .unsupported_file_signature extent_file

/-! ### Example headers -/

/-- A 512-byte header that starts with the characters `C O W D`: version 1, flags 3,
8192 data sectors, 16 sectors per grain, grain directory at sector 4, 1 grain directory
entry (scenario S4 of the specification). -/
def example_COWD_header : List Byte :=
  [0x43, 0x4F, 0x57, 0x44,  1, 0, 0, 0,  3, 0, 0, 0,  0, 0x20, 0, 0,  16, 0, 0, 0,
   4, 0, 0, 0,  1, 0, 0, 0] ++ List.replicate 484 0

/-- The same header with the signature bytes in the order of `cowd_sparse_file_signature`. -/
def example_DWOC_header : List Byte :=
  [0x44, 0x57, 0x4F, 0x43,  1, 0, 0, 0,  3, 0, 0, 0,  0, 0x20, 0, 0,  16, 0, 0, 0,
   4, 0, 0, 0,  1, 0, 0, 0] ++ List.replicate 484 0

/-- A 512-byte KDMV header (scenario S1 of the specification): version 1, flags 3,
1024 data sectors, 128 sectors per grain, no embedded descriptor (sector 0, 0 sectors),
512 grain table entries, secondary grain directory at sector 0, primary grain directory at
sector 1, 0 metadata sectors, not dirty, the end-of-line bytes `0A 20 0D 0A`, compression
method 0, and 433 bytes of padding. -/
def example_KDMV_header : List Byte :=
  [0x4B, 0x44, 0x4D, 0x56,  1, 0, 0, 0,  3, 0, 0, 0,  0, 4, 0, 0, 0, 0, 0, 0,
   128, 0, 0, 0, 0, 0, 0, 0,  0, 0, 0, 0, 0, 0, 0, 0,  0, 0, 0, 0, 0, 0, 0, 0,
   0, 2, 0, 0,  0, 0, 0, 0, 0, 0, 0, 0,  1, 0, 0, 0, 0, 0, 0, 0,  0, 0, 0, 0, 0, 0, 0, 0,
   0,  0x0A, 0x20, 0x0D, 0x0A,  0, 0] ++ List.replicate 433 0


/-- The error that the run reported, if it failed. -/
def Outcome.error : Outcome → Option HeaderError
  | .failure error _ => some error
  | _ => none

/-- The header `example_KDMV_header` with `2 ^ 54` descriptor sectors (byte 0x2A, the seventh
byte of the field at 0x24, set to 0x40). -/
def example_KDMV_header_descriptor_sectors : List Byte := example_KDMV_header.set 0x2A 0x40

/-- The header `example_KDMV_header` with compression method 2 (byte 0x4D). -/
def example_KDMV_header_compression_2 : List Byte := example_KDMV_header.set 0x4D 2

/-- The header `example_KDMV_header` with 10 sectors per grain (byte 0x14). -/
def example_KDMV_header_grain_sectors_10 : List Byte := example_KDMV_header.set 0x14 10


/-- The validations that section 4.B of the specification lists for the VMDK variant, on the
bytes of the header: the end-of-line bytes at 0x49 .. 0x4C, the compression method at 0x4D,
the grain sectors at 0x14 and the number of grain table entries at 0x2C. -/
def vmdk_listed_validations (data : List Byte) : Prop :=
  byte_value data 0x49 = 0x0A ∧ byte_value data 0x4A = 0x20
  ∧ byte_value data 0x4B = 0x0D ∧ byte_value data 0x4C = 0x0A
  ∧ (byte_stream_copy_to_uint16_little_endian data 0x4D = 0
      ∨ byte_stream_copy_to_uint16_little_endian data 0x4D = 1)
  ∧ 8 < byte_stream_copy_to_uint64_little_endian data 0x14
  ∧ byte_stream_copy_to_uint64_little_endian data 0x14 % 2 = 0
  ∧ 0 < byte_stream_copy_to_uint32_little_endian data 0x2C
  ∧ byte_stream_copy_to_uint32_little_endian data 0x2C ≤ 2 ^ 31 - 1

/-- What lines 1062-1118 require of a VMDK sparse header beyond the listed validations: the
divisor of line 1063 is not 0, the descriptor size in bytes is at most `SSIZE_MAX`, the
number of grain directory entries is at most `INT_MAX`, and with a 32-bit `size_t` both
numbers of entries are at most `SSIZE_MAX / 4`. -/
def vmdk_derived_validations (sw : SizeWidth) (data : List Byte) : Prop :=
  byte_stream_copy_to_uint32_little_endian data 0x2C
      * (byte_stream_copy_to_uint64_little_endian data 0x14 * 512 % 2 ^ 64) % 2 ^ 64 ≠ 0
  ∧ byte_stream_copy_to_uint64_little_endian data 0x24 * 512 % 2 ^ 64 ≤ SSIZE_MAX sw
  ∧ vmdk_number_of_grain_directory_entries
      (byte_stream_copy_to_uint64_little_endian data 0x0C * 512 % 2 ^ 64)
      (byte_stream_copy_to_uint32_little_endian data 0x2C)
      (byte_stream_copy_to_uint64_little_endian data 0x14 * 512 % 2 ^ 64) ≤ INT_MAX
  ∧ (sw = .w32 →
      byte_stream_copy_to_uint32_little_endian data 0x2C ≤ SSIZE_MAX sw / 4
      ∧ vmdk_number_of_grain_directory_entries
          (byte_stream_copy_to_uint64_little_endian data 0x0C * 512 % 2 ^ 64)
          (byte_stream_copy_to_uint32_little_endian data 0x2C)
          (byte_stream_copy_to_uint64_little_endian data 0x14 * 512 % 2 ^ 64)
        ≤ SSIZE_MAX sw / 4)


/-- The extent file that the run left behind, whether it succeeded or failed. -/
def Outcome.extent_file : Outcome → Option ExtentFile
  | .success extent_file => some extent_file
  | .failure _ extent_file => some extent_file
  | .undefined => none

/-- The header `example_KDMV_header` with `1024 + 2 ^ 55` data sectors (byte 0x12, the seventh
byte of the field at 0x0C, set to 0x80). -/
def example_KDMV_header_data_sectors : List Byte := example_KDMV_header.set 0x12 0x80

/-- The header `example_DWOC_header` with 2 grain directory entries (byte 0x18). -/
def example_DWOC_header_two_entries : List Byte := example_DWOC_header.set 0x18 2

/-- The stored byte value of a field whose header value is `sectors`: the product with 512
in 64-bit arithmetic, which is the exact product whenever `sectors < 2 ^ 55`. -/
def is_byte_value_of_sectors (stored sectors : Nat) : Prop :=
  stored = 512 * sectors % 2 ^ 64 ∧ (sectors < 2 ^ 55 → stored = 512 * sectors)

/-- The ceiling of `a / b`. -/
def ceil_div (a b : Nat) : Nat := (a + b - 1) / b

/-! ## File input, the grain directory and the callbacks (lines 464-617, 1142-1884) -/

/-- Modelled from the spec: the file behind a file IO handle or pool entry (section 6, I/O
adapter contract; libbfio is not part of the sources at hand).  `contents` are the bytes of
the file, its size is their number; `seekable offset` tells whether a seek to `offset` with
`SEEK_SET` succeeds. -/
structure File where
  contents : List Byte
  seekable : Nat → Bool

/-- Modelled from the spec: `libbfio_pool_read_buffer` and `libbfio_handle_read_buffer` of
`size` bytes with the file positioned at `offset`: the bytes delivered, which are fewer than
`size` when the file ends before; the read count is their number. -/
def File.read_buffer (file : File) (offset size : Nat) : List Byte :=
  (file.contents.drop offset).take size

/-- Modelled from the spec: `LIBVMDK_RANGE_FLAG_IS_SPARSE` (libvmdk_definitions.h is not
part of the sources at hand), the range flag of a sparse grain group; a flag bit, so
different from 0, which is all that is used. -/
def LIBVMDK_RANGE_FLAG_IS_SPARSE : Nat := 1

/-- Modelled from the spec: an element of the grain groups list as
`libfdata_list_append_element_with_mapped_size` records it (libfdata is not part of the
sources at hand): the data range of the grain table (file IO pool entry, offset, size, range
flags) and the mapped size. -/
structure GrainGroupElement where
  file_io_pool_entry : Int
  offset : Nat
  size : Nat
  range_flags : Nat
  mapped_size : Nat
  deriving DecidableEq, Repr

/-- The value that an `int` holding the unsigned value `x` has in a 64-bit unsigned
computation: the low 32 bits of `x`, sign-extended to 64 bits. -/
def int_as_uint64 (x : Nat) : Nat :=
  if x % 2 ^ 32 < 2 ^ 31 then x % 2 ^ 32 else x % 2 ^ 32 + (2 ^ 64 - 2 ^ 32)

/-- Lines 1361-1442, one pass of the loop over the grain directory: the element appended for
the entry at `grain_directory_entry_index` and the new total grain data size.  `none` is the
division by a grain size of 0 at line 1380. -/
def grain_directory_entry_values (extent_file : ExtentFile) (file_io_pool_entry : Int)
    (grain_directory_data : List Byte)
    (grain_directory_entry_index total_grain_data_size : Nat) :
    Option (GrainGroupElement × Nat) :=
  let sector_number :=
    byte_stream_copy_to_uint32_little_endian grain_directory_data
      (4 * grain_directory_entry_index)
  let range_flags := if sector_number = 0 then LIBVMDK_RANGE_FLAG_IS_SPARSE else 0
  let grain_table_offset := if sector_number = 0 then 0 else sector_number * 512
  let number_of_grain_table_entries := int_as_uint64 extent_file.number_of_grain_table_entries
  let grain_data_size := number_of_grain_table_entries * extent_file.grain_size % 2 ^ 64
  if (total_grain_data_size + grain_data_size) % 2 ^ 64 > extent_file.maximum_data_size then
    if extent_file.grain_size = 0 then none
    else
      let grain_data_size :=
        (extent_file.maximum_data_size + 2 ^ 64 - total_grain_data_size) % 2 ^ 64
      let number_of_grain_table_entries :=
        int_as_uint64 (grain_data_size / extent_file.grain_size)
      some ({ file_io_pool_entry := file_io_pool_entry
              offset := grain_table_offset
              size := extent_file.grain_table_size
              range_flags := range_flags
              mapped_size := extent_file.grain_size * number_of_grain_table_entries % 2 ^ 64 },
            (total_grain_data_size + grain_data_size) % 2 ^ 64)
  else
    some ({ file_io_pool_entry := file_io_pool_entry
            offset := grain_table_offset
            size := extent_file.grain_table_size
            range_flags := range_flags
            mapped_size := extent_file.grain_size * number_of_grain_table_entries % 2 ^ 64 },
          (total_grain_data_size + grain_data_size) % 2 ^ 64)

/-- Lines 1357-1444, the loop over the grain directory with `remaining` passes to go: each
pass reads the four bytes of its entry (`none` when they are not inside the data) and appends
one element to the grain groups list. -/
def grain_directory_loop (extent_file : ExtentFile) (file_io_pool_entry : Int)
    (grain_directory_data : List Byte) :
    Nat → Nat → Nat → List GrainGroupElement → Option (List GrainGroupElement)
  | 0, _, _, grain_groups_list => some grain_groups_list
  | remaining + 1, grain_directory_entry_index, total_grain_data_size, grain_groups_list =>
    if 4 * grain_directory_entry_index + 4 ≤ grain_directory_data.length then
      match grain_directory_entry_values extent_file file_io_pool_entry grain_directory_data
          grain_directory_entry_index total_grain_data_size with
      | none => none
      | some (element, total_grain_data_size) =>
        grain_directory_loop extent_file file_io_pool_entry grain_directory_data remaining
          (grain_directory_entry_index + 1) total_grain_data_size
          (grain_groups_list ++ [element])
    else none

/-- The cast `(ssize_t) value` of a `size_t` value: the low `bits` bits of `value` read as a
signed number, negative when they exceed `SSIZE_MAX`. -/
def size_as_ssize (sw : SizeWidth) (value : Nat) : Int :=
  if value % 2 ^ sw.bits ≤ SSIZE_MAX sw then ((value % 2 ^ sw.bits : Nat) : Int)
  else ((value % 2 ^ sw.bits : Nat) : Int) - ((2 ^ sw.bits : Nat) : Int)

/-- The function `libvmdk_extent_file_read_grain_directory` (lines 1245-1489) on a non-NULL
extent file: the return value and the grain groups list afterwards, or `none` when the run
is undefined.  The read is asked for `grain_directory_size` bytes (a `size_t`), its
`ssize_t` result `read_count` is the number of bytes delivered, and line 1332 compares it
with `(ssize_t) extent_file->grain_directory_size`.  Allocations and appends to the list
are taken to succeed. -/
def libvmdk_extent_file_read_grain_directory (sw : SizeWidth) (extent_file : ExtentFile)
    (grain_groups_list : List GrainGroupElement) (file : File) (file_io_pool_entry : Int)
    (file_offset : Nat) : Option (Int × List GrainGroupElement) :=
  if file.seekable file_offset = false then some (-1, grain_groups_list)
  else
    let grain_directory_data := file.read_buffer file_offset extent_file.grain_directory_size
    let read_count : Int := (grain_directory_data.length : Int)
    if read_count ≠ size_as_ssize sw extent_file.grain_directory_size then
      some (-1, grain_groups_list)
    else
      match grain_directory_loop extent_file file_io_pool_entry grain_directory_data
          extent_file.number_of_grain_directory_entries 0 0 grain_groups_list with
      | none => none
      | some grain_groups_list => some (1, grain_groups_list)

/-- The function `libvmdk_extent_file_read_file_header` (lines 464-617): the return value and
the extent file afterwards, or `none` when the run is undefined.  The buffer passed to
`libvmdk_extent_file_read_file_header_data` holds the `read_size` bytes read. -/
def libvmdk_extent_file_read_file_header (sw : SizeWidth) (extent_file : ExtentFile)
    (file : File) : Option (Int × ExtentFile) :=
  if file.seekable 0 = false then some (-1, extent_file)
  else
    let signature := file.read_buffer 0 4
    if signature.length ≠ 4 then some (-1, extent_file)
    else if signature ≠ cowd_sparse_file_signature
        ∧ signature ≠ vmdk_sparse_file_signature then some (-1, extent_file)
    else
      let read_size :=
        if signature = cowd_sparse_file_signature then sizeof_cowd_sparse_file_header_t
        else sizeof_vmdk_sparse_file_header_t
      let file_header_data := file.read_buffer 4 (read_size - 4)
      if file_header_data.length ≠ read_size - 4 then some (-1, extent_file)
      else
        match libvmdk_extent_file_read_file_header_data sw extent_file
            (signature ++ file_header_data) with
        | .success extent_file => some (1, extent_file)
        | .failure _ extent_file => some (-1, extent_file)
        | .undefined => none

/-- The whole of `libvmdk_extent_file_t` as far as the functions here use it: the header
values and the grain groups list (`none` is a NULL list). -/
structure ExtentFileState where
  values : ExtentFile
  grain_groups_list : Option (List GrainGroupElement)
  deriving DecidableEq, Repr

/-- The extent file after `libvmdk_extent_file_initialize` (lines 91-143): cleared, with an
empty grain groups list. -/
def extent_file_state_initialize : ExtentFileState :=
  { values := libvmdk_extent_file_initialize, grain_groups_list := some [] }

/-- The function `libvmdk_extent_file_read_element_data` (lines 1739-1837): the return value
and the extent file installed as the value of the element (`none`: no value installed), or
`none` when the run is undefined.  Setting the element value is taken to succeed. -/
def libvmdk_extent_file_read_element_data (sw : SizeWidth) (file : File)
    (file_io_pool_entry : Int) : Option (Int × Option ExtentFileState) :=
  let extent_file := extent_file_state_initialize
  match libvmdk_extent_file_read_file_header sw extent_file.values file with
  | none => none
  | some (result, values) =>
    if result ≠ 1 then some (-1, none)
    else
      match libvmdk_extent_file_read_grain_directory sw values
          (extent_file.grain_groups_list.getD []) file file_io_pool_entry
          values.primary_grain_directory_offset with
      | none => none
      | some (result, grain_groups_list) =>
        if result ≠ 1 then some (-1, none)
        else some (1, some { values := values, grain_groups_list := some grain_groups_list })

/-- The function `libvmdk_extent_file_read_descriptor_data_file_io_handle` (lines 1142-1243)
on a non-NULL extent file and buffer of `descriptor_data_size` bytes: the return value and
the bytes read into the buffer. -/
def libvmdk_extent_file_read_descriptor_data_file_io_handle (sw : SizeWidth)
    (extent_file : ExtentFile) (file : File) (descriptor_data_size : Nat) :
    Int × List Byte :=
  if descriptor_data_size > SSIZE_MAX sw then (-1, [])
  else if descriptor_data_size < extent_file.descriptor_size then (-1, [])
  else if file.seekable extent_file.descriptor_offset = false then (-1, [])
  else
    let descriptor_data :=
      file.read_buffer extent_file.descriptor_offset
        (extent_file.descriptor_size % 2 ^ sw.bits)
    if descriptor_data.length ≠ extent_file.descriptor_size % 2 ^ sw.bits then
      (-1, descriptor_data)
    else (1, descriptor_data)

/-- What a callback of the grain groups list can do besides returning: read the file and set
the value of an element in the cache.  `reads` are the `(offset, size)` of the reads made,
`element_values` the grain tables (lists of 32-bit sector numbers) installed, by element. -/
structure CallbackEffects where
  reads : List (Nat × Nat)
  element_values : List (Nat × List Nat)
  deriving DecidableEq, Repr

/-- The function `libvmdk_extent_file_read_grain_group_element_data` (lines 1839-1884) on a
non-NULL extent file: the return value and the effects after the call.  After the two
checks the body is `/* TODO */ return( 1 );`. -/
def libvmdk_extent_file_read_grain_group_element_data (extent_file : ExtentFileState)
    (_file : File) (_element : Nat) (effects : CallbackEffects) (_file_io_pool_entry : Int)
    (_grain_group_data_offset _grain_group_data_size : Nat) : Int × CallbackEffects :=
  if extent_file.grain_groups_list = none then (-1, effects)
  else (1, effects)

/-! ### Example files -/

/-- A file whose bytes are `contents` and in which every seek succeeds. -/
def example_file (contents : List Byte) : File :=
  { contents := contents, seekable := fun _ => true }

/-- The header `example_KDMV_header` with 1000 data sectors (bytes 0x0C and 0x0D). -/
def example_KDMV_header_1000_sectors : List Byte :=
  (example_KDMV_header.set 0x0C 0xE8).set 0x0D 0x03

/-- A grain directory of one sector whose first entry is the sector number `0xFFFFFFFF`. -/
def example_grain_directory_past_end : List Byte :=
  [0xFF, 0xFF, 0xFF, 0xFF] ++ List.replicate 508 0

/-- A grain directory of one sector whose first entry is the sector number 2. -/
def example_grain_directory : List Byte :=
  [2, 0, 0, 0] ++ List.replicate 508 0

/-- A grain table of four sectors (512 entries) whose first entry is the sector number 6. -/
def example_grain_table : List Byte :=
  [6, 0, 0, 0] ++ List.replicate 2044 0

/-- The data range that the loop of `libvmdk_extent_file_read_grain_directory` records for
the grain directory entry at `index`, whose sector number is the 32-bit little-endian value
at `4 * index` of the grain directory data: sector number 0 gives offset 0 with the range
flag `LIBVMDK_RANGE_FLAG_IS_SPARSE`, another one gives 512 times the sector number without
range flags; the size is the grain table size. -/
def is_data_range_of_entry (extent_file : ExtentFile) (file_io_pool_entry : Int)
    (grain_directory_data : List Byte) (index : Nat) (element : GrainGroupElement) : Prop :=
  element.file_io_pool_entry = file_io_pool_entry
  ∧ element.size = extent_file.grain_table_size
  ∧ (byte_stream_copy_to_uint32_little_endian grain_directory_data (4 * index) = 0 →
      element.offset = 0 ∧ element.range_flags = LIBVMDK_RANGE_FLAG_IS_SPARSE)
  ∧ (byte_stream_copy_to_uint32_little_endian grain_directory_data (4 * index) ≠ 0 →
      element.offset
          = byte_stream_copy_to_uint32_little_endian grain_directory_data (4 * index) * 512
        ∧ element.range_flags = 0)

/-- The mapped size of the grain directory entry at `index` when nothing overflows: the size
of a full grain group, `number_of_grain_table_entries * grain_size`, as long as the groups up
to this one fit in the maximum data size, else what remains of the maximum data size,
rounded down to a whole number of grains. -/
def mapped_size_of_entry (extent_file : ExtentFile) (index : Nat) : Nat :=
  if (index + 1) * (extent_file.number_of_grain_table_entries * extent_file.grain_size)
      ≤ extent_file.maximum_data_size then
    extent_file.number_of_grain_table_entries * extent_file.grain_size
  else
    extent_file.grain_size
      * ((extent_file.maximum_data_size
          - min (index * (extent_file.number_of_grain_table_entries * extent_file.grain_size))
              extent_file.maximum_data_size) / extent_file.grain_size)

/-- The values that the header parser leaves in the extent file for `example_KDMV_header`. -/
def example_KDMV_values : ExtentFile :=
  { file_type := .VMDK_SPARSE_DATA, format_version := 1, flags := 3,
    maximum_data_size := 524288, grain_size := 65536, descriptor_offset := 0,
    descriptor_size := 0, primary_grain_directory_offset := 512,
    secondary_grain_directory_offset := 0, number_of_grain_table_entries := 512,
    grain_table_size := 2048, number_of_grain_directory_entries := 1,
    grain_directory_size := 512, is_dirty := 0, compression_method := 0 }

/-- The values that the header parser leaves in the extent file for
`example_KDMV_header_1000_sectors`. -/
def example_KDMV_values_1000_sectors : ExtentFile :=
  { example_KDMV_values with maximum_data_size := 512000 }

/-! ## Re-emitting a header (testable property 6 of the specification) -/

/-- The `count` bytes of `value` in little-endian order. -/
def le_bytes : Nat → Nat → List Byte
  | 0, _ => []
  | count + 1, value => ⟨value % 256, Nat.mod_lt _ (by decide)⟩ :: le_bytes count (value / 256)

/-- Modelled from the spec: the signature of the COWD wire format, `"COWD"` (section 6). -/
def spec_cowd_signature : List Byte := [0x43, 0x4F, 0x57, 0x44]

/-- Modelled from the spec: the parsed geometry of a COWD sparse file re-emitted in the COWD
wire format of section 6 (the sources have no function that writes a header): the signature,
then version, flags, maximum data sectors, grain sectors, primary grain directory sector and
grain directory entry count as 32-bit little-endian values, the byte values divided by 512,
and padding to 512 bytes. -/
def emit_cowd_header (extent_file : ExtentFile) : List Byte :=
  spec_cowd_signature
  ++ (le_bytes 4 extent_file.format_version
  ++ (le_bytes 4 extent_file.flags
  ++ (le_bytes 4 (extent_file.maximum_data_size / 512)
  ++ (le_bytes 4 (extent_file.grain_size / 512)
  ++ (le_bytes 4 (extent_file.primary_grain_directory_offset / 512)
  ++ (le_bytes 4 extent_file.number_of_grain_directory_entries
  ++ List.replicate 484 0))))))

/-- Modelled from the spec: the parsed geometry of a VMDK sparse file re-emitted in the KDMV
wire format of section 6 (the sources have no function that writes a header): the signature
and the fields at their offsets in little-endian order, the byte values divided by 512, 0
metadata sectors, the required end-of-line bytes, and 433 bytes of padding. -/
def emit_vmdk_header (extent_file : ExtentFile) : List Byte :=
  vmdk_sparse_file_signature
  ++ (le_bytes 4 extent_file.format_version
  ++ (le_bytes 4 extent_file.flags
  ++ (le_bytes 8 (extent_file.maximum_data_size / 512)
  ++ (le_bytes 8 (extent_file.grain_size / 512)
  ++ (le_bytes 8 (extent_file.descriptor_offset / 512)
  ++ (le_bytes 8 (extent_file.descriptor_size / 512)
  ++ (le_bytes 4 extent_file.number_of_grain_table_entries
  ++ (le_bytes 8 (extent_file.secondary_grain_directory_offset / 512)
  ++ (le_bytes 8 (extent_file.primary_grain_directory_offset / 512)
  ++ (le_bytes 8 0
  ++ (le_bytes 1 extent_file.is_dirty
  ++ (le_bytes 1 0x0A
  ++ (le_bytes 1 0x20
  ++ (le_bytes 1 0x0D
  ++ (le_bytes 1 0x0A
  ++ (le_bytes 2 extent_file.compression_method
  ++ List.replicate 433 0))))))))))))))))

/-- Modelled from the spec: re-emitting the parsed geometry, in the wire format of its file
type. -/
def emit_header (extent_file : ExtentFile) : List Byte :=
  match extent_file.file_type with
  | .COWD_SPARSE_DATA => emit_cowd_header extent_file
  | .VMDK_SPARSE_DATA => emit_vmdk_header extent_file
  | .zero_filled => []

/-- Modelled from the spec: a spec-conformant header is 512 bytes long and is either a COWD
header (signature `"COWD"`, grain size greater than 0) or a KDMV header that satisfies the
validations of section 4.B and whose grain size in sectors is a power of two (section 3). -/
def spec_conformant_header (data : List Byte) : Prop :=
  data.length = 512
  ∧ ((data.take 4 = spec_cowd_signature
        ∧ 0 < byte_stream_copy_to_uint32_little_endian data 0x10)
      ∨ (data.take 4 = vmdk_sparse_file_signature ∧ vmdk_listed_validations data
        ∧ ∃ k, byte_stream_copy_to_uint64_little_endian data 0x14 = 2 ^ k))

/-! ## Values that the parser stores without using them -/

/-- The outcome with `change` applied to the extent file that the run left behind. -/
def Outcome.map (change : ExtentFile → ExtentFile) : Outcome → Outcome
  | .success extent_file => .success (change extent_file)
  | .failure error extent_file => .failure error (change extent_file)
  | .undefined => .undefined

/-! ### Example extent files -/

/-- An extent file of two sectors: the header `example_KDMV_header` (flags 3, bit 1 set;
primary grain directory at sector 1, secondary grain directory offset 0) and the grain
directory `example_grain_directory`. -/
def example_extent_file : File :=
  example_file (example_KDMV_header ++ example_grain_directory)

/-- The file `example_extent_file` followed by the grain table `example_grain_table`, which
so is at offset 1024, where the only grain directory entry points. -/
def example_extent_file_with_grain_table : File :=
  example_file (example_KDMV_header ++ example_grain_directory ++ example_grain_table)

/-- The extent file that `libvmdk_extent_file_read_element_data` installs for
`example_extent_file`: one grain group, with its grain table of 2048 bytes at offset 1024. -/
def example_extent_file_state : ExtentFileState :=
  { values := example_KDMV_values
    grain_groups_list :=
      some [{ file_io_pool_entry := 0, offset := 1024, size := 2048, range_flags := 0,
              mapped_size := 524288 }] }

/-! ### Example headers with a divisor of 0 and for a failed run -/

/-- The header `example_KDMV_header` with `2 ^ 55` sectors per grain (bytes 0x14 and 0x1A):
more than 8 and even, and 512 times it is `2 ^ 64`. -/
def example_KDMV_header_grain_sectors_2_55 : List Byte :=
  (example_KDMV_header.set 0x14 0).set 0x1A 0x80

/-! ## The extent file after a failed run, and headers that differ in unused fields -/

/-- The errors that `libvmdk_extent_file_read_file_header_data` reports before line 693 or
711, where it first writes to the extent file: those of the data size (lines 651-661,
668-678, 687-697) and of the signature (lines 701-712). -/
def HeaderError.before_copy : HeaderError → Bool
  | .data_size_exceeds_maximum => true
  | .cowd_data_too_small => true
  | .vmdk_data_too_small => true
  | .unsupported_file_signature => true
  | _ => false

/-- The extent file with the format version and the flags cleared. -/
def clear_version_and_flags (extent_file : ExtentFile) : ExtentFile :=
  { extent_file with format_version := 0, flags := 0 }

/-- The header `example_KDMV_header` with version 7 (byte 0x04), flags 0 (byte 0x08), 9
metadata sectors (byte 0x40) and `0xFF` in the last byte of the padding. -/
def example_KDMV_header_other_unused_fields : List Byte :=
  (((example_KDMV_header.set 0x04 7).set 0x08 0).set 0x40 9).set 0x1FF 0xFF

/-! ## The backup grain directory (lines 1491-1737) -/

/-- Modelled from the spec: `libfdata_list_get_element_by_index` (libfdata is not part of
the sources at hand): the data range of the element at `element_index`, when the list is not
NULL and has an element at that index; the call returns 1 then and -1 otherwise. -/
def libfdata_list_get_element_by_index (list : Option (List GrainGroupElement))
    (element_index : Nat) : Option GrainGroupElement :=
  match list with
  | none => none
  | some elements => elements[element_index]?

/-- Lines 1593-1682, the loop over the backup grain directory with `remaining` passes to go:
each pass reads the four bytes of its entry (`none` when they are not inside the data),
computes the sizes as lines 1361-1384 do (`none` is the division by a grain size of 0) and
retrieves the element at the index of the entry from the grain groups list; the result is
-1 as soon as that fails and 1 after the last pass.  Nothing is compared (line 1677,
`TODO compare grain directory entry with back up ?`) and nothing is written. -/
def backup_grain_directory_loop (extent_file : ExtentFileState) (file_io_pool_entry : Int)
    (grain_directory_data : List Byte) : Nat → Nat → Nat → Option Int
  | 0, _, _ => some 1
  | remaining + 1, grain_directory_entry_index, total_grain_data_size =>
    if 4 * grain_directory_entry_index + 4 ≤ grain_directory_data.length then
      match grain_directory_entry_values extent_file.values file_io_pool_entry
          grain_directory_data grain_directory_entry_index total_grain_data_size with
      | none => none
      | some (_, total_grain_data_size) =>
        match libfdata_list_get_element_by_index extent_file.grain_groups_list
            grain_directory_entry_index with
        | none => some (-1)
        | some _ =>
          backup_grain_directory_loop extent_file file_io_pool_entry grain_directory_data
            remaining (grain_directory_entry_index + 1) total_grain_data_size
    else none

/-- The function `libvmdk_extent_file_read_backup_grain_directory` (lines 1491-1737) on a
non-NULL extent file, built without debug output: the return value and the extent file
afterwards, or `none` when the run is undefined.  The read is asked for
`grain_directory_size` bytes (a `size_t`), its `ssize_t` result `read_count` is the number
of bytes delivered, and line 1580 compares it with
`(ssize_t) extent_file->grain_directory_size`.  The allocation is taken to succeed. -/
def libvmdk_extent_file_read_backup_grain_directory (sw : SizeWidth)
    (extent_file : ExtentFileState) (file : File) (file_io_pool_entry : Int)
    (file_offset : Nat) : Option (Int × ExtentFileState) :=
  if file.seekable file_offset = false then some (-1, extent_file)
  else
    let grain_directory_data :=
      file.read_buffer file_offset extent_file.values.grain_directory_size
    let read_count : Int := (grain_directory_data.length : Int)
    if read_count ≠ size_as_ssize sw extent_file.values.grain_directory_size then
      some (-1, extent_file)
    else
      match backup_grain_directory_loop extent_file file_io_pool_entry grain_directory_data
          extent_file.values.number_of_grain_directory_entries 0 0 with
      | none => none
      | some result => some (result, extent_file)

/-- The file `example_extent_file` followed by a backup grain directory of one sector at
offset 1024 whose first entry is the sector number 7, while that of the primary grain
directory is 2. -/
def example_extent_file_with_backup : File :=
  example_file (example_KDMV_header ++ example_grain_directory
    ++ ([7, 0, 0, 0] ++ List.replicate 508 0))

/-! ## The steps of `libvmdk_extent_file_read_element_data` (lines 1739-1837) -/

/-- The calls that `libvmdk_extent_file_read_element_data` makes, by the function called:
`libvmdk_extent_file_initialize` (`create`), `libvmdk_extent_file_read_file_header`,
`libvmdk_extent_file_read_grain_directory` and `libfdata_list_element_set_element_value`. -/
inductive ElementDataStep where
  | create
  | read_file_header
  | read_grain_directory
  | set_element_value
  deriving DecidableEq, Repr

/-- The function `libvmdk_extent_file_read_element_data` (lines 1739-1837) with the calls it
makes recorded in order: the return value, the extent file installed as the value of the
element (`none`: no value installed) and the calls made, or `none` when the run is
undefined.  `create_result` is what `libvmdk_extent_file_initialize` returns and
`set_element_value_result` what `libfdata_list_element_set_element_value` returns; modelled
from the spec, the latter installs the value exactly when it returns 1 (libfdata is not part
of the sources at hand). -/
def libvmdk_extent_file_read_element_data_steps (sw : SizeWidth) (file : File)
    (file_io_pool_entry : Int) (create_result set_element_value_result : Int) :
    Option (Int × Option ExtentFileState × List ElementDataStep) :=
  if create_result ≠ 1 then some (-1, none, [.create])
  else
    let extent_file := extent_file_state_initialize
    match libvmdk_extent_file_read_file_header sw extent_file.values file with
    | none => none
    | some (result, values) =>
      if result ≠ 1 then some (-1, none, [.create, .read_file_header])
      else
        match libvmdk_extent_file_read_grain_directory sw values
            (extent_file.grain_groups_list.getD []) file file_io_pool_entry
            values.primary_grain_directory_offset with
        | none => none
        | some (result, grain_groups_list) =>
          if result ≠ 1 then
            some (-1, none, [.create, .read_file_header, .read_grain_directory])
          else if set_element_value_result ≠ 1 then
            some (-1, none,
              [.create, .read_file_header, .read_grain_directory, .set_element_value])
          else
            some (1, some { values := values, grain_groups_list := some grain_groups_list },
              [.create, .read_file_header, .read_grain_directory, .set_element_value])

/-! ## The running total of the grain directory loop (lines 1357-1444) -/

/-- The loop of `grain_directory_loop` with what each pass does recorded instead of the
list: the element that the pass appends and the value of `total_grain_data_size` after the
pass (line 1442), in the order of the passes. -/
def grain_directory_loop_passes (extent_file : ExtentFile) (file_io_pool_entry : Int)
    (grain_directory_data : List Byte) :
    Nat → Nat → Nat → Option (List (GrainGroupElement × Nat))
  | 0, _, _ => some []
  | remaining + 1, grain_directory_entry_index, total_grain_data_size =>
    if 4 * grain_directory_entry_index + 4 ≤ grain_directory_data.length then
      match grain_directory_entry_values extent_file file_io_pool_entry grain_directory_data
          grain_directory_entry_index total_grain_data_size with
      | none => none
      | some (element, total_grain_data_size) =>
        match grain_directory_loop_passes extent_file file_io_pool_entry grain_directory_data
            remaining (grain_directory_entry_index + 1) total_grain_data_size with
        | none => none
        | some passes => some ((element, total_grain_data_size) :: passes)
    else none

/-- The values that the header parser leaves in the extent file for
`example_DWOC_header_two_entries`. -/
def example_DWOC_values_two_entries : ExtentFile :=
  { file_type := .COWD_SPARSE_DATA, format_version := 1, flags := 3,
    maximum_data_size := 4194304, grain_size := 8192, descriptor_offset := 0,
    descriptor_size := 0, primary_grain_directory_offset := 2048,
    secondary_grain_directory_offset := 0, number_of_grain_table_entries := 4096,
    grain_table_size := 16384, number_of_grain_directory_entries := 2,
    grain_directory_size := 512, is_dirty := 0, compression_method := 0 }

/-- The header `example_DWOC_header` with 536870911 (`0x1FFFFFFF`) grain directory entries
(bytes 0x18 .. 0x1B), the most that the parser accepts when `size_t` has 32 bits. -/
def example_DWOC_header_large_directory : List Byte :=
  (((example_DWOC_header.set 0x18 0xFF).set 0x19 0xFF).set 0x1A 0xFF).set 0x1B 0x1F

/-- The values that the header parser leaves in the extent file for
`example_DWOC_header_large_directory` when `size_t` has 32 bits: the grain directory size is
`2 ^ 31`. -/
def example_DWOC_values_large_directory : ExtentFile :=
  { example_DWOC_values_two_entries with
    number_of_grain_directory_entries := 536870911, grain_directory_size := 2147483648 }

/-! ## The memory accesses of `libvmdk_extent_file_check_for_empty_block` (lines 256-310) -/

/-- What the empty-block check does to memory and to its counter: it reads the byte at an
index of the buffer, it loads the `libvmdk_aligned_t` that starts at an index of the buffer,
and it subtracts an amount from `data_size`, whose value before is recorded. -/
inductive Access where
  | byte (index : Nat)
  | word (index : Nat)
  | decrease (data_size amount : Nat)
  deriving DecidableEq, Repr

/-- An access is inside a buffer of `n` bytes, with words of `W` bytes, when the byte or the
whole word read is; a subtraction from the counter does not underflow when the amount is at
most the value of the counter. -/
def Access.valid (n W : Nat) : Access → Prop
  | .byte index => index < n
  | .word index => index + W ≤ n
  | .decrease data_size amount => amount ≤ data_size

/-- The loop `align_data_start` with its accesses recorded, in order. -/
def align_data_start_accesses (sw : SizeWidth) (W addr : Nat) (data : List Byte) :
    Nat → Nat → Nat → Nat → Option Step × List Access
  | fuel, data_start, data_index, data_size =>
    if (addr + data_start) % W ≠ 0 then
      match fuel with
      | 0 => (none, [])
      | fuel + 1 =>
        match data[data_start]?, data[data_index]? with
        | some x, some y =>
          if x ≠ y then (some (.ret 0), [.byte data_start, .byte data_index])
          else
            let rest := align_data_start_accesses sw W addr data fuel (data_start + 1)
              (data_index + 1) (size_sub sw data_size 1)
            (rest.1,
              [.byte data_start, .byte data_index, .decrease data_size 1] ++ rest.2)
        | _, _ => (none, [.byte data_start, .byte data_index])
    else (some (.next data_start data_index data_size), [])

/-- The loop `align_data_index` with its accesses recorded, in order. -/
def align_data_index_accesses (sw : SizeWidth) (W addr : Nat) (data : List Byte) :
    Nat → Nat → Nat → Nat → Option Step × List Access
  | fuel, data_start, data_index, data_size =>
    if (addr + data_index) % W ≠ 0 then
      match fuel with
      | 0 => (none, [])
      | fuel + 1 =>
        match data[data_start]?, data[data_index]? with
        | some x, some y =>
          if x ≠ y then (some (.ret 0), [.byte data_start, .byte data_index])
          else
            let rest := align_data_index_accesses sw W addr data fuel data_start
              (data_index + 1) (size_sub sw data_size 1)
            (rest.1,
              [.byte data_start, .byte data_index, .decrease data_size 1] ++ rest.2)
        | _, _ => (none, [.byte data_start, .byte data_index])
    else (some (.next data_start data_index data_size), [])

/-- The loop `aligned_loop` with its accesses recorded, in order. -/
def aligned_loop_accesses (sw : SizeWidth) (W : Nat) (data : List Byte) :
    Nat → Nat → Nat → Nat → Option Step × List Access
  | fuel, data_start, data_index, data_size =>
    if data_size > W then
      match fuel with
      | 0 => (none, [])
      | fuel + 1 =>
        match read_word data W data_start, read_word data W data_index with
        | some x, some y =>
          if x ≠ y then (some (.ret 0), [.word data_start, .word data_index])
          else
            let rest := aligned_loop_accesses sw W data fuel data_start (data_index + W)
              (size_sub sw data_size W)
            (rest.1,
              [.word data_start, .word data_index, .decrease data_size W] ++ rest.2)
        | _, _ => (none, [.word data_start, .word data_index])
    else (some (.next data_start data_index data_size), [])

/-- The loop `byte_loop` with its accesses recorded, in order. -/
def byte_loop_accesses (sw : SizeWidth) (data : List Byte) :
    Nat → Nat → Nat → Nat → Option Int × List Access
  | fuel, data_start, data_index, data_size =>
    if data_size ≠ 0 then
      match fuel with
      | 0 => (none, [])
      | fuel + 1 =>
        match data[data_start]?, data[data_index]? with
        | some x, some y =>
          if x ≠ y then (some 0, [.byte data_start, .byte data_index])
          else
            let rest := byte_loop_accesses sw data fuel data_start (data_index + 1)
              (size_sub sw data_size 1)
            (rest.1,
              [.byte data_start, .byte data_index, .decrease data_size 1] ++ rest.2)
        | _, _ => (none, [.byte data_start, .byte data_index])
    else (some 1, [])

/-- The function `libvmdk_extent_file_check_for_empty_block` with its accesses recorded, in
order: the result as `libvmdk_extent_file_check_for_empty_block` gives it, and the reads of
the buffer and the subtractions from `data_size` that the run makes, the first of which is
`data_size -= 1` of line 258. -/
def libvmdk_extent_file_check_for_empty_block_accesses (sw : SizeWidth) (W addr : Nat)
    (data : List Byte) : Option Int × List Access :=
  let data_size := data.length
  if data_size > SSIZE_MAX sw then (some (-1), [])
  else
    let first := [Access.decrease data_size 1]
    let data_size := size_sub sw data_size 1
    if data_size > 2 * W then
      match align_data_start_accesses sw W addr data data.length 0 1 data_size with
      | (none, a1) => (none, first ++ a1)
      | (some (.ret code), a1) => (some code, first ++ a1)
      | (some (.next data_start data_index data_size), a1) =>
        match align_data_index_accesses sw W addr data data.length data_start data_index
            data_size with
        | (none, a2) => (none, first ++ a1 ++ a2)
        | (some (.ret code), a2) => (some code, first ++ a1 ++ a2)
        | (some (.next data_start data_index data_size), a2) =>
          match aligned_loop_accesses sw W data data.length data_start data_index
              data_size with
          | (none, a3) => (none, first ++ a1 ++ a2 ++ a3)
          | (some (.ret code), a3) => (some code, first ++ a1 ++ a2 ++ a3)
          | (some (.next data_start data_index data_size), a3) =>
            let last := byte_loop_accesses sw data data.length data_start data_index data_size
            (last.1, first ++ a1 ++ a2 ++ a3 ++ last.2)
    else
      let last := byte_loop_accesses sw data data.length 0 1 data_size
      (last.1, first ++ last.2)

/-! ## The paths of `vmdkmount` (vmdktools/vmdkmount.c, lines 133-134, 223-366, 368-544,
549-711)

A path is the list of the values of its `char`s, without the terminating 0. -/

/-- Line 133: `static char *vmdkmount_fuse_path_prefix = "/vmdk";`. -/
def vmdkmount_fuse_path_prefix : List Int := [47, 118, 109, 100, 107]

/-- Line 134: `static size_t vmdkmount_fuse_path_prefix_length = 5;`. -/
def vmdkmount_fuse_path_prefix_length : Nat := 5

/-- Modelled from the spec: the value of `EIO` (errno.h is not part of the sources at hand;
section 6 names the error kind `Io`). -/
def EIO : Int := 5

/-- Modelled from the spec: the value of `ENOENT`. -/
def ENOENT : Int := 2

/-- Lines 298-312 of `vmdkmount_fuse_read` and lines 624-638 of `vmdkmount_fuse_getattr`,
which are the same: the input handle index decoded from the up to three characters after
the prefix.  `path[ string_index ]` is read only for `string_index < path_length`, but for
the first one, which both callers guard with `path_length > 5`. -/
def fuse_path_input_handle_index (path : List Int) : Int :=
  let path_length := path.length
  let string_index := vmdkmount_fuse_path_prefix_length
  let input_handle_index := path.getD string_index 0 - 48
  let string_index := string_index + 1
  let (input_handle_index, string_index) :=
    if string_index < path_length then
      (input_handle_index * 10 + (path.getD string_index 0 - 48), string_index + 1)
    else (input_handle_index, string_index)
  let (input_handle_index, _) :=
    if string_index < path_length then
      (input_handle_index * 10 + (path.getD string_index 0 - 48), string_index + 1)
    else (input_handle_index, string_index)
  input_handle_index - 1

/-- Modelled from the spec: `libcstring_narrow_string_compare` (libcstring is not part of
the sources at hand) on two strings that are at least `size` characters long: 0 exactly when
their first `size` characters are the same.  Only whether the result is 0 is used. -/
def libcstring_narrow_string_compare (string1 string2 : List Int) (size : Nat) : Int :=
  if string1.take size = string2.take size then 0 else 1

/-- What the code that handles the path in `vmdkmount_fuse_read` and
`vmdkmount_fuse_getattr` comes to: the function returns `result`, or it goes on with the
input handle index decoded from the path. -/
inductive FusePath where
  | result (result : Int)
  | input_handle_index (input_handle_index : Int)
  deriving DecidableEq, Repr

/-- Lines 277-312 of `vmdkmount_fuse_read`, on a non-NULL path: the input handle index that
the function goes on with (it is passed to `mount_handle_seek_offset`), or `-ENOENT` as the
result when the path is not supported. -/
def vmdkmount_fuse_read_path (path : List Int) : FusePath :=
  let path_length := path.length
  if path_length ≤ vmdkmount_fuse_path_prefix_length
      ∨ path_length > vmdkmount_fuse_path_prefix_length + 3
      ∨ libcstring_narrow_string_compare path vmdkmount_fuse_path_prefix
          vmdkmount_fuse_path_prefix_length ≠ 0 then
    .result (-ENOENT)
  else .input_handle_index (fuse_path_input_handle_index path)

/-- Lines 603-638 of `vmdkmount_fuse_getattr`, on a non-NULL path: the result 0 for the
path `"/"` (the directory), the input handle index that the function goes on with (it is
passed to `mount_handle_get_media_size`), or the result `-ENOENT`, to which `result` was
initialised, when the path is not supported. -/
def vmdkmount_fuse_getattr_path (path : List Int) : FusePath :=
  let path_length := path.length
  if path_length = 1 then
    if path.getD 0 0 = 47 then .result 0 else .result (-ENOENT)
  else if path_length > vmdkmount_fuse_path_prefix_length
      ∧ path_length ≤ vmdkmount_fuse_path_prefix_length + 3 then
    if libcstring_narrow_string_compare path vmdkmount_fuse_path_prefix
        vmdkmount_fuse_path_prefix_length = 0 then
      .input_handle_index (fuse_path_input_handle_index path)
    else .result (-ENOENT)
  else .result (-ENOENT)

/-- Lines 500-512 of `vmdkmount_fuse_readdir`: the content of `vmdkmount_fuse_path` up to
the terminating 0 in the pass for `input_handle_index`, after the prefix was copied into it
at lines 418-421.  The loop runs for `1 ≤ input_handle_index ≤ 99` only (lines 437-438), so
every character written is a digit and fits a `char`. -/
def readdir_fuse_path (input_handle_index : Nat) : List Int :=
  vmdkmount_fuse_path_prefix
  ++ (if input_handle_index ≥ 100 then [48 + ((input_handle_index / 100 : Nat) : Int)] else [])
  ++ (if input_handle_index ≥ 10 then [48 + ((input_handle_index / 10 : Nat) : Int)] else [])
  ++ [48 + ((input_handle_index % 10 : Nat) : Int)]

/-- Lines 498-532 of `vmdkmount_fuse_readdir`, the loop over the input handles with
`remaining` passes to go: each pass hands `&( vmdkmount_fuse_path[ 1 ] )` to `filler`, and
the loop stops with `-EIO` when `filler` returns 1.  The result is the return value and the
names handed to `filler` so far, in order. -/
def readdir_loop (filler : List Int → Int) :
    Nat → Nat → List (List Int) → Int × List (List Int)
  | 0, _, names => (0, names)
  | remaining + 1, input_handle_index, names =>
    let name := (readdir_fuse_path input_handle_index).drop 1
    if filler name = 1 then (- EIO, names ++ [name])
    else readdir_loop filler remaining (input_handle_index + 1) (names ++ [name])

/-- The function `vmdkmount_fuse_readdir` (lines 368-544) on a non-NULL path:
`number_of_input_handles` is what `mount_handle_get_number_of_input_handles` delivers
(`none` when it does not return 1), `filler` the return value of the callback for each name.
The result is the return value and the names handed to `filler`, in order.  The copy of the
prefix is taken to succeed. -/
def vmdkmount_fuse_readdir (path : List Int) (number_of_input_handles : Option Int)
    (filler : List Int → Int) : Int × List (List Int) :=
  if path.length ≠ 1 ∨ path.getD 0 0 ≠ 47 then (-ENOENT, [])
  else
    match number_of_input_handles with
    | none => (- EIO, [])
    | some number_of_input_handles =>
      if number_of_input_handles < 0 ∨ number_of_input_handles > 99 then (-ENOENT, [])
      else if filler [46] = 1 then (- EIO, [[46]])
      else if filler [46, 46] = 1 then (- EIO, [[46], [46, 46]])
      else readdir_loop filler number_of_input_handles.toNat 1 [[46], [46, 46]]

/-- The decimal digits of `n` as characters, most significant first. -/
def decimal_digits (n : Nat) : List Int :=
  (Nat.toDigits 10 n).map (fun c => (c.toNat : Int))

/-- The name `"vmdk"` followed by the decimal digits of `n`. -/
def vmdk_name (n : Nat) : List Int := [118, 109, 100, 107] ++ decimal_digits n

/-! ## Theorems -/

theorem succ_mod_cases (W x : Nat) (hW : 0 < W) (h : x % W ≠ 0) :
    ((x + 1) % W = x % W + 1 ∧ x % W + 1 < W) ∨ ((x + 1) % W = 0 ∧ x % W + 1 = W) := by
  have hr := Nat.mod_lt x hW
  have h1 : (x + 1) % W = (x % W + 1) % W := by
    rw [Nat.add_mod]
    by_cases hW1 : W = 1
    · subst hW1; simp
    · rw [Nat.mod_eq_of_lt (by omega : 1 < W)]
  rw [h1]
  by_cases h2 : x % W + 1 = W
  · right; rw [h2, Nat.mod_self]; exact ⟨rfl, rfl⟩
  · left
    have h3 : x % W + 1 < W := by omega
    exact ⟨Nat.mod_eq_of_lt h3, h3⟩

theorem align_distance_succ (W x : Nat) (hW : 0 < W) (h : x % W ≠ 0) :
    align_distance W (x + 1) + 1 = align_distance W x := by
  unfold align_distance
  have hr := Nat.mod_lt x hW
  rcases succ_mod_cases W x hW h with ⟨h1, h2⟩ | ⟨h1, h2⟩
  · rw [h1, Nat.mod_eq_of_lt (by omega : W - (x % W + 1) < W),
      Nat.mod_eq_of_lt (by omega : W - x % W < W)]
    omega
  · rw [h1, Nat.sub_zero, Nat.mod_self, Nat.mod_eq_of_lt (by omega : W - x % W < W)]
    omega

theorem align_distance_lt (W x : Nat) (hW : 0 < W) : align_distance W x < W :=
  Nat.mod_lt _ hW

theorem size_sub_eq (sw : SizeWidth) (a b : Nat) (hb : b ≤ a) (ha : a < 2 ^ sw.bits) :
    size_sub sw a b = a - b := by
  unfold size_sub
  rw [Nat.mod_eq_of_lt (by omega : b < 2 ^ sw.bits)]
  have : a + 2 ^ sw.bits - b = (a - b) + 2 ^ sw.bits := by omega
  rw [this, Nat.add_mod_right, Nat.mod_eq_of_lt (by omega)]

theorem prefixConst_step (data : List Byte) (b0 : Byte) (i : Nat)
    (h : PrefixConst data b0 i) (hi : data[i]? = some b0) : PrefixConst data b0 (i + 1) := by
  intro j hj
  by_cases hji : j = i
  · rw [hji]; exact hi
  · exact h j (by omega)

theorem align_data_start_spec (sw : SizeWidth) (W addr : Nat) (data : List Byte) (b0 : Byte)
    (hW : 0 < W) (hn : data.length < 2 ^ sw.bits) :
    ∀ (fuel s sz : Nat), PrefixConst data b0 (s + 1) → s + 1 + sz = data.length →
      align_distance W (addr + s) < sz → align_distance W (addr + s) ≤ fuel →
      (align_data_start sw W addr data fuel s (s + 1) sz = some (.ret 0)
          ∧ ¬ PrefixConst data b0 data.length) ∨
      (∃ s', align_data_start sw W addr data fuel s (s + 1) sz
            = some (.next s' (s' + 1) (data.length - (s' + 1)))
          ∧ (addr + s') % W = 0 ∧ PrefixConst data b0 (s' + 1)
          ∧ s' ≤ s + align_distance W (addr + s)) := by
  intro fuel
  induction fuel with
  | zero =>
    intro s sz hp hsz hd hf
    have hd0 : align_distance W (addr + s) = 0 := by omega
    have hal : (addr + s) % W = 0 := by
      by_contra hne
      have := align_distance_succ W (addr + s) hW hne
      omega
    right
    refine ⟨s, ?_, hal, hp, by omega⟩
    rw [align_data_start]
    simp only [hal, ne_eq, not_true_eq_false, if_false]
    congr 2
    omega
  | succ f ih =>
    intro s sz hp hsz hd hf
    by_cases hal : (addr + s) % W = 0
    · right
      refine ⟨s, ?_, hal, hp, by omega⟩
      rw [align_data_start]
      simp only [hal, ne_eq, not_true_eq_false, if_false]
      congr 2
      omega
    · have hds := align_distance_succ W (addr + s) hW hal
      have hs0 : data[s]? = some b0 := hp s (by omega)
      have hlt : s + 1 < data.length := by omega
      obtain ⟨y, hy⟩ : ∃ y, data[s + 1]? = some y := ⟨_, List.getElem?_eq_getElem hlt⟩
      rw [align_data_start]
      simp only [hal, ne_eq, not_false_eq_true, if_true, hs0, hy]
      by_cases hxy : b0 = y
      · subst hxy
        simp only [not_true_eq_false, if_false]
        rw [size_sub_eq sw sz 1 (by omega) (by omega)]
        have hp' := prefixConst_step data b0 (s + 1) hp hy
        have := ih (s + 1) (sz - 1) hp' (by omega)
          (by rw [← Nat.add_assoc]; omega) (by rw [← Nat.add_assoc]; omega)
        rcases this with h | ⟨s', h1, h2, h3, h4⟩
        · left; exact h
        · right
          refine ⟨s', h1, h2, h3, ?_⟩
          rw [← Nat.add_assoc] at h4
          omega
      · left
        simp only [hxy, not_false_eq_true, if_true, true_and]
        intro hall
        have := hall (s + 1) hlt
        rw [hy] at this
        exact hxy (Option.some.inj this).symm


theorem align_data_index_spec (sw : SizeWidth) (W addr : Nat) (data : List Byte) (b0 : Byte)
    (hW : 0 < W) (hn : data.length < 2 ^ sw.bits) (s : Nat) :
    ∀ (fuel i sz : Nat), s < i → PrefixConst data b0 i → i + sz = data.length →
      align_distance W (addr + i) < sz → align_distance W (addr + i) ≤ fuel →
      (align_data_index sw W addr data fuel s i sz = some (.ret 0)
          ∧ ¬ PrefixConst data b0 data.length) ∨
      (∃ i', align_data_index sw W addr data fuel s i sz
            = some (.next s i' (data.length - i'))
          ∧ (addr + i') % W = 0 ∧ PrefixConst data b0 i' ∧ i ≤ i'
          ∧ i' ≤ i + align_distance W (addr + i)) := by
  intro fuel
  induction fuel with
  | zero =>
    intro i sz hsi hp hsz hd hf
    have hal : (addr + i) % W = 0 := by
      by_contra hne
      have := align_distance_succ W (addr + i) hW hne
      omega
    right
    refine ⟨i, ?_, hal, hp, Nat.le_refl _, by omega⟩
    rw [align_data_index]
    simp only [hal, ne_eq, not_true_eq_false, if_false]
    congr 2
    omega
  | succ f ih =>
    intro i sz hsi hp hsz hd hf
    by_cases hal : (addr + i) % W = 0
    · right
      refine ⟨i, ?_, hal, hp, Nat.le_refl _, by omega⟩
      rw [align_data_index]
      simp only [hal, ne_eq, not_true_eq_false, if_false]
      congr 2
      omega
    · have hds := align_distance_succ W (addr + i) hW hal
      have hs0 : data[s]? = some b0 := hp s hsi
      have hlt : i < data.length := by omega
      obtain ⟨y, hy⟩ : ∃ y, data[i]? = some y := ⟨_, List.getElem?_eq_getElem hlt⟩
      rw [align_data_index]
      simp only [hal, ne_eq, not_false_eq_true, if_true, hs0, hy]
      by_cases hxy : b0 = y
      · subst hxy
        simp only [not_true_eq_false, if_false]
        rw [size_sub_eq sw sz 1 (by omega) (by omega)]
        have hp' := prefixConst_step data b0 i hp hy
        have := ih (i + 1) (sz - 1) (by omega) hp' (by omega)
          (by rw [← Nat.add_assoc]; omega) (by rw [← Nat.add_assoc]; omega)
        rcases this with h | ⟨i', h1, h2, h3, h4, h5⟩
        · left; exact h
        · right
          refine ⟨i', h1, h2, h3, by omega, ?_⟩
          rw [← Nat.add_assoc] at h5
          omega
      · left
        simp only [hxy, not_false_eq_true, if_true, true_and]
        intro hall
        have := hall i hlt
        rw [hy] at this
        exact hxy (Option.some.inj this).symm

theorem word_getElem? (data : List Byte) (W i k : Nat) :
    ((data.drop i).take W)[k]? = if k < W then data[i + k]? else none := by
  rw [List.getElem?_take, List.getElem?_drop]

theorem aligned_loop_spec (sw : SizeWidth) (W : Nat) (data : List Byte) (b0 : Byte)
    (hW : 0 < W) (hn : data.length < 2 ^ sw.bits) (s : Nat) :
    ∀ (fuel i sz : Nat), s + W ≤ i → PrefixConst data b0 i → i + sz = data.length →
      sz ≤ fuel →
      (aligned_loop sw W data fuel s i sz = some (.ret 0)
          ∧ ¬ PrefixConst data b0 data.length) ∨
      (∃ i', aligned_loop sw W data fuel s i sz = some (.next s i' (data.length - i'))
          ∧ PrefixConst data b0 i' ∧ s < i' ∧ i' ≤ data.length) := by
  intro fuel
  induction fuel with
  | zero =>
    intro i sz hsi hp hsz hf
    right
    refine ⟨i, ?_, hp, by omega, by omega⟩
    rw [aligned_loop]
    simp only [show ¬ sz > W by omega, if_false]
    congr 2
    omega
  | succ f ih =>
    intro i sz hsi hp hsz hf
    by_cases hgt : sz > W
    · rw [aligned_loop]
      simp only [hgt, if_true, read_word, show s + W ≤ data.length by omega,
        show i + W ≤ data.length by omega]
      by_cases hxy : (data.drop s).take W = (data.drop i).take W
      · simp only [hxy, ne_eq, not_true_eq_false, if_false]
        rw [size_sub_eq sw sz W (by omega) (by omega)]
        have hp' : PrefixConst data b0 (i + W) := by
          intro j hj
          by_cases hji : j < i
          · exact hp j hji
          · obtain ⟨k, rfl⟩ : ∃ k, j = i + k := ⟨j - i, by omega⟩
            have hk : k < W := by omega
            have h1 := word_getElem? data W s k
            have h2 := word_getElem? data W i k
            rw [if_pos hk] at h1 h2
            rw [← h2, ← hxy, h1]
            exact hp (s + k) (by omega)
        rcases ih (i + W) (sz - W) (by omega) hp' (by omega) (by omega) with h | ⟨i', h1, h2, h3, h4⟩
        · left; exact h
        · right; exact ⟨i', h1, h2, h3, h4⟩
      · left
        simp only [hxy, ne_eq, not_false_eq_true, if_true, true_and]
        intro hall
        apply hxy
        apply List.ext_getElem?
        intro k
        rw [word_getElem?, word_getElem?]
        by_cases hk : k < W
        · rw [if_pos hk, if_pos hk, hall (s + k) (by omega), hall (i + k) (by omega)]
        · rw [if_neg hk, if_neg hk]
    · right
      refine ⟨i, ?_, hp, by omega, by omega⟩
      rw [aligned_loop]
      simp only [hgt, if_false]
      congr 2
      omega

theorem byte_loop_spec (sw : SizeWidth) (data : List Byte) (b0 : Byte)
    (hn : data.length < 2 ^ sw.bits) (s : Nat) :
    ∀ (fuel i sz : Nat), s < i → PrefixConst data b0 i → i + sz = data.length →
      sz ≤ fuel →
      (byte_loop sw data fuel s i sz = some 1 ∧ PrefixConst data b0 data.length) ∨
      (byte_loop sw data fuel s i sz = some 0 ∧ ¬ PrefixConst data b0 data.length) := by
  intro fuel
  induction fuel with
  | zero =>
    intro i sz hsi hp hsz hf
    left
    have h0 : sz = 0 := by omega
    subst h0
    refine ⟨?_, ?_⟩
    · rw [byte_loop]; simp
    · rw [← hsz]; exact hp
  | succ f ih =>
    intro i sz hsi hp hsz hf
    by_cases h0 : sz = 0
    · left
      subst h0
      refine ⟨?_, ?_⟩
      · rw [byte_loop]; simp
      · rw [← hsz]; exact hp
    · have hs0 : data[s]? = some b0 := hp s hsi
      have hlt : i < data.length := by omega
      obtain ⟨y, hy⟩ : ∃ y, data[i]? = some y := ⟨_, List.getElem?_eq_getElem hlt⟩
      rw [byte_loop]
      simp only [h0, ne_eq, not_false_eq_true, if_true, hs0, hy]
      by_cases hxy : b0 = y
      · subst hxy
        simp only [not_true_eq_false, if_false]
        rw [size_sub_eq sw sz 1 (by omega) (by omega)]
        exact ih (i + 1) (sz - 1) (by omega) (prefixConst_step data b0 i hp hy) (by omega)
          (by omega)
      · right
        simp only [hxy, not_false_eq_true, if_true, true_and]
        intro hall
        have := hall i hlt
        rw [hy] at this
        exact hxy (Option.some.inj this).symm

theorem ssize_max_lt (sw : SizeWidth) : SSIZE_MAX sw < 2 ^ sw.bits := by
  cases sw <;> simp [SSIZE_MAX, SizeWidth.bits]

theorem aligned_gap (W a b : Nat) (ha : a % W = 0) (hb : b % W = 0) (hab : a < b) :
    a + W ≤ b := by
  have h1 : W ∣ b - a :=
    Nat.dvd_sub' (Nat.dvd_of_mod_eq_zero hb) (Nat.dvd_of_mod_eq_zero ha)
  have := Nat.le_of_dvd (by omega) h1
  omega

/-- On a buffer of `1 ≤ n ≤ SSIZE_MAX` bytes the check never reads outside the buffer and
returns 1 exactly when all bytes equal the first one, else 0. -/
theorem check_for_empty_block_result (sw : SizeWidth) (W addr : Nat) (data : List Byte)
    (b0 : Byte) (hW : 0 < W) (h0 : data[0]? = some b0) (hmax : data.length ≤ SSIZE_MAX sw) :
    (libvmdk_extent_file_check_for_empty_block sw W addr data = some 1
        ∧ PrefixConst data b0 data.length) ∨
    (libvmdk_extent_file_check_for_empty_block sw W addr data = some 0
        ∧ ¬ PrefixConst data b0 data.length) := by
  have hn : data.length < 2 ^ sw.bits := Nat.lt_of_le_of_lt hmax (ssize_max_lt sw)
  have hpos : 0 < data.length := by
    by_contra hc
    rw [List.getElem?_eq_none (by omega)] at h0
    exact Option.noConfusion h0
  have hp1 : PrefixConst data b0 (0 + 1) := by
    intro j hj
    have : j = 0 := by omega
    rw [this]; exact h0
  unfold libvmdk_extent_file_check_for_empty_block
  simp only [show ¬ data.length > SSIZE_MAX sw by omega, if_false]
  rw [size_sub_eq sw data.length 1 hpos hn]
  by_cases hbig : data.length - 1 > 2 * W
  · simp only [hbig, if_true]
    have hdl := align_distance_lt W (addr + 0) hW
    rcases align_data_start_spec sw W addr data b0 hW hn data.length 0 (data.length - 1) hp1
      (by omega) (by omega) (by omega) with ⟨h, hnp⟩ | ⟨s, h, hs, hps, hsle⟩
    · rw [h]; right; exact ⟨rfl, hnp⟩
    · rw [h]
      simp only []
      have hdl2 := align_distance_lt W (addr + (s + 1)) hW
      rcases align_data_index_spec sw W addr data b0 hW hn s data.length (s + 1)
        (data.length - (s + 1)) (by omega) hps (by omega) (by omega) (by omega)
        with ⟨h, hnp⟩ | ⟨i, h, hi, hpi, hile, hiub⟩
      · rw [h]; right; exact ⟨rfl, hnp⟩
      · rw [h]
        simp only []
        have hgap := aligned_gap W (addr + s) (addr + i) hs hi (by omega)
        rcases aligned_loop_spec sw W data b0 hW hn s data.length i (data.length - i)
          (by omega) hpi (by omega) (by omega) with ⟨h, hnp⟩ | ⟨i', h, hpi', hsi', hi'⟩
        · rw [h]; right; exact ⟨rfl, hnp⟩
        · rw [h]
          simp only []
          exact byte_loop_spec sw data b0 hn s data.length i' (data.length - i') hsi' hpi'
            (by omega) (by omega)
  · simp only [hbig, if_false]
    exact byte_loop_spec sw data b0 hn 0 data.length 1 (data.length - 1) (by omega) hp1
      (by omega) (by omega)


/-! ### The header parser -/

theorem little_endian_value_lt (data : List Byte) :
    ∀ (count offset : Nat), little_endian_value data offset count < 256 ^ count := by
  intro count
  induction count with
  | zero => intro offset; simp [little_endian_value]
  | succ k ih =>
    intro offset
    have h1 : byte_value data offset < 256 := (data.getD offset 0).isLt
    have h2 := ih (offset + 1)
    rw [little_endian_value, pow_succ]
    omega

theorem take_four_length (data sig : List Byte) (h : data.take 4 = sig) (hs : sig.length = 4) :
    4 ≤ data.length := by
  have := congrArg List.length h
  rw [List.length_take, hs] at this
  omega

/-- The parser on a buffer that starts with `vmdk_sparse_file_signature`. -/
theorem read_file_header_data_vmdk (sw : SizeWidth) (extent_file : ExtentFile)
    (data : List Byte) (hsig : data.take 4 = vmdk_sparse_file_signature) :
    libvmdk_extent_file_read_file_header_data sw extent_file data =
      if data.length > SSIZE_MAX sw then .failure .data_size_exceeds_maximum extent_file
      else if data.length < sizeof_vmdk_sparse_file_header_t then
        .failure .vmdk_data_too_small extent_file
      else read_header_values sw { extent_file with file_type := .VMDK_SPARSE_DATA } data := by
  have h4 := take_four_length data _ hsig rfl
  have hne : ¬ vmdk_sparse_file_signature = cowd_sparse_file_signature := by decide
  unfold libvmdk_extent_file_read_file_header_data
  simp only [hne, hsig, show ¬ data.length < 4 by omega, if_false, if_true]

/-- The parser on a buffer that starts with `cowd_sparse_file_signature`. -/
theorem read_file_header_data_cowd (sw : SizeWidth) (extent_file : ExtentFile)
    (data : List Byte) (hsig : data.take 4 = cowd_sparse_file_signature) :
    libvmdk_extent_file_read_file_header_data sw extent_file data =
      if data.length > SSIZE_MAX sw then .failure .data_size_exceeds_maximum extent_file
      else if data.length < sizeof_cowd_sparse_file_header_t then
        .failure .cowd_data_too_small extent_file
      else read_header_values sw { extent_file with file_type := .COWD_SPARSE_DATA } data := by
  have h4 := take_four_length data _ hsig rfl
  unfold libvmdk_extent_file_read_file_header_data
  simp only [hsig, show ¬ data.length < 4 by omega, if_false, if_true]

/-- The parser on a buffer of at least 4 bytes that starts with neither signature. -/
theorem read_file_header_data_other (sw : SizeWidth) (extent_file : ExtentFile)
    (data : List Byte) (h4 : 4 ≤ data.length)
    (hc : data.take 4 ≠ cowd_sparse_file_signature)
    (hv : data.take 4 ≠ vmdk_sparse_file_signature) :
    libvmdk_extent_file_read_file_header_data sw extent_file data =
      if data.length > SSIZE_MAX sw then .failure .data_size_exceeds_maximum extent_file
      else .failure .unsupported_file_signature extent_file := by
  unfold libvmdk_extent_file_read_file_header_data
  simp only [hc, hv, show ¬ data.length < 4 by omega, if_false]

theorem ite_some_eq_none {α : Type} (c : Prop) [Decidable c] (e : α) (x : Option α) :
    (if c then some e else x) = none ↔ ¬ c ∧ x = none := by
  by_cases h : c <;> simp [h]

/-- The checks of lines 919-1049 on a VMDK sparse file pass exactly when the grain size is
more than 8 and even, the number of grain table entries is in `1 .. INT_MAX`, the four
end-of-line bytes are as required and the compression method is 0 or 1. -/
theorem check_header_values_vmdk_none (extent_file : ExtentFile) (data : List Byte)
    (hft : extent_file.file_type = .VMDK_SPARSE_DATA) :
    check_header_values extent_file data = none ↔
      (8 < extent_file.grain_size ∧ extent_file.grain_size % 2 = 0
        ∧ 0 < extent_file.number_of_grain_table_entries
        ∧ extent_file.number_of_grain_table_entries ≤ INT_MAX
        ∧ byte_value data 0x49 = 0x0A ∧ byte_value data 0x4A = 0x20
        ∧ byte_value data 0x4B = 0x0D ∧ byte_value data 0x4C = 0x0A
        ∧ (extent_file.compression_method = 0 ∨ extent_file.compression_method = 1)) := by
  unfold check_header_values LIBVMDK_COMPRESSION_METHOD_NONE LIBVMDK_COMPRESSION_METHOD_DEFLATE
  simp only [hft, true_and, ite_some_eq_none, and_true]
  constructor <;> intro h <;> omega

/-- The checks of lines 919-1049 on a COWD sparse file pass exactly when the grain size is
not 0 and the compression method left in the extent file is 0 or 1. -/
theorem check_header_values_cowd_none (extent_file : ExtentFile) (data : List Byte)
    (hft : extent_file.file_type = .COWD_SPARSE_DATA) :
    check_header_values extent_file data = none ↔
      (0 < extent_file.grain_size
        ∧ (extent_file.compression_method = 0 ∨ extent_file.compression_method = 1)) := by
  unfold check_header_values LIBVMDK_COMPRESSION_METHOD_NONE LIBVMDK_COMPRESSION_METHOD_DEFLATE
  simp only [hft, false_and, if_false, reduceCtorEq, ite_some_eq_none, and_true]
  constructor <;> intro h <;> omega

theorem read_header_values_success (sw : SizeWidth) (extent_file : ExtentFile)
    (data : List Byte) (result : ExtentFile)
    (h : read_header_values sw extent_file data = .success result) :
    check_header_values (copy_header_values extent_file data) data = none
      ∧ set_derived_values sw (copy_header_values extent_file data) = .success result := by
  unfold read_header_values at h
  simp only [] at h
  cases hc : check_header_values (copy_header_values extent_file data) data with
  | none => rw [hc] at h; exact ⟨rfl, h⟩
  | some e => rw [hc] at h; exact Outcome.noConfusion h

theorem read_header_values_failure (sw : SizeWidth) (extent_file : ExtentFile)
    (data : List Byte) (e : HeaderError)
    (h : check_header_values (copy_header_values extent_file data) data = some e) :
    read_header_values sw extent_file data
      = .failure e (copy_header_values extent_file data) := by
  unfold read_header_values
  simp only [h]

theorem set_derived_values_success (sw : SizeWidth) (extent_file result : ExtentFile)
    (h : set_derived_values sw extent_file = .success result) :
    ∃ ef, set_file_type_values (sector_values_to_byte_values extent_file) = some ef
      ∧ check_derived_values sw ef = none
      ∧ result = { ef with
          grain_table_size := sector_aligned_size sw ef.number_of_grain_table_entries
          grain_directory_size :=
            sector_aligned_size sw ef.number_of_grain_directory_entries } := by
  unfold set_derived_values at h
  simp only [] at h
  cases h1 : set_file_type_values (sector_values_to_byte_values extent_file) with
  | none => rw [h1] at h; exact Outcome.noConfusion h
  | some ef =>
    rw [h1] at h
    simp only [] at h
    cases h2 : check_derived_values sw ef with
    | some e => rw [h2] at h; exact Outcome.noConfusion h
    | none =>
      rw [h2] at h
      simp only [Outcome.success.injEq] at h
      exact ⟨ef, rfl, h2, h.symm⟩

/-- A run that does not succeed on a buffer with the VMDK signature either fails with -1 or
divides by zero; it divides by zero only after all checks on the copied values passed. -/
theorem return_value_of_check_failure (sw : SizeWidth) (extent_file : ExtentFile)
    (data : List Byte) (hsig : data.take 4 = vmdk_sparse_file_signature)
    (h : check_header_values
      (copy_header_values { extent_file with file_type := .VMDK_SPARSE_DATA } data) data
        ≠ none) :
    (libvmdk_extent_file_read_file_header_data sw extent_file data).return_value
      = some (-1) := by
  rw [read_file_header_data_vmdk sw extent_file data hsig]
  split_ifs
  · rfl
  · rfl
  · cases hc : check_header_values
      (copy_header_values { extent_file with file_type := .VMDK_SPARSE_DATA } data) data with
    | none => exact absurd hc h
    | some e => rw [read_header_values_failure sw _ data e hc]; rfl

theorem success_vmdk (sw : SizeWidth) (extent_file : ExtentFile)
    (data : List Byte) (hsig : data.take 4 = vmdk_sparse_file_signature)
    (result : ExtentFile)
    (h : libvmdk_extent_file_read_file_header_data sw extent_file data = .success result) :
    read_header_values sw { extent_file with file_type := .VMDK_SPARSE_DATA } data
      = .success result
    ∧ sizeof_vmdk_sparse_file_header_t ≤ data.length ∧ data.length ≤ SSIZE_MAX sw := by
  rw [read_file_header_data_vmdk sw extent_file data hsig] at h
  split_ifs at h with h1 h2
  exact ⟨h, by omega, by omega⟩

theorem success_cowd (sw : SizeWidth) (extent_file : ExtentFile)
    (data : List Byte) (hsig : data.take 4 = cowd_sparse_file_signature)
    (result : ExtentFile)
    (h : libvmdk_extent_file_read_file_header_data sw extent_file data = .success result) :
    read_header_values sw { extent_file with file_type := .COWD_SPARSE_DATA } data
      = .success result
    ∧ sizeof_cowd_sparse_file_header_t ≤ data.length ∧ data.length ≤ SSIZE_MAX sw := by
  rw [read_file_header_data_cowd sw extent_file data hsig] at h
  split_ifs at h with h1 h2
  exact ⟨h, by omega, by omega⟩

theorem success_signature (sw : SizeWidth) (extent_file : ExtentFile)
    (data : List Byte) (result : ExtentFile)
    (h : libvmdk_extent_file_read_file_header_data sw extent_file data = .success result) :
    data.take 4 = cowd_sparse_file_signature ∨ data.take 4 = vmdk_sparse_file_signature := by
  by_cases hc : data.take 4 = cowd_sparse_file_signature
  · exact Or.inl hc
  · by_cases hv : data.take 4 = vmdk_sparse_file_signature
    · exact Or.inr hv
    · exfalso
      unfold libvmdk_extent_file_read_file_header_data at h
      simp only [hc, hv, if_false] at h
      split_ifs at h

/-- The values that a successful run on a VMDK sparse header leaves in the extent file. -/
theorem vmdk_success_values (sw : SizeWidth) (extent_file : ExtentFile) (data : List Byte)
    (result : ExtentFile)
    (h : read_header_values sw { extent_file with file_type := .VMDK_SPARSE_DATA } data
      = .success result) :
    result.file_type = .VMDK_SPARSE_DATA
    ∧ result.grain_size = byte_stream_copy_to_uint64_little_endian data 0x14 * 512 % 2 ^ 64
    ∧ result.number_of_grain_table_entries = byte_stream_copy_to_uint32_little_endian data 0x2C
    ∧ result.compression_method = byte_stream_copy_to_uint16_little_endian data 0x4D
    ∧ result.number_of_grain_table_entries * result.grain_size % 2 ^ 64 ≠ 0 := by
  obtain ⟨_, h2⟩ := read_header_values_success sw _ data result h
  obtain ⟨ef, h3, _, h5⟩ := set_derived_values_success sw _ result h2
  simp only [set_file_type_values, set_vmdk_values, sector_values_to_byte_values,
    copy_header_values, reduceCtorEq, if_false, if_true] at h3
  split_ifs at h3 with hz
  simp only [Option.some.injEq] at h3
  subst h3
  subst h5
  exact ⟨rfl, rfl, rfl, rfl, hz⟩

/-- The values that a successful run on a COWD sparse header leaves in the extent file. -/
theorem cowd_success_values (sw : SizeWidth) (extent_file : ExtentFile) (data : List Byte)
    (result : ExtentFile)
    (h : read_header_values sw { extent_file with file_type := .COWD_SPARSE_DATA } data
      = .success result) :
    result.file_type = .COWD_SPARSE_DATA
    ∧ result.grain_size = byte_stream_copy_to_uint32_little_endian data 0x10 * 512 % 2 ^ 64
    ∧ result.number_of_grain_table_entries = 4096
    ∧ result.compression_method = extent_file.compression_method := by
  obtain ⟨_, h2⟩ := read_header_values_success sw _ data result h
  obtain ⟨ef, h3, _, h5⟩ := set_derived_values_success sw _ result h2
  simp only [set_file_type_values, sector_values_to_byte_values, copy_header_values,
    reduceCtorEq, if_false, if_true] at h3
  simp only [Option.some.injEq] at h3
  subst h3
  subst h5
  exact ⟨rfl, rfl, rfl, rfl⟩

theorem return_value_eq_one_iff (outcome : Outcome) :
    outcome.return_value = some 1 ↔ ∃ result, outcome = .success result := by
  cases outcome <;> simp [Outcome.return_value]

theorem empty_block_bytewise_iff (data : List Byte) (b0 : Byte) (h0 : data[0]? = some b0) :
    empty_block_bytewise data = true ↔ PrefixConst data b0 data.length := by
  cases data with
  | nil => simp at h0
  | cons b rest =>
    have hb : b = b0 := by simpa using h0
    subst hb
    simp only [empty_block_bytewise, List.all_eq_true, beq_iff_eq, List.length_cons]
    constructor
    · intro h j hj
      cases j with
      | zero => exact h0
      | succ k =>
        have hk : k < rest.length := by omega
        rw [List.getElem?_cons_succ, List.getElem?_eq_getElem hk]
        exact congrArg some (h _ (List.getElem_mem hk))
    · intro h x hx
      obtain ⟨k, hk, rfl⟩ := List.getElem_of_mem hx
      have := h (k + 1) (by omega)
      rw [List.getElem?_cons_succ, List.getElem?_eq_getElem hk] at this
      exact Option.some.inj this

theorem prefixConst_iff (data : List Byte) (b0 : Byte) (h0 : data[0]? = some b0) :
    PrefixConst data b0 data.length ↔ ∀ i, i < data.length → data[i]? = data[0]? := by
  unfold PrefixConst
  rw [h0]

/-- C1: for every buffer of `n` bytes with `2 ≤ n ≤ SSIZE_MAX`, every start address `addr`
and every word size `W ≥ 1`, `libvmdk_extent_file_check_for_empty_block` returns the answer
of the byte-wise definition: 1 if and only if every byte equals `buf[0]`, and 0 otherwise. -/
theorem check_for_empty_block_eq_bytewise (sw : SizeWidth) (W addr : Nat) (data : List Byte)
    (hW : 0 < W) (hn : 2 ≤ data.length) (hmax : data.length ≤ SSIZE_MAX sw) :
    libvmdk_extent_file_check_for_empty_block sw W addr data
        = some (if empty_block_bytewise data then 1 else 0)
    ∧ (libvmdk_extent_file_check_for_empty_block sw W addr data = some 1
        ↔ ∀ i, i < data.length → data[i]? = data[0]?)
    ∧ (libvmdk_extent_file_check_for_empty_block sw W addr data = some 0
        ↔ ¬ ∀ i, i < data.length → data[i]? = data[0]?) := by
  obtain ⟨b0, h0⟩ : ∃ b0, data[0]? = some b0 :=
    ⟨_, List.getElem?_eq_getElem (by omega : 0 < data.length)⟩
  have hb := empty_block_bytewise_iff data b0 h0
  have hp := prefixConst_iff data b0 h0
  rcases check_for_empty_block_result sw W addr data b0 hW h0 hmax with ⟨hr, hc⟩ | ⟨hr, hc⟩
  · refine ⟨?_, ?_, ?_⟩
    · rw [hr, if_pos (hb.mpr hc)]
    · rw [hr]; exact ⟨fun _ => hp.mp hc, fun _ => rfl⟩
    · rw [hr]
      constructor
      · intro h; exact absurd h (by decide)
      · intro h; exact absurd (hp.mp hc) h
  · have hnb : ¬ empty_block_bytewise data = true := fun h => hc (hb.mp h)
    refine ⟨?_, ?_, ?_⟩
    · rw [hr, if_neg hnb]
    · rw [hr]
      constructor
      · intro h; exact absurd h (by decide)
      · intro h; exact absurd (hp.mpr h) hc
    · rw [hr]; exact ⟨fun _ h => hc (hp.mpr h), fun _ => rfl⟩

/-- C1, witness: a buffer of 20 equal bytes at address 3, compared in words of 4 bytes. -/
theorem check_for_empty_block_eq_bytewise_witness :
    (0 < 4 ∧ 2 ≤ (List.replicate 20 (7 : Byte)).length
      ∧ (List.replicate 20 (7 : Byte)).length ≤ SSIZE_MAX .w64)
    ∧ libvmdk_extent_file_check_for_empty_block .w64 4 3 (List.replicate 20 (7 : Byte))
        = some (if empty_block_bytewise (List.replicate 20 (7 : Byte)) then 1 else 0) :=
  ⟨by decide, (check_for_empty_block_eq_bytewise .w64 4 3 (List.replicate 20 (7 : Byte))
    (by decide) (by decide) (by decide)).1⟩

/-- C2: a full-size header whose first four bytes are `C O W D` is not recognised: the
parser fails with the unsupported file signature error and leaves the file type as it was.
The same header with the bytes `D W O C` is read as COWD sparse data. -/
theorem cowd_signature_not_recognised :
    example_COWD_header.take 4 = [0x43, 0x4F, 0x57, 0x44]
    ∧ example_COWD_header.length = sizeof_cowd_sparse_file_header_t
    ∧ libvmdk_extent_file_read_file_header_data .w64 libvmdk_extent_file_initialize
        example_COWD_header
      = .failure .unsupported_file_signature libvmdk_extent_file_initialize
    ∧ (libvmdk_extent_file_read_file_header_data .w64 libvmdk_extent_file_initialize
        example_DWOC_header).return_value = some 1 := by
  decide

/-- C3: on every buffer of at least four bytes whose first four bytes are neither
`cowd_sparse_file_signature` nor `vmdk_sparse_file_signature` the parser returns -1 and
never 1, whatever the other bytes are; the error is the unsupported file signature unless
the buffer size itself exceeds `SSIZE_MAX`, and the extent file is not changed. -/
theorem unsupported_signature_rejected (sw : SizeWidth) (extent_file : ExtentFile)
    (data : List Byte) (h4 : 4 ≤ data.length)
    (hc : data.take 4 ≠ cowd_sparse_file_signature)
    (hv : data.take 4 ≠ vmdk_sparse_file_signature) :
    (libvmdk_extent_file_read_file_header_data sw extent_file data).return_value = some (-1)
    ∧ (libvmdk_extent_file_read_file_header_data sw extent_file data).return_value ≠ some 1
    ∧ (data.length ≤ SSIZE_MAX sw →
        libvmdk_extent_file_read_file_header_data sw extent_file data
          = .failure .unsupported_file_signature extent_file) := by
  rw [read_file_header_data_other sw extent_file data h4 hc hv]
  by_cases hs : data.length > SSIZE_MAX sw
  · rw [if_pos hs]
    exact ⟨rfl, by simp [Outcome.return_value], fun h => absurd hs (by omega)⟩
  · rw [if_neg hs]
    exact ⟨rfl, by simp [Outcome.return_value], fun _ => rfl⟩

/-- C3, witness: 512 bytes `X`. -/
theorem unsupported_signature_rejected_witness :
    (4 ≤ (List.replicate 512 (0x58 : Byte)).length
      ∧ (List.replicate 512 (0x58 : Byte)).take 4 ≠ cowd_sparse_file_signature
      ∧ (List.replicate 512 (0x58 : Byte)).take 4 ≠ vmdk_sparse_file_signature)
    ∧ (libvmdk_extent_file_read_file_header_data .w64 libvmdk_extent_file_initialize
        (List.replicate 512 (0x58 : Byte))).return_value = some (-1) :=
  ⟨by decide, (unsupported_signature_rejected .w64 libvmdk_extent_file_initialize
    (List.replicate 512 (0x58 : Byte)) (by decide) (by decide) (by decide)).1⟩

theorem check_derived_values_none (sw : SizeWidth) (extent_file : ExtentFile) :
    check_derived_values sw extent_file = none ↔
      (extent_file.descriptor_size ≤ SSIZE_MAX sw
        ∧ extent_file.number_of_grain_directory_entries ≤ INT_MAX
        ∧ (sw = .w32 → extent_file.number_of_grain_table_entries ≤ SSIZE_MAX sw / 4
            ∧ extent_file.number_of_grain_directory_entries ≤ SSIZE_MAX sw / 4)) := by
  unfold check_derived_values
  simp only [ite_some_eq_none, and_true]
  by_cases hs : sw = .w32
  · simp only [hs, true_and, forall_const]
    constructor <;> intro h <;> omega
  · simp only [hs, false_and, not_false_eq_true, true_and, false_implies, and_true]
    constructor <;> intro h <;> omega

/-- When the checks on the copied values of a VMDK sparse header have passed, the parser
returns 1 exactly when the divisor of line 1063 is not 0 and the checks on the derived values
pass. -/
theorem set_derived_values_vmdk_return_value (sw : SizeWidth) (extent_file : ExtentFile)
    (hft : extent_file.file_type = .VMDK_SPARSE_DATA) :
    (set_derived_values sw extent_file).return_value = some 1 ↔
      (extent_file.number_of_grain_table_entries
          * (extent_file.grain_size * 512 % 2 ^ 64) % 2 ^ 64 ≠ 0
        ∧ extent_file.descriptor_size * 512 % 2 ^ 64 ≤ SSIZE_MAX sw
        ∧ vmdk_number_of_grain_directory_entries
            (extent_file.maximum_data_size * 512 % 2 ^ 64)
            extent_file.number_of_grain_table_entries
            (extent_file.grain_size * 512 % 2 ^ 64) ≤ INT_MAX
        ∧ (sw = .w32 →
            extent_file.number_of_grain_table_entries ≤ SSIZE_MAX sw / 4
            ∧ vmdk_number_of_grain_directory_entries
                (extent_file.maximum_data_size * 512 % 2 ^ 64)
                extent_file.number_of_grain_table_entries
                (extent_file.grain_size * 512 % 2 ^ 64) ≤ SSIZE_MAX sw / 4)) := by
  have hft2 : (sector_values_to_byte_values extent_file).file_type = .VMDK_SPARSE_DATA := hft
  have hcond : check_derived_values sw
        (set_vmdk_values (sector_values_to_byte_values extent_file)) = none ↔
      (extent_file.descriptor_size * 512 % 2 ^ 64 ≤ SSIZE_MAX sw
        ∧ vmdk_number_of_grain_directory_entries
            (extent_file.maximum_data_size * 512 % 2 ^ 64)
            extent_file.number_of_grain_table_entries
            (extent_file.grain_size * 512 % 2 ^ 64) ≤ INT_MAX
        ∧ (sw = .w32 →
            extent_file.number_of_grain_table_entries ≤ SSIZE_MAX sw / 4
            ∧ vmdk_number_of_grain_directory_entries
                (extent_file.maximum_data_size * 512 % 2 ^ 64)
                extent_file.number_of_grain_table_entries
                (extent_file.grain_size * 512 % 2 ^ 64) ≤ SSIZE_MAX sw / 4)) := by
    rw [check_derived_values_none]
    simp only [set_vmdk_values, sector_values_to_byte_values]
  unfold set_derived_values
  simp only [set_file_type_values, hft2, reduceCtorEq, if_false, if_true]
  by_cases hz : extent_file.number_of_grain_table_entries
          * (extent_file.grain_size * 512 % 2 ^ 64) % 2 ^ 64 = 0
  · have hz2 : (sector_values_to_byte_values extent_file).number_of_grain_table_entries
        * (sector_values_to_byte_values extent_file).grain_size % 2 ^ 64 = 0 := hz
    rw [if_pos hz2]
    simp only [Outcome.return_value]
    constructor
    · intro h; cases h
    · intro h; exact absurd hz h.1
  · have hz2 : ¬ (sector_values_to_byte_values extent_file).number_of_grain_table_entries
        * (sector_values_to_byte_values extent_file).grain_size % 2 ^ 64 = 0 := hz
    rw [if_neg hz2]
    simp only [ne_eq, hz, not_false_eq_true, true_and]
    rw [← hcond]
    cases hd : check_derived_values sw
        (set_vmdk_values (sector_values_to_byte_values extent_file)) with
    | some e =>
      simp only [Outcome.return_value]
      constructor
      · intro h; simp at h
      · intro h; cases h
    | none =>
      simp only [Outcome.return_value]

theorem copy_vmdk_file_type (extent_file : ExtentFile) (data : List Byte) :
    (copy_header_values { extent_file with file_type := .VMDK_SPARSE_DATA } data).file_type
      = .VMDK_SPARSE_DATA := rfl

theorem copy_vmdk_maximum_data_size (extent_file : ExtentFile) (data : List Byte) :
    (copy_header_values { extent_file with file_type := .VMDK_SPARSE_DATA }
      data).maximum_data_size = byte_stream_copy_to_uint64_little_endian data 0x0C := rfl

theorem copy_vmdk_grain_size (extent_file : ExtentFile) (data : List Byte) :
    (copy_header_values { extent_file with file_type := .VMDK_SPARSE_DATA } data).grain_size
      = byte_stream_copy_to_uint64_little_endian data 0x14 := rfl

theorem copy_vmdk_descriptor_size (extent_file : ExtentFile) (data : List Byte) :
    (copy_header_values { extent_file with file_type := .VMDK_SPARSE_DATA }
      data).descriptor_size = byte_stream_copy_to_uint64_little_endian data 0x24 := rfl

theorem copy_vmdk_number_of_grain_table_entries (extent_file : ExtentFile)
    (data : List Byte) :
    (copy_header_values { extent_file with file_type := .VMDK_SPARSE_DATA }
      data).number_of_grain_table_entries
      = byte_stream_copy_to_uint32_little_endian data 0x2C := rfl

theorem copy_vmdk_compression_method (extent_file : ExtentFile) (data : List Byte) :
    (copy_header_values { extent_file with file_type := .VMDK_SPARSE_DATA }
      data).compression_method = byte_stream_copy_to_uint16_little_endian data 0x4D := rfl

theorem copy_cowd_file_type (extent_file : ExtentFile) (data : List Byte) :
    (copy_header_values { extent_file with file_type := .COWD_SPARSE_DATA } data).file_type
      = .COWD_SPARSE_DATA := rfl

theorem copy_cowd_grain_size (extent_file : ExtentFile) (data : List Byte) :
    (copy_header_values { extent_file with file_type := .COWD_SPARSE_DATA } data).grain_size
      = byte_stream_copy_to_uint32_little_endian data 0x10 := rfl

/-- The checks on the copied values of a VMDK sparse header pass exactly on the headers that
satisfy the listed validations. -/
theorem check_header_values_vmdk_listed (extent_file : ExtentFile) (data : List Byte) :
    check_header_values
        (copy_header_values { extent_file with file_type := .VMDK_SPARSE_DATA } data) data
      = none ↔ vmdk_listed_validations data := by
  rw [check_header_values_vmdk_none _ data (copy_vmdk_file_type extent_file data)]
  simp only [copy_vmdk_grain_size, copy_vmdk_number_of_grain_table_entries,
    copy_vmdk_compression_method]
  unfold vmdk_listed_validations INT_MAX
  constructor <;> intro h <;> omega

/-- C4, as amended: a full-size KDMV header is accepted (the parser returns 1, whatever the
extent file held before) if and only if it satisfies the listed validations and the
conditions of lines 1062-1118 on the derived values. -/
theorem vmdk_header_accepted_iff (sw : SizeWidth) (extent_file : ExtentFile)
    (data : List Byte) (hsig : data.take 4 = vmdk_sparse_file_signature)
    (hsize : sizeof_vmdk_sparse_file_header_t ≤ data.length)
    (hmax : data.length ≤ SSIZE_MAX sw) :
    (libvmdk_extent_file_read_file_header_data sw extent_file data).return_value = some 1 ↔
      (vmdk_listed_validations data ∧ vmdk_derived_validations sw data) := by
  rw [read_file_header_data_vmdk sw extent_file data hsig, if_neg (by omega),
    if_neg (by omega)]
  have hchk := check_header_values_vmdk_listed extent_file data
  have hset := set_derived_values_vmdk_return_value sw
    (copy_header_values { extent_file with file_type := .VMDK_SPARSE_DATA } data)
    (copy_vmdk_file_type extent_file data)
  simp only [copy_vmdk_grain_size, copy_vmdk_number_of_grain_table_entries,
    copy_vmdk_maximum_data_size, copy_vmdk_descriptor_size] at hset
  unfold read_header_values
  simp only []
  cases hc : check_header_values
      (copy_header_values { extent_file with file_type := .VMDK_SPARSE_DATA } data) data with
  | some e =>
    simp only [Outcome.return_value]
    constructor
    · intro h; simp at h
    · intro h
      rw [hchk.mpr h.1] at hc
      cases hc
  | none =>
    simp only []
    rw [hset]
    unfold vmdk_derived_validations
    exact ⟨fun h => ⟨hchk.mp hc, h⟩, fun h => h.2⟩

/-- C4, witness: the header of scenario S1 is accepted. -/
theorem vmdk_header_accepted_iff_witness :
    (example_KDMV_header.take 4 = vmdk_sparse_file_signature
      ∧ sizeof_vmdk_sparse_file_header_t ≤ example_KDMV_header.length
      ∧ example_KDMV_header.length ≤ SSIZE_MAX .w64)
    ∧ ((libvmdk_extent_file_read_file_header_data .w64 libvmdk_extent_file_initialize
          example_KDMV_header).return_value = some 1 ↔
        (vmdk_listed_validations example_KDMV_header
          ∧ vmdk_derived_validations .w64 example_KDMV_header)) :=
  ⟨by decide, vmdk_header_accepted_iff .w64 libvmdk_extent_file_initialize
    example_KDMV_header (by decide) (by decide) (by decide)⟩

/-- C4, counterexample: the header of scenario S1 with `2 ^ 54` descriptor sectors is a
full-size KDMV header that satisfies all listed validations, and the parser returns -1 on a
freshly initialised extent file (the descriptor size in bytes exceeds `SSIZE_MAX`). -/
theorem vmdk_listed_validations_not_sufficient :
    example_KDMV_header_descriptor_sectors.take 4 = vmdk_sparse_file_signature
    ∧ example_KDMV_header_descriptor_sectors.length = sizeof_vmdk_sparse_file_header_t
    ∧ byte_value example_KDMV_header_descriptor_sectors 0x49 = 0x0A
    ∧ byte_value example_KDMV_header_descriptor_sectors 0x4A = 0x20
    ∧ byte_value example_KDMV_header_descriptor_sectors 0x4B = 0x0D
    ∧ byte_value example_KDMV_header_descriptor_sectors 0x4C = 0x0A
    ∧ byte_stream_copy_to_uint16_little_endian example_KDMV_header_descriptor_sectors 0x4D = 0
    ∧ byte_stream_copy_to_uint64_little_endian example_KDMV_header_descriptor_sectors 0x14
        = 128
    ∧ byte_stream_copy_to_uint32_little_endian example_KDMV_header_descriptor_sectors 0x2C
        = 512
    ∧ byte_stream_copy_to_uint64_little_endian example_KDMV_header_descriptor_sectors 0x24
        = 2 ^ 54
    ∧ (libvmdk_extent_file_read_file_header_data .w64 libvmdk_extent_file_initialize
        example_KDMV_header_descriptor_sectors).return_value = some (-1)
    ∧ (libvmdk_extent_file_read_file_header_data .w64 libvmdk_extent_file_initialize
        example_KDMV_header_descriptor_sectors).error
        = some .descriptor_size_exceeds_maximum := by
  decide

/-- A successful run on a buffer with the VMDK signature: the header satisfies the listed
validations. -/
theorem vmdk_success_listed (sw : SizeWidth) (extent_file : ExtentFile) (data : List Byte)
    (hsig : data.take 4 = vmdk_sparse_file_signature) (result : ExtentFile)
    (h : libvmdk_extent_file_read_file_header_data sw extent_file data = .success result) :
    vmdk_listed_validations data := by
  obtain ⟨h1, _, _⟩ := success_vmdk sw extent_file data hsig result h
  exact (check_header_values_vmdk_listed extent_file data).mp
    (read_header_values_success sw _ data result h1).1

/-- A buffer with the VMDK signature that does not satisfy the listed validations: the
parser returns -1. -/
theorem vmdk_not_listed_rejected (sw : SizeWidth) (extent_file : ExtentFile)
    (data : List Byte) (hsig : data.take 4 = vmdk_sparse_file_signature)
    (h : ¬ vmdk_listed_validations data) :
    (libvmdk_extent_file_read_file_header_data sw extent_file data).return_value
      = some (-1) :=
  return_value_of_check_failure sw extent_file data hsig
    (fun hc => h ((check_header_values_vmdk_listed extent_file data).mp hc))

/-- C5: on a KDMV header, whenever the parser returns 1 the bytes at 0x49, 0x4A, 0x4B and
0x4C are 0x0A, 0x20, 0x0D and 0x0A; and when any of the four has another value the parser
returns -1. -/
theorem vmdk_end_of_line_bytes_checked (sw : SizeWidth) (extent_file : ExtentFile)
    (data : List Byte) (hsig : data.take 4 = vmdk_sparse_file_signature) :
    ((libvmdk_extent_file_read_file_header_data sw extent_file data).return_value = some 1 →
      byte_value data 0x49 = 0x0A ∧ byte_value data 0x4A = 0x20
      ∧ byte_value data 0x4B = 0x0D ∧ byte_value data 0x4C = 0x0A)
    ∧ (¬ (byte_value data 0x49 = 0x0A ∧ byte_value data 0x4A = 0x20
          ∧ byte_value data 0x4B = 0x0D ∧ byte_value data 0x4C = 0x0A) →
      (libvmdk_extent_file_read_file_header_data sw extent_file data).return_value
        = some (-1)) := by
  constructor
  · intro h
    obtain ⟨result, hr⟩ := (return_value_eq_one_iff _).mp h
    have hl := vmdk_success_listed sw extent_file data hsig result hr
    exact ⟨hl.1, hl.2.1, hl.2.2.1, hl.2.2.2.1⟩
  · intro h
    apply vmdk_not_listed_rejected sw extent_file data hsig
    intro hl
    exact h ⟨hl.1, hl.2.1, hl.2.2.1, hl.2.2.2.1⟩

/-- C5, witness: the header of scenario S1. -/
theorem vmdk_end_of_line_bytes_checked_witness :
    example_KDMV_header.take 4 = vmdk_sparse_file_signature
    ∧ (libvmdk_extent_file_read_file_header_data .w64 libvmdk_extent_file_initialize
        example_KDMV_header).return_value = some 1
    ∧ byte_value example_KDMV_header 0x49 = 0x0A ∧ byte_value example_KDMV_header 0x4A = 0x20
    ∧ byte_value example_KDMV_header 0x4B = 0x0D
    ∧ byte_value example_KDMV_header 0x4C = 0x0A :=
  ⟨by decide, by decide,
    (vmdk_end_of_line_bytes_checked .w64 libvmdk_extent_file_initialize example_KDMV_header
      (by decide)).1 (by decide)⟩

theorem ite_some_eq_some {α : Type} (c : Prop) [Decidable c] (a e : α) (x : Option α) :
    (if c then some a else x) = some e ↔ (c ∧ a = e) ∨ (¬ c ∧ x = e) := by
  by_cases h : c <;> simp [h]

/-- C7: a header of either variant whose grain sectors field is 0 (32-bit at 0x10 in a COWD
header, 64-bit at 0x14 in a KDMV header) makes the parser return -1; and whenever the parser
returns 1 the stored grain size in bytes is greater than 0. -/
theorem grain_sectors_zero_rejected (sw : SizeWidth) (extent_file : ExtentFile)
    (data : List Byte) :
    (data.take 4 = cowd_sparse_file_signature →
      byte_stream_copy_to_uint32_little_endian data 0x10 = 0 →
      (libvmdk_extent_file_read_file_header_data sw extent_file data).return_value
        = some (-1))
    ∧ (data.take 4 = vmdk_sparse_file_signature →
      byte_stream_copy_to_uint64_little_endian data 0x14 = 0 →
      (libvmdk_extent_file_read_file_header_data sw extent_file data).return_value
        = some (-1))
    ∧ (∀ result,
        libvmdk_extent_file_read_file_header_data sw extent_file data = .success result →
          0 < result.grain_size) := by
  refine ⟨?_, ?_, ?_⟩
  · intro hsig h0
    rw [read_file_header_data_cowd sw extent_file data hsig]
    split_ifs
    · rfl
    · rfl
    · cases hc : check_header_values
        (copy_header_values { extent_file with file_type := .COWD_SPARSE_DATA } data) data with
      | none =>
        have := (check_header_values_cowd_none _ data
          (copy_cowd_file_type extent_file data)).mp hc
        rw [copy_cowd_grain_size, h0] at this
        exact absurd this.1 (by decide)
      | some e => rw [read_header_values_failure sw _ data e hc]; rfl
  · intro hsig h0
    apply vmdk_not_listed_rejected sw extent_file data hsig
    intro hl
    have := hl.2.2.2.2.2.1
    omega
  · intro result h
    rcases success_signature sw extent_file data result h with hsig | hsig
    · obtain ⟨h1, _, _⟩ := success_cowd sw extent_file data hsig result h
      have hv := cowd_success_values sw extent_file data result h1
      have hc := (check_header_values_cowd_none _ data
        (copy_cowd_file_type extent_file data)).mp (read_header_values_success sw _ data result h1).1
      rw [copy_cowd_grain_size] at hc
      have hlt : byte_stream_copy_to_uint32_little_endian data 0x10 < 4294967296 :=
        little_endian_value_lt data 4 0x10
      rw [hv.2.1]
      have h64 : (2 : Nat) ^ 64 = 18446744073709551616 := by norm_num
      rw [h64]
      omega
    · obtain ⟨h1, _, _⟩ := success_vmdk sw extent_file data hsig result h
      have hv := vmdk_success_values sw extent_file data result h1
      have hnz := hv.2.2.2.2
      by_contra hz
      have hz0 : result.grain_size = 0 := by omega
      rw [hz0, Nat.mul_zero, Nat.zero_mod] at hnz
      exact hnz rfl

/-- C7, witness: the two example headers that are accepted have a positive grain size, and
with the grain sectors set to 0 they are rejected. -/
theorem grain_sectors_zero_rejected_witness :
    (libvmdk_extent_file_read_file_header_data .w64 libvmdk_extent_file_initialize
        (example_DWOC_header.set 0x10 0)).return_value = some (-1)
    ∧ (libvmdk_extent_file_read_file_header_data .w64 libvmdk_extent_file_initialize
        (example_KDMV_header.set 0x14 0)).return_value = some (-1)
    ∧ (libvmdk_extent_file_read_file_header_data .w64 libvmdk_extent_file_initialize
        example_KDMV_header).return_value = some 1 :=
  ⟨(grain_sectors_zero_rejected .w64 libvmdk_extent_file_initialize
      (example_DWOC_header.set 0x10 0)).1 (by decide) (by decide),
    (grain_sectors_zero_rejected .w64 libvmdk_extent_file_initialize
      (example_KDMV_header.set 0x14 0)).2.1 (by decide) (by decide),
    by decide⟩

/-- C8: on a KDMV header the parser returns -1 when the grain sectors (64-bit at 0x14) are
at most 8 or odd; whenever it returns 1 they are more than 8 and even. -/
theorem vmdk_grain_sectors_checked (sw : SizeWidth) (extent_file : ExtentFile)
    (data : List Byte) (hsig : data.take 4 = vmdk_sparse_file_signature) :
    ((byte_stream_copy_to_uint64_little_endian data 0x14 ≤ 8
        ∨ byte_stream_copy_to_uint64_little_endian data 0x14 % 2 = 1) →
      (libvmdk_extent_file_read_file_header_data sw extent_file data).return_value
        = some (-1))
    ∧ ((libvmdk_extent_file_read_file_header_data sw extent_file data).return_value
        = some 1 →
      8 < byte_stream_copy_to_uint64_little_endian data 0x14
      ∧ byte_stream_copy_to_uint64_little_endian data 0x14 % 2 = 0) := by
  constructor
  · intro h
    apply vmdk_not_listed_rejected sw extent_file data hsig
    intro hl
    have h1 := hl.2.2.2.2.2.1
    have h2 := hl.2.2.2.2.2.2.1
    omega
  · intro h
    obtain ⟨result, hr⟩ := (return_value_eq_one_iff _).mp h
    have hl := vmdk_success_listed sw extent_file data hsig result hr
    exact ⟨hl.2.2.2.2.2.1, hl.2.2.2.2.2.2.1⟩

/-- C8, witness: the header of scenario S1 with 9 sectors per grain is rejected. -/
theorem vmdk_grain_sectors_checked_witness :
    (example_KDMV_header.set 0x14 9).take 4 = vmdk_sparse_file_signature
    ∧ byte_stream_copy_to_uint64_little_endian (example_KDMV_header.set 0x14 9) 0x14 = 9
    ∧ (libvmdk_extent_file_read_file_header_data .w64 libvmdk_extent_file_initialize
        (example_KDMV_header.set 0x14 9)).return_value = some (-1) :=
  ⟨by decide, by decide,
    (vmdk_grain_sectors_checked .w64 libvmdk_extent_file_initialize
      (example_KDMV_header.set 0x14 9) (by decide)).1 (by decide)⟩

/-- C9: the header of scenario S1 with 10 sectors per grain, which is not a power of two,
is accepted: the parser returns 1 and stores a grain size of 5120 bytes. -/
theorem vmdk_grain_sectors_not_power_of_two_accepted :
    example_KDMV_header_grain_sectors_10.take 4 = vmdk_sparse_file_signature
    ∧ example_KDMV_header_grain_sectors_10.length = sizeof_vmdk_sparse_file_header_t
    ∧ byte_stream_copy_to_uint64_little_endian example_KDMV_header_grain_sectors_10 0x14 = 10
    ∧ (∀ k : Nat, 2 ^ k ≠ 10)
    ∧ libvmdk_extent_file_read_file_header_data .w64 libvmdk_extent_file_initialize
        example_KDMV_header_grain_sectors_10
      = .success
          { file_type := .VMDK_SPARSE_DATA, format_version := 1, flags := 3,
            maximum_data_size := 524288, grain_size := 5120, descriptor_offset := 0,
            descriptor_size := 0, primary_grain_directory_offset := 512,
            secondary_grain_directory_offset := 0, number_of_grain_table_entries := 512,
            grain_table_size := 2048, number_of_grain_directory_entries := 1,
            grain_directory_size := 512, is_dirty := 0, compression_method := 0 } := by
  refine ⟨by decide, by decide, by decide, ?_, by decide⟩
  intro k hk
  have h4 : k < 4 := by
    by_contra hge
    have := Nat.pow_le_pow_right (by decide : 0 < 2) (by omega : 4 ≤ k)
    omega
  interval_cases k <;> simp at hk

/-- C10: after the parser has returned 1, the number of grain table entries is 4096 for a
COWD header, whatever its bytes, and for a KDMV header it is the 32-bit little-endian value
at 0x2C, which is between 1 and `2 ^ 31 - 1`; a KDMV header in which that value is 0 or
more than `2 ^ 31 - 1` makes the parser return -1. -/
theorem number_of_grain_table_entries_after_success (sw : SizeWidth)
    (extent_file : ExtentFile) (data : List Byte) :
    (∀ result,
      libvmdk_extent_file_read_file_header_data sw extent_file data = .success result →
        (data.take 4 = cowd_sparse_file_signature →
          result.number_of_grain_table_entries = 4096)
        ∧ (data.take 4 = vmdk_sparse_file_signature →
          result.number_of_grain_table_entries
              = byte_stream_copy_to_uint32_little_endian data 0x2C
            ∧ 1 ≤ result.number_of_grain_table_entries
            ∧ result.number_of_grain_table_entries ≤ 2 ^ 31 - 1))
    ∧ (data.take 4 = vmdk_sparse_file_signature →
        (byte_stream_copy_to_uint32_little_endian data 0x2C = 0
          ∨ 2 ^ 31 - 1 < byte_stream_copy_to_uint32_little_endian data 0x2C) →
        (libvmdk_extent_file_read_file_header_data sw extent_file data).return_value
          = some (-1)) := by
  constructor
  · intro result h
    constructor
    · intro hsig
      obtain ⟨h1, _, _⟩ := success_cowd sw extent_file data hsig result h
      exact (cowd_success_values sw extent_file data result h1).2.2.1
    · intro hsig
      obtain ⟨h1, _, _⟩ := success_vmdk sw extent_file data hsig result h
      have hv := vmdk_success_values sw extent_file data result h1
      have hl := vmdk_success_listed sw extent_file data hsig result h
      have h1 := hl.2.2.2.2.2.2.2.1
      have h2 := hl.2.2.2.2.2.2.2.2
      rw [hv.2.2.1]
      exact ⟨rfl, h1, h2⟩
  · intro hsig h
    apply vmdk_not_listed_rejected sw extent_file data hsig
    intro hl
    have h1 := hl.2.2.2.2.2.2.2.1
    have h2 := hl.2.2.2.2.2.2.2.2
    omega

/-- C10, witness: the accepted example headers; the COWD one yields 4096 entries, the KDMV
one the 512 entries of its field at 0x2C. -/
theorem number_of_grain_table_entries_after_success_witness :
    (∃ result,
      libvmdk_extent_file_read_file_header_data .w64 libvmdk_extent_file_initialize
          example_DWOC_header = .success result
        ∧ result.number_of_grain_table_entries = 4096)
    ∧ (∃ result,
      libvmdk_extent_file_read_file_header_data .w64 libvmdk_extent_file_initialize
          example_KDMV_header = .success result
        ∧ result.number_of_grain_table_entries = 512) :=
  ⟨⟨_, rfl, ((number_of_grain_table_entries_after_success .w64 libvmdk_extent_file_initialize
      example_DWOC_header).1 _ rfl).1 (by decide)⟩,
    ⟨_, rfl, (((number_of_grain_table_entries_after_success .w64
      libvmdk_extent_file_initialize example_KDMV_header).1 _ rfl).2 (by decide)).1.trans
      (by decide)⟩⟩


/-! ### The values after a successful run -/

/-- All values that a successful run on a VMDK sparse header leaves in the extent file, and
the conditions on the derived values that it has passed. -/
theorem vmdk_success_all (sw : SizeWidth) (extent_file : ExtentFile) (data : List Byte)
    (result : ExtentFile)
    (h : read_header_values sw { extent_file with file_type := .VMDK_SPARSE_DATA } data
      = .success result) :
    (result.format_version = byte_stream_copy_to_uint32_little_endian data 0x04
      ∧ result.flags = byte_stream_copy_to_uint32_little_endian data 0x08
      ∧ result.maximum_data_size
          = byte_stream_copy_to_uint64_little_endian data 0x0C * 512 % 2 ^ 64
      ∧ result.grain_size = byte_stream_copy_to_uint64_little_endian data 0x14 * 512 % 2 ^ 64
      ∧ result.descriptor_offset
          = byte_stream_copy_to_uint64_little_endian data 0x1C * 512 % 2 ^ 64
      ∧ result.descriptor_size
          = byte_stream_copy_to_uint64_little_endian data 0x24 * 512 % 2 ^ 64
      ∧ result.number_of_grain_table_entries
          = byte_stream_copy_to_uint32_little_endian data 0x2C
      ∧ result.secondary_grain_directory_offset
          = byte_stream_copy_to_uint64_little_endian data 0x30 * 512 % 2 ^ 64
      ∧ result.primary_grain_directory_offset
          = byte_stream_copy_to_uint64_little_endian data 0x38 * 512 % 2 ^ 64
      ∧ result.is_dirty = byte_value data 0x48
      ∧ result.compression_method = byte_stream_copy_to_uint16_little_endian data 0x4D)
    ∧ (result.file_type = .VMDK_SPARSE_DATA
      ∧ result.number_of_grain_directory_entries
          = vmdk_number_of_grain_directory_entries result.maximum_data_size
              result.number_of_grain_table_entries result.grain_size
      ∧ result.grain_table_size
          = sector_aligned_size sw result.number_of_grain_table_entries
      ∧ result.grain_directory_size
          = sector_aligned_size sw result.number_of_grain_directory_entries)
    ∧ (result.descriptor_size ≤ SSIZE_MAX sw
      ∧ result.number_of_grain_directory_entries ≤ INT_MAX
      ∧ (sw = .w32 → result.number_of_grain_table_entries ≤ SSIZE_MAX sw / 4
          ∧ result.number_of_grain_directory_entries ≤ SSIZE_MAX sw / 4)) := by
  obtain ⟨_, h2⟩ := read_header_values_success sw _ data result h
  obtain ⟨ef, h3, h4, h5⟩ := set_derived_values_success sw _ result h2
  simp only [set_file_type_values, set_vmdk_values, sector_values_to_byte_values,
    copy_header_values, reduceCtorEq, if_false, if_true] at h3
  split_ifs at h3 with hz
  simp only [Option.some.injEq] at h3
  have h6 := (check_derived_values_none sw ef).mp h4
  subst h3
  subst h5
  dsimp only at h6 ⊢
  exact ⟨⟨rfl, rfl, rfl, rfl, rfl, rfl, rfl, rfl, rfl, rfl, rfl⟩, ⟨rfl, rfl, rfl, rfl⟩, h6⟩

/-- All values that a successful run on a COWD sparse header leaves in the extent file, and
the conditions on the derived values that it has passed. -/
theorem cowd_success_all (sw : SizeWidth) (extent_file : ExtentFile) (data : List Byte)
    (result : ExtentFile)
    (h : read_header_values sw { extent_file with file_type := .COWD_SPARSE_DATA } data
      = .success result) :
    (result.format_version = byte_stream_copy_to_uint32_little_endian data 0x04
      ∧ result.flags = byte_stream_copy_to_uint32_little_endian data 0x08
      ∧ result.maximum_data_size
          = byte_stream_copy_to_uint32_little_endian data 0x0C * 512 % 2 ^ 64
      ∧ result.grain_size = byte_stream_copy_to_uint32_little_endian data 0x10 * 512 % 2 ^ 64
      ∧ result.primary_grain_directory_offset
          = byte_stream_copy_to_uint32_little_endian data 0x14 * 512 % 2 ^ 64
      ∧ result.number_of_grain_directory_entries
          = byte_stream_copy_to_uint32_little_endian data 0x18)
    ∧ (result.file_type = .COWD_SPARSE_DATA
      ∧ result.number_of_grain_table_entries = 4096
      ∧ result.grain_table_size
          = sector_aligned_size sw result.number_of_grain_table_entries
      ∧ result.grain_directory_size
          = sector_aligned_size sw result.number_of_grain_directory_entries)
    ∧ (result.descriptor_offset = extent_file.descriptor_offset
      ∧ result.descriptor_size = extent_file.descriptor_size
      ∧ result.secondary_grain_directory_offset
          = extent_file.secondary_grain_directory_offset
      ∧ result.is_dirty = extent_file.is_dirty
      ∧ result.compression_method = extent_file.compression_method)
    ∧ (result.descriptor_size ≤ SSIZE_MAX sw
      ∧ result.number_of_grain_directory_entries ≤ INT_MAX
      ∧ (sw = .w32 → result.number_of_grain_table_entries ≤ SSIZE_MAX sw / 4
          ∧ result.number_of_grain_directory_entries ≤ SSIZE_MAX sw / 4)) := by
  obtain ⟨_, h2⟩ := read_header_values_success sw _ data result h
  obtain ⟨ef, h3, h4, h5⟩ := set_derived_values_success sw _ result h2
  simp only [set_file_type_values, sector_values_to_byte_values, copy_header_values,
    reduceCtorEq, if_false, if_true] at h3
  simp only [Option.some.injEq] at h3
  have h6 := (check_derived_values_none sw ef).mp h4
  subst h3
  subst h5
  dsimp only at h6 ⊢
  exact ⟨⟨rfl, rfl, rfl, rfl, rfl, rfl⟩, ⟨rfl, rfl, rfl, rfl⟩, ⟨rfl, rfl, rfl, rfl, rfl⟩, h6⟩

theorem uint32_lt (data : List Byte) (offset : Nat) :
    byte_stream_copy_to_uint32_little_endian data offset < 4294967296 :=
  little_endian_value_lt data 4 offset

theorem uint64_lt (data : List Byte) (offset : Nat) :
    byte_stream_copy_to_uint64_little_endian data offset < 18446744073709551616 :=
  little_endian_value_lt data 8 offset

theorem two_pow_64 : (2 : Nat) ^ 64 = 18446744073709551616 := by norm_num

theorem two_pow_32 : (2 : Nat) ^ 32 = 4294967296 := by norm_num

/-- What every successful run guarantees about the values the grain directory loader uses:
the grain size and the number of grain table entries are positive, both numbers of entries
are at most `INT_MAX` (and at most `SSIZE_MAX / 4` with a 32-bit `size_t`), and the two
sizes are the sector aligned sizes of four bytes per entry. -/
theorem success_bounds (sw : SizeWidth) (extent_file : ExtentFile) (data : List Byte)
    (result : ExtentFile)
    (h : libvmdk_extent_file_read_file_header_data sw extent_file data = .success result) :
    0 < result.grain_size ∧ result.grain_size < 2 ^ 64
    ∧ result.maximum_data_size < 2 ^ 64
    ∧ 0 < result.number_of_grain_table_entries
    ∧ result.number_of_grain_table_entries ≤ INT_MAX
    ∧ result.number_of_grain_directory_entries ≤ INT_MAX
    ∧ (sw = .w32 → result.number_of_grain_table_entries ≤ SSIZE_MAX sw / 4
        ∧ result.number_of_grain_directory_entries ≤ SSIZE_MAX sw / 4)
    ∧ result.grain_table_size = sector_aligned_size sw result.number_of_grain_table_entries
    ∧ result.grain_directory_size
        = sector_aligned_size sw result.number_of_grain_directory_entries := by
  have hm : ∀ x : Nat, x % 2 ^ 64 < 2 ^ 64 := fun x => Nat.mod_lt _ (by norm_num)
  rcases success_signature sw extent_file data result h with hsig | hsig
  · obtain ⟨h1, _, _⟩ := success_cowd sw extent_file data hsig result h
    obtain ⟨hv, hd, _, hc⟩ := cowd_success_all sw extent_file data result h1
    have hc2 := (check_header_values_cowd_none _ data
      (copy_cowd_file_type extent_file data)).mp (read_header_values_success sw _ data result h1).1
    rw [copy_cowd_grain_size] at hc2
    have hlt := uint32_lt data 0x10
    refine ⟨?_, ?_, ?_, ?_, ?_, hc.2.1, ?_, hd.2.2.1, hd.2.2.2⟩
    · rw [hv.2.2.2.1, two_pow_64]; omega
    · rw [hv.2.2.2.1]; exact hm _
    · rw [hv.2.2.1]; exact hm _
    · rw [hd.2.1]; decide
    · rw [hd.2.1]; decide
    · intro hs
      have := hc.2.2 hs
      exact this
  · obtain ⟨h1, _, _⟩ := success_vmdk sw extent_file data hsig result h
    obtain ⟨hv, hd, hc⟩ := vmdk_success_all sw extent_file data result h1
    have hnz := (vmdk_success_values sw extent_file data result h1).2.2.2.2
    have hl := vmdk_success_listed sw extent_file data hsig result h
    refine ⟨?_, ?_, ?_, ?_, ?_, hc.2.1, hc.2.2, hd.2.2.1, hd.2.2.2⟩
    · by_contra hz
      have hz0 : result.grain_size = 0 := by omega
      rw [hz0, Nat.mul_zero, Nat.zero_mod] at hnz
      exact hnz rfl
    · rw [hv.2.2.2.1]; exact hm _
    · rw [hv.2.2.1]; exact hm _
    · rw [hv.2.2.2.2.2.2.1]; exact hl.2.2.2.2.2.2.2.1
    · rw [hv.2.2.2.2.2.2.1]; unfold INT_MAX; exact hl.2.2.2.2.2.2.2.2

theorem is_byte_value_of_sectors_intro (stored sectors : Nat)
    (h : stored = sectors * 512 % 2 ^ 64) : is_byte_value_of_sectors stored sectors := by
  unfold is_byte_value_of_sectors
  rw [two_pow_64] at h ⊢
  constructor
  · omega
  · intro hlt
    have : (2 : Nat) ^ 55 = 36028797018963968 := by norm_num
    rw [this] at hlt
    omega

/-- C11, as amended: after the parser has returned 1, the stored maximum data size, grain
size and primary grain directory offset of a COWD header are exactly 512 times the 32-bit
sector values of the header; for a KDMV header these three and the descriptor offset, the
descriptor size and the secondary grain directory offset are 512 times the 64-bit sector
values modulo `2 ^ 64`, hence exactly 512 times the sector value when it is below
`2 ^ 55`. -/
theorem sector_values_stored_as_byte_values (sw : SizeWidth) (extent_file : ExtentFile)
    (data : List Byte) (result : ExtentFile)
    (h : libvmdk_extent_file_read_file_header_data sw extent_file data = .success result) :
    (data.take 4 = cowd_sparse_file_signature →
      result.maximum_data_size = 512 * byte_stream_copy_to_uint32_little_endian data 0x0C
      ∧ result.grain_size = 512 * byte_stream_copy_to_uint32_little_endian data 0x10
      ∧ result.primary_grain_directory_offset
          = 512 * byte_stream_copy_to_uint32_little_endian data 0x14)
    ∧ (data.take 4 = vmdk_sparse_file_signature →
      is_byte_value_of_sectors result.maximum_data_size
          (byte_stream_copy_to_uint64_little_endian data 0x0C)
      ∧ is_byte_value_of_sectors result.grain_size
          (byte_stream_copy_to_uint64_little_endian data 0x14)
      ∧ is_byte_value_of_sectors result.descriptor_offset
          (byte_stream_copy_to_uint64_little_endian data 0x1C)
      ∧ is_byte_value_of_sectors result.descriptor_size
          (byte_stream_copy_to_uint64_little_endian data 0x24)
      ∧ is_byte_value_of_sectors result.secondary_grain_directory_offset
          (byte_stream_copy_to_uint64_little_endian data 0x30)
      ∧ is_byte_value_of_sectors result.primary_grain_directory_offset
          (byte_stream_copy_to_uint64_little_endian data 0x38)) := by
  constructor
  · intro hsig
    obtain ⟨h1, _, _⟩ := success_cowd sw extent_file data hsig result h
    obtain ⟨hv, _, _, _⟩ := cowd_success_all sw extent_file data result h1
    have h0C := uint32_lt data 0x0C
    have h10 := uint32_lt data 0x10
    have h14 := uint32_lt data 0x14
    rw [hv.2.2.1, hv.2.2.2.1, hv.2.2.2.2.1, two_pow_64]
    omega
  · intro hsig
    obtain ⟨h1, _, _⟩ := success_vmdk sw extent_file data hsig result h
    obtain ⟨hv, _, _⟩ := vmdk_success_all sw extent_file data result h1
    exact ⟨is_byte_value_of_sectors_intro _ _ hv.2.2.1,
      is_byte_value_of_sectors_intro _ _ hv.2.2.2.1,
      is_byte_value_of_sectors_intro _ _ hv.2.2.2.2.1,
      is_byte_value_of_sectors_intro _ _ hv.2.2.2.2.2.1,
      is_byte_value_of_sectors_intro _ _ hv.2.2.2.2.2.2.2.1,
      is_byte_value_of_sectors_intro _ _ hv.2.2.2.2.2.2.2.2.1⟩

/-- C11, witness: the header of scenario S1 is accepted and its 1024 data sectors are stored
as 524288 bytes. -/
theorem sector_values_stored_as_byte_values_witness :
    ∃ result,
      libvmdk_extent_file_read_file_header_data .w64 libvmdk_extent_file_initialize
          example_KDMV_header = .success result
      ∧ is_byte_value_of_sectors result.maximum_data_size
          (byte_stream_copy_to_uint64_little_endian example_KDMV_header 0x0C)
      ∧ result.maximum_data_size = 524288 :=
  ⟨_, rfl, ((sector_values_stored_as_byte_values .w64 libvmdk_extent_file_initialize
    example_KDMV_header _ rfl).2 (by decide)).1, rfl⟩

/-- C11, counterexample: the header of scenario S1 with `1024 + 2 ^ 55` data sectors is
accepted, and the stored maximum data size is 524288, not 512 times the sector value. -/
theorem sector_values_wrap_around :
    example_KDMV_header_data_sectors.take 4 = vmdk_sparse_file_signature
    ∧ example_KDMV_header_data_sectors.length = sizeof_vmdk_sparse_file_header_t
    ∧ byte_stream_copy_to_uint64_little_endian example_KDMV_header_data_sectors 0x0C
        = 1024 + 2 ^ 55
    ∧ (libvmdk_extent_file_read_file_header_data .w64 libvmdk_extent_file_initialize
        example_KDMV_header_data_sectors).return_value = some 1
    ∧ (libvmdk_extent_file_read_file_header_data .w64 libvmdk_extent_file_initialize
        example_KDMV_header_data_sectors).extent_file.map ExtentFile.maximum_data_size
        = some 524288
    ∧ 524288 ≠ 512 * (1024 + 2 ^ 55) := by
  decide

theorem ceil_div_eq (a b : Nat) (hb : 0 < b) :
    ceil_div a b = if a % b ≠ 0 then a / b + 1 else a / b := by
  unfold ceil_div
  have hdm := Nat.div_add_mod a b
  have hr := Nat.mod_lt a hb
  by_cases hz : a % b = 0
  · rw [if_neg (by simpa using hz)]
    apply Nat.div_eq_of_lt_le
    · rw [Nat.mul_comm]; omega
    · rw [Nat.mul_comm, Nat.mul_succ]; omega
  · rw [if_pos hz]
    apply Nat.div_eq_of_lt_le
    · rw [Nat.mul_comm, Nat.mul_succ]; omega
    · rw [Nat.mul_comm, Nat.mul_succ, Nat.mul_succ]; omega

/-- Without overflow the number of grain directory entries of lines 1062-1068 is the ceiling
of the quotient. -/
theorem vmdk_number_of_grain_directory_entries_eq_ceil (m t g : Nat)
    (hpos : 0 < t * g) (hprod : t * g < 2 ^ 64) (hceil : ceil_div m (t * g) < 2 ^ 32) :
    vmdk_number_of_grain_directory_entries m t g = ceil_div m (t * g) := by
  unfold vmdk_number_of_grain_directory_entries
  simp only []
  rw [Nat.mod_eq_of_lt hprod]
  rw [ceil_div_eq m (t * g) hpos] at hceil ⊢
  rw [two_pow_32] at hceil ⊢
  by_cases hz : m % (t * g) = 0
  · simp only [hz, ne_eq, not_true_eq_false, if_false] at hceil ⊢
    exact Nat.mod_eq_of_lt hceil
  · simp only [hz, ne_eq, not_false_eq_true, if_true] at hceil ⊢
    rw [Nat.mod_eq_of_lt (by omega : m / (t * g) < 4294967296), Nat.mod_eq_of_lt hceil]

/-- C12, as amended: after the parser has returned 1, the number of grain directory entries
of a COWD header is the 32-bit value of the header at 0x18; that of a KDMV header is the
ceiling of `maximum_data_size / (number_of_grain_table_entries * grain_size)`, all in bytes,
whenever that product is below `2 ^ 64` and the ceiling is below `2 ^ 32`. -/
theorem number_of_grain_directory_entries_after_success (sw : SizeWidth)
    (extent_file : ExtentFile) (data : List Byte) (result : ExtentFile)
    (h : libvmdk_extent_file_read_file_header_data sw extent_file data = .success result) :
    (data.take 4 = cowd_sparse_file_signature →
      result.number_of_grain_directory_entries
        = byte_stream_copy_to_uint32_little_endian data 0x18)
    ∧ (data.take 4 = vmdk_sparse_file_signature →
      result.number_of_grain_table_entries * result.grain_size < 2 ^ 64 →
      ceil_div result.maximum_data_size
          (result.number_of_grain_table_entries * result.grain_size) < 2 ^ 32 →
      result.number_of_grain_directory_entries
        = ceil_div result.maximum_data_size
            (result.number_of_grain_table_entries * result.grain_size)) := by
  constructor
  · intro hsig
    obtain ⟨h1, _, _⟩ := success_cowd sw extent_file data hsig result h
    exact (cowd_success_all sw extent_file data result h1).1.2.2.2.2.2
  · intro hsig hprod hceil
    obtain ⟨h1, _, _⟩ := success_vmdk sw extent_file data hsig result h
    obtain ⟨_, hd, _⟩ := vmdk_success_all sw extent_file data result h1
    have hb := success_bounds sw extent_file data result h
    rw [hd.2.1]
    exact vmdk_number_of_grain_directory_entries_eq_ceil _ _ _
      (Nat.mul_pos hb.2.2.2.1 hb.1) hprod hceil

/-- C12, witness: 128 sectors per grain, 512 grain table entries and 1024 data sectors give
1 grain directory entry. -/
theorem number_of_grain_directory_entries_after_success_witness :
    ∃ result,
      libvmdk_extent_file_read_file_header_data .w64 libvmdk_extent_file_initialize
          example_KDMV_header = .success result
      ∧ result.number_of_grain_directory_entries
          = ceil_div result.maximum_data_size
              (result.number_of_grain_table_entries * result.grain_size)
      ∧ result.number_of_grain_directory_entries = 1 :=
  ⟨_, rfl, (number_of_grain_directory_entries_after_success .w64
    libvmdk_extent_file_initialize example_KDMV_header _ rfl).2 (by decide) (by decide)
    (by decide), rfl⟩

/-- C12, counterexample: the accepted COWD example header with 2 in the field at 0x18 gets
2 grain directory entries, while the ceiling of `4194304 / (4096 * 8192)` is 1. -/
theorem cowd_number_of_grain_directory_entries_not_ceiling :
    example_DWOC_header_two_entries.take 4 = cowd_sparse_file_signature
    ∧ (libvmdk_extent_file_read_file_header_data .w64 libvmdk_extent_file_initialize
        example_DWOC_header_two_entries).return_value = some 1
    ∧ (libvmdk_extent_file_read_file_header_data .w64 libvmdk_extent_file_initialize
        example_DWOC_header_two_entries).extent_file.map
          ExtentFile.number_of_grain_directory_entries = some 2
    ∧ (libvmdk_extent_file_read_file_header_data .w64 libvmdk_extent_file_initialize
        example_DWOC_header_two_entries).extent_file.map
          (fun e => ceil_div e.maximum_data_size
            (e.number_of_grain_table_entries * e.grain_size)) = some 1 := by
  decide

/-- The sector aligned size of four bytes per entry is the least multiple of 512 that is at
least four times the number of entries, for the numbers of entries that pass the checks of
lines 1084-1118. -/
theorem sector_aligned_size_spec (sw : SizeWidth) (n : Nat) (hn : n ≤ INT_MAX)
    (h32 : sw = .w32 → n ≤ SSIZE_MAX sw / 4) :
    512 ∣ sector_aligned_size sw n ∧ 4 * n ≤ sector_aligned_size sw n
    ∧ sector_aligned_size sw n < 4 * n + 512 := by
  unfold sector_aligned_size
  unfold INT_MAX at hn
  cases sw
  · have h := h32 rfl
    simp only [SSIZE_MAX, SizeWidth.bits] at h ⊢
    norm_num at h hn ⊢
    rw [Nat.mod_eq_of_lt (by omega : n * 4 < 4294967296)]
    split_ifs with hz
    · omega
    · rw [Nat.mod_eq_of_lt (by omega)]
      omega
  · simp only [SizeWidth.bits]
    norm_num at hn ⊢
    rw [Nat.mod_eq_of_lt (by omega : n * 4 < 18446744073709551616)]
    split_ifs with hz
    · omega
    · rw [Nat.mod_eq_of_lt (by omega)]
      omega

/-- C13: after the parser has returned 1, the grain table size is the least multiple of 512
that is at least `4 * number_of_grain_table_entries`, and the grain directory size is the
least multiple of 512 that is at least `4 * number_of_grain_directory_entries`; a value that
is a multiple of 512 already is not rounded up, and a COWD header gives a grain table size
of 16384. -/
theorem table_sizes_sector_aligned (sw : SizeWidth) (extent_file : ExtentFile)
    (data : List Byte) (result : ExtentFile)
    (h : libvmdk_extent_file_read_file_header_data sw extent_file data = .success result) :
    (512 ∣ result.grain_table_size
      ∧ 4 * result.number_of_grain_table_entries ≤ result.grain_table_size
      ∧ (∀ m, 512 ∣ m → 4 * result.number_of_grain_table_entries ≤ m →
          result.grain_table_size ≤ m))
    ∧ (512 ∣ result.grain_directory_size
      ∧ 4 * result.number_of_grain_directory_entries ≤ result.grain_directory_size
      ∧ (∀ m, 512 ∣ m → 4 * result.number_of_grain_directory_entries ≤ m →
          result.grain_directory_size ≤ m))
    ∧ (4 * result.number_of_grain_table_entries % 512 = 0 →
        result.grain_table_size = 4 * result.number_of_grain_table_entries)
    ∧ (4 * result.number_of_grain_directory_entries % 512 = 0 →
        result.grain_directory_size = 4 * result.number_of_grain_directory_entries)
    ∧ (data.take 4 = cowd_sparse_file_signature → result.grain_table_size = 16384) := by
  obtain ⟨_, _, _, _, ht, hd, h32, hts, hds⟩ := success_bounds sw extent_file data result h
  have st := sector_aligned_size_spec sw result.number_of_grain_table_entries ht
    (fun hs => (h32 hs).1)
  have sd := sector_aligned_size_spec sw result.number_of_grain_directory_entries hd
    (fun hs => (h32 hs).2)
  rw [← hts] at st
  rw [← hds] at sd
  refine ⟨⟨st.1, st.2.1, ?_⟩, ⟨sd.1, sd.2.1, ?_⟩, ?_, ?_, ?_⟩
  · intro m hm hle
    have := st.1
    have := st.2.2
    omega
  · intro m hm hle
    have := sd.1
    have := sd.2.2
    omega
  · intro hz
    have := st.1
    have := st.2.1
    have := st.2.2
    omega
  · intro hz
    have := sd.1
    have := sd.2.1
    have := sd.2.2
    omega
  · intro hsig
    obtain ⟨h1, _, _⟩ := success_cowd sw extent_file data hsig result h
    have h4096 := (cowd_success_all sw extent_file data result h1).2.1.2.1
    rw [h4096] at st
    have := st.1
    have := st.2.1
    have := st.2.2
    omega

/-- C13, witness: the accepted COWD example header gets a grain table size of 16384 and,
for its single grain directory entry, a grain directory size of 512. -/
theorem table_sizes_sector_aligned_witness :
    ∃ result,
      libvmdk_extent_file_read_file_header_data .w64 libvmdk_extent_file_initialize
          example_DWOC_header = .success result
      ∧ result.grain_table_size = 16384
      ∧ result.grain_directory_size = 512 :=
  ⟨_, rfl, (table_sizes_sector_aligned .w64 libvmdk_extent_file_initialize
    example_DWOC_header _ rfl).2.2.2.2 (by decide), rfl⟩

/-! ### The grain directory -/

theorem grain_directory_entry_values_data_range (extent_file : ExtentFile)
    (file_io_pool_entry : Int) (data : List Byte) (index total : Nat)
    (hG : 0 < extent_file.grain_size) :
    ∃ element new_total,
      grain_directory_entry_values extent_file file_io_pool_entry data index total
        = some (element, new_total)
      ∧ is_data_range_of_entry extent_file file_io_pool_entry data index element := by
  unfold grain_directory_entry_values is_data_range_of_entry
  simp only [show ¬ extent_file.grain_size = 0 by omega, if_false]
  by_cases hw : byte_stream_copy_to_uint32_little_endian data (4 * index) = 0
  · simp only [hw, if_true]
    split_ifs
    · exact ⟨_, _, rfl, rfl, rfl, fun _ => ⟨rfl, rfl⟩, fun h => absurd rfl h⟩
    · exact ⟨_, _, rfl, rfl, rfl, fun _ => ⟨rfl, rfl⟩, fun h => absurd rfl h⟩
  · simp only [hw, if_false]
    split_ifs
    · exact ⟨_, _, rfl, rfl, rfl, fun h => h.elim, fun _ => ⟨rfl, rfl⟩⟩
    · exact ⟨_, _, rfl, rfl, rfl, fun h => h.elim, fun _ => ⟨rfl, rfl⟩⟩

/-- The loop over the grain directory appends one element per pass, in the order of the
entries, each with the data range of its entry, provided that the entries are inside the
data and the grain size is not 0. -/
theorem grain_directory_loop_data_ranges (extent_file : ExtentFile)
    (file_io_pool_entry : Int) (data : List Byte) (hG : 0 < extent_file.grain_size) :
    ∀ (remaining index total : Nat) (list : List GrainGroupElement),
      4 * (index + remaining) ≤ data.length →
      ∃ appended,
        grain_directory_loop extent_file file_io_pool_entry data remaining index total list
          = some (list ++ appended)
        ∧ appended.length = remaining
        ∧ ∀ j, j < remaining → ∃ element, appended[j]? = some element
            ∧ is_data_range_of_entry extent_file file_io_pool_entry data (index + j)
                element := by
  intro remaining
  induction remaining with
  | zero =>
    intro index total list _
    exact ⟨[], by simp [grain_directory_loop], rfl, fun j hj => absurd hj (by omega)⟩
  | succ r ih =>
    intro index total list hlen
    obtain ⟨element, new_total, hv, hr⟩ :=
      grain_directory_entry_values_data_range extent_file file_io_pool_entry data index total
        hG
    obtain ⟨appended, ha, hl, he⟩ := ih (index + 1) new_total (list ++ [element]) (by omega)
    refine ⟨element :: appended, ?_, by simp [hl], ?_⟩
    · rw [grain_directory_loop, if_pos (by omega), hv]
      simp only []
      rw [ha, List.append_assoc]
      rfl
    · intro j hj
      cases j with
      | zero => exact ⟨element, by simp, hr⟩
      | succ k =>
        obtain ⟨e, hk, hke⟩ := he k (by omega)
        refine ⟨e, by simpa using hk, ?_⟩
        have : index + (k + 1) = index + 1 + k := by omega
        rw [this]
        exact hke

/-- After a successful run of the header parser the entries of the grain directory are
inside the grain directory data: four times their number is at most the grain directory
size. -/
theorem success_directory_entries_fit (sw : SizeWidth) (extent_file : ExtentFile)
    (data : List Byte) (result : ExtentFile)
    (h : libvmdk_extent_file_read_file_header_data sw extent_file data = .success result) :
    4 * result.number_of_grain_directory_entries ≤ result.grain_directory_size := by
  obtain ⟨_, _, _, _, _, hd, h32, _, hds⟩ := success_bounds sw extent_file data result h
  rw [hds]
  exact (sector_aligned_size_spec sw result.number_of_grain_directory_entries hd
    (fun hs => (h32 hs).2)).2.1

/-- The cast `(ssize_t)` keeps a value of at most `SSIZE_MAX`. -/
theorem size_as_ssize_of_le (sw : SizeWidth) (value : Nat) (h : value ≤ SSIZE_MAX sw) :
    size_as_ssize sw value = (value : Int) := by
  have hlt := ssize_max_lt sw
  unfold size_as_ssize
  rw [Nat.mod_eq_of_lt (by omega), if_pos h]

/-- The cast `(ssize_t)` of a `size_t` value above `SSIZE_MAX` is negative. -/
theorem size_as_ssize_neg (sw : SizeWidth) (value : Nat) (hv : value < 2 ^ sw.bits)
    (h : SSIZE_MAX sw < value) : size_as_ssize sw value < 0 := by
  unfold size_as_ssize
  rw [Nat.mod_eq_of_lt hv, if_neg (by omega)]
  have hc : ((value : Nat) : Int) < ((2 ^ sw.bits : Nat) : Int) := by exact_mod_cast hv
  omega

/-- A read count equals `(ssize_t) value`, for a `size_t` value, exactly when the value is
at most `SSIZE_MAX` and that many bytes were read. -/
theorem eq_size_as_ssize_iff (sw : SizeWidth) (value count : Nat)
    (hv : value < 2 ^ sw.bits) :
    (count : Int) = size_as_ssize sw value ↔ count = value ∧ value ≤ SSIZE_MAX sw := by
  constructor
  · intro h
    by_cases c : value ≤ SSIZE_MAX sw
    · rw [size_as_ssize_of_le sw value c] at h
      exact ⟨by exact_mod_cast h, c⟩
    · have hneg := size_as_ssize_neg sw value hv (by omega)
      omega
  · rintro ⟨h1, h2⟩
    rw [size_as_ssize_of_le sw value h2, h1]

/-- The size of a table, as computed by lines 1104-1136, is a `size_t` value. -/
theorem sector_aligned_size_lt (sw : SizeWidth) (n : Nat) :
    sector_aligned_size sw n < 2 ^ sw.bits := by
  unfold sector_aligned_size
  simp only []
  split_ifs
  · exact Nat.mod_lt _ (by positivity)
  · exact Nat.mod_lt _ (by positivity)

/-- After a successful run of the header parser the grain directory size is a `size_t`
value; on a 64-bit platform it is at most `SSIZE_MAX`, on a 32-bit platform at most
`SSIZE_MAX + 1`. -/
theorem success_grain_directory_size_bounds (sw : SizeWidth) (extent_file : ExtentFile)
    (data : List Byte) (result : ExtentFile)
    (h : libvmdk_extent_file_read_file_header_data sw extent_file data = .success result) :
    result.grain_directory_size < 2 ^ sw.bits
    ∧ result.grain_directory_size ≤ SSIZE_MAX sw + 1
    ∧ (sw = .w64 → result.grain_directory_size ≤ SSIZE_MAX sw) := by
  obtain ⟨_, _, _, _, _, hd, h32, _, hds⟩ := success_bounds sw extent_file data result h
  obtain ⟨h512, _, hlt⟩ :=
    sector_aligned_size_spec sw result.number_of_grain_directory_entries hd
      (fun hs => (h32 hs).2)
  rw [← hds] at hlt h512
  refine ⟨?_, ?_, ?_⟩
  · rw [hds]
    exact sector_aligned_size_lt sw _
  · cases sw
    · have h4 := (h32 rfl).2
      simp only [SSIZE_MAX, SizeWidth.bits] at h4 ⊢
      norm_num at h4 ⊢
      omega
    · unfold INT_MAX at hd
      simp only [SSIZE_MAX, SizeWidth.bits]
      norm_num at hd ⊢
      omega
  · intro hs
    subst hs
    unfold INT_MAX at hd
    simp only [SSIZE_MAX, SizeWidth.bits]
    norm_num at hd ⊢
    omega

/-- The grain directory loader returns -1 and leaves the grain groups list as it was when
the seek succeeds and the read count is not `(ssize_t) grain_directory_size`. -/
theorem read_grain_directory_read_failed (sw : SizeWidth) (extent_file : ExtentFile)
    (list : List GrainGroupElement) (file : File) (file_io_pool_entry : Int)
    (file_offset : Nat)
    (hread : ((file.read_buffer file_offset extent_file.grain_directory_size).length : Int)
      ≠ size_as_ssize sw extent_file.grain_directory_size) :
    libvmdk_extent_file_read_grain_directory sw extent_file list file file_io_pool_entry
        file_offset = some (-1, list) := by
  unfold libvmdk_extent_file_read_grain_directory
  simp only [hread, ne_eq, not_false_eq_true, if_true, ite_self]

/-- With a 32-bit `size_t` the header parser accepts 536870911 grain directory entries; the
grain directory size is then `2 ^ 31`, which is above `SSIZE_MAX`, the cast of line 1332
makes it negative, and the grain directory loader returns -1 whatever the file holds. -/
theorem read_grain_directory_size_above_ssize_max :
    libvmdk_extent_file_read_file_header_data .w32 libvmdk_extent_file_initialize
        example_DWOC_header_large_directory = .success example_DWOC_values_large_directory
    ∧ SSIZE_MAX .w32 < example_DWOC_values_large_directory.grain_directory_size
    ∧ size_as_ssize .w32 example_DWOC_values_large_directory.grain_directory_size
        = -2147483648
    ∧ ∀ (list : List GrainGroupElement) (file : File) (file_io_pool_entry : Int)
        (file_offset : Nat),
        libvmdk_extent_file_read_grain_directory .w32 example_DWOC_values_large_directory
          list file file_io_pool_entry file_offset = some (-1, list) := by
  refine ⟨by decide, by decide, by decide, ?_⟩
  intro list file file_io_pool_entry file_offset
  apply read_grain_directory_read_failed
  have hneg : size_as_ssize .w32 example_DWOC_values_large_directory.grain_directory_size
      = -2147483648 := by decide
  rw [hneg]
  omega

/-- The grain directory loader on an extent file whose grain size is not 0 and whose grain
directory entries fit in the grain directory size, when the seek and the read succeed. -/
theorem read_grain_directory_data_ranges (sw : SizeWidth) (extent_file : ExtentFile)
    (list : List GrainGroupElement) (file : File) (file_io_pool_entry : Int)
    (file_offset : Nat) (hG : 0 < extent_file.grain_size)
    (hfit : 4 * extent_file.number_of_grain_directory_entries
      ≤ extent_file.grain_directory_size)
    (hseek : file.seekable file_offset = true)
    (hsize : extent_file.grain_directory_size < 2 ^ sw.bits)
    (hcount : ((file.read_buffer file_offset extent_file.grain_directory_size).length : Int)
      = size_as_ssize sw extent_file.grain_directory_size) :
    ∃ appended,
      libvmdk_extent_file_read_grain_directory sw extent_file list file file_io_pool_entry
          file_offset = some (1, list ++ appended)
      ∧ appended.length = extent_file.number_of_grain_directory_entries
      ∧ ∀ j, j < extent_file.number_of_grain_directory_entries →
          ∃ element, appended[j]? = some element
            ∧ is_data_range_of_entry extent_file file_io_pool_entry
                (file.read_buffer file_offset extent_file.grain_directory_size) j
                element := by
  have hread := ((eq_size_as_ssize_iff sw _ _ hsize).mp hcount).1
  obtain ⟨appended, ha, hl, he⟩ :=
    grain_directory_loop_data_ranges extent_file file_io_pool_entry
      (file.read_buffer file_offset extent_file.grain_directory_size) hG
      extent_file.number_of_grain_directory_entries 0 0 list (by rw [hread]; omega)
  refine ⟨appended, ?_, hl, ?_⟩
  · unfold libvmdk_extent_file_read_grain_directory
    simp only [hseek, hcount, ne_eq, not_true_eq_false, if_false, Bool.true_eq_false, ha]
  · intro j hj
    obtain ⟨e, h1, h2⟩ := he j hj
    rw [Nat.zero_add] at h2
    exact ⟨e, h1, h2⟩

theorem int_as_uint64_eq (x : Nat) (h : x ≤ INT_MAX) : int_as_uint64 x = x := by
  unfold int_as_uint64
  unfold INT_MAX at h
  norm_num at h ⊢
  rw [Nat.mod_eq_of_lt (by omega : x < 4294967296), if_pos (by omega)]

/-- One pass of the loop over the grain directory when nothing overflows: from the total
`min (index * group) maximum_data_size`, with `group` the size of a full grain group, the
pass maps `mapped_size_of_entry` bytes and leaves the total of the next index. -/
theorem grain_directory_entry_values_mapped_size (extent_file : ExtentFile)
    (file_io_pool_entry : Int) (data : List Byte) (index : Nat)
    (hG : 0 < extent_file.grain_size)
    (hT : extent_file.number_of_grain_table_entries ≤ INT_MAX)
    (hno : extent_file.maximum_data_size
      + extent_file.number_of_grain_table_entries * extent_file.grain_size < 2 ^ 64) :
    ∃ element,
      grain_directory_entry_values extent_file file_io_pool_entry data index
          (min (index * (extent_file.number_of_grain_table_entries * extent_file.grain_size))
            extent_file.maximum_data_size)
        = some (element,
            min ((index + 1)
                * (extent_file.number_of_grain_table_entries * extent_file.grain_size))
              extent_file.maximum_data_size)
      ∧ element.mapped_size = mapped_size_of_entry extent_file index := by
  unfold grain_directory_entry_values mapped_size_of_entry
  rw [int_as_uint64_eq _ hT]
  rw [two_pow_64] at hno ⊢
  generalize hP : extent_file.number_of_grain_table_entries * extent_file.grain_size = P
    at hno ⊢
  have hK1 : (index + 1) * P = index * P + P := Nat.succ_mul index P
  rw [hK1]
  generalize hK : index * P = K
  generalize hM : extent_file.maximum_data_size = M at hno ⊢
  generalize hGG : extent_file.grain_size = G at hG hP ⊢
  generalize hTT : extent_file.number_of_grain_table_entries = T at hT hP ⊢
  unfold INT_MAX at hT
  have hPm : P % 18446744073709551616 = P := Nat.mod_eq_of_lt (by omega)
  have hsum : (min K M + P) % 18446744073709551616 = min K M + P :=
    Nat.mod_eq_of_lt (by omega)
  have hP2 : G * T = P := by rw [Nat.mul_comm]; exact hP
  simp only [hP, hP2, hPm, hsum, show ¬ G = 0 by omega, if_false]
  by_cases hc : min K M + P > M
  · simp only [hc, if_true]
    have hrem : (M + 18446744073709551616 - min K M) % 18446744073709551616
        = M - min K M := by
      have : M + 18446744073709551616 - min K M = (M - min K M) + 18446744073709551616 := by
        omega
      rw [this, Nat.add_mod_right, Nat.mod_eq_of_lt (by omega)]
    rw [hrem]
    have hq : (M - min K M) / G < T := by
      apply Nat.div_lt_of_lt_mul
      rw [Nat.mul_comm, hP]
      omega
    have hmul : G * ((M - min K M) / G) ≤ M - min K M := Nat.mul_div_le _ _
    rw [int_as_uint64_eq _ (by unfold INT_MAX; omega)]
    have e1 : G * ((M - min K M) / G) % 18446744073709551616 = G * ((M - min K M) / G) :=
      Nat.mod_eq_of_lt (by omega)
    have e2 : (min K M + (M - min K M)) % 18446744073709551616 = min (K + P) M := by
      rw [Nat.mod_eq_of_lt (by omega)]
      omega
    rw [e1, e2, if_neg (show ¬ K + P ≤ M by omega)]
    exact ⟨_, rfl, rfl⟩
  · simp only [hc, if_false]
    have hKM : K ≤ M := by
      by_contra hgt
      have hP0 : P = 0 := by omega
      rw [hP0, Nat.mul_zero] at hK
      omega
    have e3 : min K M + P = min (K + P) M := by omega
    rw [e3, if_pos (show K + P ≤ M by omega)]
    exact ⟨_, rfl, rfl⟩

/-- The mapped sizes add up in whole grains: the mapped size of the entry at `index` takes
the covered part of the maximum data size, rounded down to a multiple of the grain size,
from that of `index` entries to that of `index + 1` entries. -/
theorem mapped_size_sum_step (extent_file : ExtentFile) (index : Nat)
    (hG : 0 < extent_file.grain_size) :
    extent_file.grain_size
        * (min (index * (extent_file.number_of_grain_table_entries * extent_file.grain_size))
            extent_file.maximum_data_size / extent_file.grain_size)
      + mapped_size_of_entry extent_file index
    = extent_file.grain_size
        * (min ((index + 1)
              * (extent_file.number_of_grain_table_entries * extent_file.grain_size))
            extent_file.maximum_data_size / extent_file.grain_size) := by
  unfold mapped_size_of_entry
  generalize extent_file.maximum_data_size = M
  generalize extent_file.number_of_grain_table_entries = T
  generalize extent_file.grain_size = G at hG ⊢
  have hK1 : (index + 1) * (T * G) = index * (T * G) + T * G := Nat.succ_mul _ _
  have hK : index * (T * G) = index * T * G := (Nat.mul_assoc _ _ _).symm
  rw [hK1, hK]
  generalize index * T = X
  by_cases h1 : X * G + T * G ≤ M
  · rw [if_pos h1, Nat.min_eq_left (by omega : X * G ≤ M), Nat.min_eq_left h1,
      Nat.mul_div_cancel X hG]
    have : X * G + T * G = (X + T) * G := (Nat.add_mul _ _ _).symm
    rw [this, Nat.mul_div_cancel _ hG]
    ring
  · rw [if_neg h1, Nat.min_eq_right (by omega : M ≤ X * G + T * G)]
    by_cases h2 : X * G ≤ M
    · rw [Nat.min_eq_left h2, Nat.mul_div_cancel X hG]
      have hM : M = (M - X * G) + X * G := by omega
      have hdiv : M / G = (M - X * G) / G + X := by
        conv_lhs => rw [hM]
        exact Nat.add_mul_div_right _ _ hG
      rw [hdiv]
      ring
    · rw [Nat.min_eq_right (by omega : M ≤ X * G), Nat.sub_self, Nat.zero_div, Nat.mul_zero,
        Nat.add_zero]

/-- The loop over the grain directory when nothing overflows: every pass maps
`mapped_size_of_entry` bytes, and the mapped sizes add up to the covered part of the maximum
data size, rounded down to a multiple of the grain size. -/
theorem grain_directory_loop_mapped_sizes (extent_file : ExtentFile)
    (file_io_pool_entry : Int) (data : List Byte)
    (hG : 0 < extent_file.grain_size)
    (hT : extent_file.number_of_grain_table_entries ≤ INT_MAX)
    (hno : extent_file.maximum_data_size
      + extent_file.number_of_grain_table_entries * extent_file.grain_size < 2 ^ 64) :
    ∀ (remaining index : Nat) (list : List GrainGroupElement),
      4 * (index + remaining) ≤ data.length →
      ∃ appended,
        grain_directory_loop extent_file file_io_pool_entry data remaining index
            (min (index
                * (extent_file.number_of_grain_table_entries * extent_file.grain_size))
              extent_file.maximum_data_size) list
          = some (list ++ appended)
        ∧ appended.length = remaining
        ∧ (∀ j, j < remaining → ∃ element, appended[j]? = some element
            ∧ element.mapped_size = mapped_size_of_entry extent_file (index + j))
        ∧ extent_file.grain_size
              * (min (index
                    * (extent_file.number_of_grain_table_entries * extent_file.grain_size))
                  extent_file.maximum_data_size / extent_file.grain_size)
            + (appended.map GrainGroupElement.mapped_size).sum
          = extent_file.grain_size
              * (min ((index + remaining)
                    * (extent_file.number_of_grain_table_entries * extent_file.grain_size))
                  extent_file.maximum_data_size / extent_file.grain_size) := by
  intro remaining
  induction remaining with
  | zero =>
    intro index list _
    exact ⟨[], by simp [grain_directory_loop], rfl, fun j hj => absurd hj (by omega),
      by simp⟩
  | succ r ih =>
    intro index list hlen
    obtain ⟨element, hv, hm⟩ :=
      grain_directory_entry_values_mapped_size extent_file file_io_pool_entry data index hG hT
        hno
    obtain ⟨appended, ha, hl, he, hs⟩ := ih (index + 1) (list ++ [element]) (by omega)
    refine ⟨element :: appended, ?_, by simp [hl], ?_, ?_⟩
    · rw [grain_directory_loop, if_pos (by omega), hv]
      simp only []
      rw [ha, List.append_assoc]
      rfl
    · intro j hj
      cases j with
      | zero => exact ⟨element, by simp, hm⟩
      | succ k =>
        obtain ⟨e, hk, hke⟩ := he k (by omega)
        refine ⟨e, by simpa using hk, ?_⟩
        have : index + (k + 1) = index + 1 + k := by omega
        rw [this]
        exact hke
    · have hstep := mapped_size_sum_step extent_file index hG
      have hidx : index + (r + 1) = index + 1 + r := by omega
      rw [List.map_cons, List.sum_cons, hm, ← Nat.add_assoc, hstep, hidx]
      exact hs

/-- C14: on an extent file that the header parser has filled in, and when the seek and the
read succeed, the read by the test of line 1332 (the read count is
`(ssize_t) grain_directory_size`), `libvmdk_extent_file_read_grain_directory` returns 1 and
has appended exactly `number_of_grain_directory_entries` elements to the grain groups list,
in the order of the directory; element `i` has the grain table size as its size, and for the
`i`-th 32-bit little-endian word `w` of the directory data: offset 0 with the range flag
`LIBVMDK_RANGE_FLAG_IS_SPARSE` when `w = 0`, offset `w * 512` without range flags
otherwise.  The read then delivered the whole directory, of at most `SSIZE_MAX` bytes.  When
the read fails by that test, as every read does for a grain directory size above
`SSIZE_MAX`, the function returns -1 and has appended nothing. -/
theorem read_grain_directory_appends_entries (sw : SizeWidth) (initial : ExtentFile)
    (file_header_data : List Byte) (extent_file : ExtentFile)
    (hparse : libvmdk_extent_file_read_file_header_data sw initial file_header_data
      = .success extent_file)
    (list : List GrainGroupElement) (file : File) (file_io_pool_entry : Int)
    (file_offset : Nat) (hseek : file.seekable file_offset = true) :
    (((file.read_buffer file_offset extent_file.grain_directory_size).length : Int)
        = size_as_ssize sw extent_file.grain_directory_size →
      (file.read_buffer file_offset extent_file.grain_directory_size).length
        = extent_file.grain_directory_size
      ∧ extent_file.grain_directory_size ≤ SSIZE_MAX sw
      ∧ ∃ appended,
        libvmdk_extent_file_read_grain_directory sw extent_file list file file_io_pool_entry
            file_offset = some (1, list ++ appended)
        ∧ appended.length = extent_file.number_of_grain_directory_entries
        ∧ ∀ i, i < extent_file.number_of_grain_directory_entries →
            ∃ element, appended[i]? = some element
              ∧ element.file_io_pool_entry = file_io_pool_entry
              ∧ element.size = extent_file.grain_table_size
              ∧ (byte_stream_copy_to_uint32_little_endian
                    (file.read_buffer file_offset extent_file.grain_directory_size) (4 * i)
                    = 0 →
                  element.offset = 0 ∧ element.range_flags = LIBVMDK_RANGE_FLAG_IS_SPARSE)
              ∧ (byte_stream_copy_to_uint32_little_endian
                    (file.read_buffer file_offset extent_file.grain_directory_size) (4 * i)
                    ≠ 0 →
                  element.offset
                      = byte_stream_copy_to_uint32_little_endian
                          (file.read_buffer file_offset extent_file.grain_directory_size)
                          (4 * i) * 512
                    ∧ element.range_flags = 0))
    ∧ (((file.read_buffer file_offset extent_file.grain_directory_size).length : Int)
        ≠ size_as_ssize sw extent_file.grain_directory_size →
      libvmdk_extent_file_read_grain_directory sw extent_file list file file_io_pool_entry
          file_offset = some (-1, list))
    ∧ (SSIZE_MAX sw < extent_file.grain_directory_size →
      ((file.read_buffer file_offset extent_file.grain_directory_size).length : Int)
        ≠ size_as_ssize sw extent_file.grain_directory_size) := by
  have hb := success_bounds sw initial file_header_data extent_file hparse
  have hfit := success_directory_entries_fit sw initial file_header_data extent_file hparse
  have hsize :=
    (success_grain_directory_size_bounds sw initial file_header_data extent_file hparse).1
  refine ⟨?_, ?_, ?_⟩
  · intro hread
    obtain ⟨hlen, hmax⟩ := (eq_size_as_ssize_iff sw _ _ hsize).mp hread
    obtain ⟨appended, h1, h2, h3⟩ :=
      read_grain_directory_data_ranges sw extent_file list file file_io_pool_entry
        file_offset hb.1 hfit hseek hsize hread
    refine ⟨hlen, hmax, appended, h1, h2, ?_⟩
    intro i hi
    obtain ⟨element, he, hr⟩ := h3 i hi
    exact ⟨element, he, hr⟩
  · intro hread
    exact read_grain_directory_read_failed sw extent_file list file file_io_pool_entry
      file_offset hread
  · intro hmax hread
    have hle := ((eq_size_as_ssize_iff sw _ _ hsize).mp hread).2
    omega

/-- C14, witness: the file made of the header of scenario S1 and a grain directory whose
first entry is sector 2; the read of 512 bytes succeeds and one element is appended, at
offset 1024 and of size 2048. -/
theorem read_grain_directory_appends_entries_witness :
    libvmdk_extent_file_read_file_header_data .w64 libvmdk_extent_file_initialize
        example_KDMV_header = .success example_KDMV_values
    ∧ libvmdk_extent_file_read_grain_directory .w64 example_KDMV_values []
        (example_file (example_KDMV_header ++ example_grain_directory)) 0 512
      = some (1, [{ file_io_pool_entry := 0, offset := 1024, size := 2048, range_flags := 0,
                    mapped_size := 524288 }])
    ∧ ∃ appended,
        libvmdk_extent_file_read_grain_directory .w64 example_KDMV_values []
            (example_file (example_KDMV_header ++ example_grain_directory)) 0 512
          = some (1, [] ++ appended)
        ∧ appended.length = 1 :=
  ⟨by decide, by decide,
    ((read_grain_directory_appends_entries .w64 libvmdk_extent_file_initialize
      example_KDMV_header example_KDMV_values (by decide) []
      (example_file (example_KDMV_header ++ example_grain_directory)) 0 512 rfl).1
      (by decide)).2.2.imp (fun _ h => ⟨h.1, h.2.1⟩)⟩

/-- C15, as amended: on an extent file that the header parser has filled in and for which
`maximum_data_size + number_of_grain_table_entries * grain_size` does not overflow 64 bits,
when the seek and the read succeed (the read count is `(ssize_t) grain_directory_size`, the
test of line 1332), with any directory contents, the mapped size that
`libvmdk_extent_file_read_grain_directory` registers for entry `i` is
`number_of_grain_table_entries * grain_size` as long as the grain groups up to this one fit
in the maximum data size, and else what remains of the maximum data size, rounded down to a
whole number of grains.  When the entries cover the maximum data size, the mapped sizes sum
to the maximum data size rounded down to a multiple of the grain size, which is the maximum
data size itself when the grain size divides it. -/
theorem read_grain_directory_mapped_sizes (sw : SizeWidth) (initial : ExtentFile)
    (file_header_data : List Byte) (extent_file : ExtentFile)
    (hparse : libvmdk_extent_file_read_file_header_data sw initial file_header_data
      = .success extent_file)
    (hno : extent_file.maximum_data_size
      + extent_file.number_of_grain_table_entries * extent_file.grain_size < 2 ^ 64)
    (list : List GrainGroupElement) (file : File) (file_io_pool_entry : Int)
    (file_offset : Nat) (hseek : file.seekable file_offset = true)
    (hread :
      ((file.read_buffer file_offset extent_file.grain_directory_size).length : Int)
        = size_as_ssize sw extent_file.grain_directory_size) :
    ∃ appended,
      libvmdk_extent_file_read_grain_directory sw extent_file list file file_io_pool_entry
          file_offset = some (1, list ++ appended)
      ∧ appended.length = extent_file.number_of_grain_directory_entries
      ∧ (∀ i, i < extent_file.number_of_grain_directory_entries →
          ∃ element, appended[i]? = some element
            ∧ element.mapped_size
              = if (i + 1)
                    * (extent_file.number_of_grain_table_entries * extent_file.grain_size)
                    ≤ extent_file.maximum_data_size then
                  extent_file.number_of_grain_table_entries * extent_file.grain_size
                else
                  extent_file.grain_size
                    * ((extent_file.maximum_data_size
                        - min (i * (extent_file.number_of_grain_table_entries
                                  * extent_file.grain_size))
                            extent_file.maximum_data_size) / extent_file.grain_size))
      ∧ (extent_file.maximum_data_size
            ≤ extent_file.number_of_grain_directory_entries
                * (extent_file.number_of_grain_table_entries * extent_file.grain_size) →
          (appended.map GrainGroupElement.mapped_size).sum
              = extent_file.grain_size
                  * (extent_file.maximum_data_size / extent_file.grain_size)
          ∧ (extent_file.grain_size ∣ extent_file.maximum_data_size →
              (appended.map GrainGroupElement.mapped_size).sum
                = extent_file.maximum_data_size)) := by
  have hb := success_bounds sw initial file_header_data extent_file hparse
  have hfit := success_directory_entries_fit sw initial file_header_data extent_file hparse
  have hsize :=
    (success_grain_directory_size_bounds sw initial file_header_data extent_file hparse).1
  have hlen := ((eq_size_as_ssize_iff sw _ _ hsize).mp hread).1
  obtain ⟨appended, ha, hl, he, hs⟩ :=
    grain_directory_loop_mapped_sizes extent_file file_io_pool_entry
      (file.read_buffer file_offset extent_file.grain_directory_size) hb.1 hb.2.2.2.2.1 hno
      extent_file.number_of_grain_directory_entries 0 list (by rw [hlen]; omega)
  rw [Nat.zero_mul, Nat.zero_min] at ha
  rw [Nat.zero_mul, Nat.zero_min, Nat.zero_div, Nat.mul_zero, Nat.zero_add, Nat.zero_add]
    at hs
  refine ⟨appended, ?_, hl, ?_, ?_⟩
  · unfold libvmdk_extent_file_read_grain_directory
    simp only [hseek, hread, ne_eq, not_true_eq_false, if_false, Bool.true_eq_false, ha]
  · intro i hi
    obtain ⟨element, h1, h2⟩ := he i hi
    rw [Nat.zero_add] at h2
    exact ⟨element, h1, h2⟩
  · intro hcover
    rw [Nat.min_eq_right hcover] at hs
    exact ⟨hs, fun hdvd => by rw [hs]; exact Nat.mul_div_cancel' hdvd⟩

/-- C15, witness: the file made of the header of scenario S1 and a grain directory; the
single entry is mapped to the 524288 bytes of the maximum data size. -/
theorem read_grain_directory_mapped_sizes_witness :
    (libvmdk_extent_file_read_file_header_data .w64 libvmdk_extent_file_initialize
        example_KDMV_header = .success example_KDMV_values
      ∧ example_KDMV_values.maximum_data_size
          + example_KDMV_values.number_of_grain_table_entries
              * example_KDMV_values.grain_size < 2 ^ 64)
    ∧ ∃ appended,
        libvmdk_extent_file_read_grain_directory .w64 example_KDMV_values []
            (example_file (example_KDMV_header ++ example_grain_directory)) 0 512
          = some (1, [] ++ appended)
        ∧ appended.length = 1
        ∧ (appended.map GrainGroupElement.mapped_size).sum = 524288 :=
  ⟨by decide,
    (read_grain_directory_mapped_sizes .w64 libvmdk_extent_file_initialize
      example_KDMV_header example_KDMV_values (by decide) (by decide) []
      (example_file (example_KDMV_header ++ example_grain_directory)) 0 512 rfl
      (by decide)).imp
      (fun _ h => ⟨h.1, h.2.1, (h.2.2.2 (by decide)).2 (by decide)⟩)⟩

/-- C15, counterexample: the header of scenario S1 with 1000 data sectors is accepted with a
maximum data size of 512000 bytes and one grain directory entry; the mapped size registered
for that entry, the last one, is 458752 (7 grains), not the 512000 bytes that remain, so the
mapped sizes do not sum to the maximum data size. -/
theorem last_mapped_size_not_remaining_data_size :
    libvmdk_extent_file_read_file_header_data .w64 libvmdk_extent_file_initialize
        example_KDMV_header_1000_sectors = .success example_KDMV_values_1000_sectors
    ∧ example_KDMV_values_1000_sectors.maximum_data_size = 512000
    ∧ example_KDMV_values_1000_sectors.number_of_grain_directory_entries = 1
    ∧ libvmdk_extent_file_read_grain_directory .w64 example_KDMV_values_1000_sectors []
        (example_file (example_KDMV_header_1000_sectors ++ example_grain_directory)) 0 512
      = some (1, [{ file_io_pool_entry := 0, offset := 1024, size := 2048, range_flags := 0,
                    mapped_size := 458752 }])
    ∧ (458752 : Nat) ≠ 512000 := by
  decide

/-- C16, as amended: on an extent file that the header parser has filled in, and when the
seek and the read succeed (the read count is `(ssize_t) grain_directory_size`, the test of
line 1332), every element that
`libvmdk_extent_file_read_grain_directory` registers either has offset 0 and the range flag
`LIBVMDK_RANGE_FLAG_IS_SPARSE`, or has no range flags and an offset that is a multiple of
512, not 0 and at most `(2 ^ 32 - 1) * 512`; this holds whatever the size of the file is,
the offset is not compared with it. -/
theorem registered_grain_table_offsets (sw : SizeWidth) (initial : ExtentFile)
    (file_header_data : List Byte) (extent_file : ExtentFile)
    (hparse : libvmdk_extent_file_read_file_header_data sw initial file_header_data
      = .success extent_file)
    (list : List GrainGroupElement) (file : File) (file_io_pool_entry : Int)
    (file_offset : Nat) (hseek : file.seekable file_offset = true)
    (hread :
      ((file.read_buffer file_offset extent_file.grain_directory_size).length : Int)
        = size_as_ssize sw extent_file.grain_directory_size) :
    ∃ appended,
      libvmdk_extent_file_read_grain_directory sw extent_file list file file_io_pool_entry
          file_offset = some (1, list ++ appended)
      ∧ ∀ element, element ∈ appended →
          (element.offset = 0 ∧ element.range_flags = LIBVMDK_RANGE_FLAG_IS_SPARSE)
          ∨ (element.range_flags = 0 ∧ 512 ∣ element.offset ∧ 0 < element.offset
              ∧ element.offset ≤ (2 ^ 32 - 1) * 512) := by
  have hb := success_bounds sw initial file_header_data extent_file hparse
  have hfit := success_directory_entries_fit sw initial file_header_data extent_file hparse
  have hsize :=
    (success_grain_directory_size_bounds sw initial file_header_data extent_file hparse).1
  obtain ⟨appended, h1, h2, h3⟩ :=
    read_grain_directory_data_ranges sw extent_file list file file_io_pool_entry file_offset
      hb.1 hfit hseek hsize hread
  refine ⟨appended, h1, ?_⟩
  intro element hmem
  obtain ⟨j, hj, hje⟩ := List.getElem_of_mem hmem
  obtain ⟨e, he, _, _, hz, hnz⟩ := h3 j (by omega)
  rw [List.getElem?_eq_getElem hj, hje] at he
  have hee : element = e := Option.some.inj he
  subst hee
  have hlt := uint32_lt (file.read_buffer file_offset extent_file.grain_directory_size) (4 * j)
  by_cases hw : byte_stream_copy_to_uint32_little_endian
      (file.read_buffer file_offset extent_file.grain_directory_size) (4 * j) = 0
  · exact Or.inl (hz hw)
  · right
    obtain ⟨ho, hf⟩ := hnz hw
    refine ⟨hf, ?_, ?_, ?_⟩
    · rw [ho]; exact Dvd.intro_left _ rfl
    · rw [ho]; omega
    · rw [ho]; norm_num; omega

/-- C16, witness: the file made of the header of scenario S1 and a grain directory whose
first entry is sector 2. -/
theorem registered_grain_table_offsets_witness :
    libvmdk_extent_file_read_file_header_data .w64 libvmdk_extent_file_initialize
        example_KDMV_header = .success example_KDMV_values
    ∧ ∃ appended,
        libvmdk_extent_file_read_grain_directory .w64 example_KDMV_values []
            (example_file (example_KDMV_header ++ example_grain_directory)) 0 512
          = some (1, [] ++ appended)
        ∧ ∀ element, element ∈ appended →
            (element.offset = 0 ∧ element.range_flags = LIBVMDK_RANGE_FLAG_IS_SPARSE)
            ∨ (element.range_flags = 0 ∧ 512 ∣ element.offset ∧ 0 < element.offset
                ∧ element.offset ≤ (2 ^ 32 - 1) * 512) :=
  ⟨by decide,
    registered_grain_table_offsets .w64 libvmdk_extent_file_initialize
      example_KDMV_header example_KDMV_values (by decide) []
      (example_file (example_KDMV_header ++ example_grain_directory)) 0 512 rfl
      (by decide)⟩

/-- C16, counterexample: in a file of 1024 bytes, the header of scenario S1 followed by a
grain directory whose first entry is the sector number `0xFFFFFFFF`, the loader returns 1
and registers a grain table at offset 2199023255040, far past the end of the file, without
range flags. -/
theorem grain_table_offset_past_end_of_file_registered :
    libvmdk_extent_file_read_file_header_data .w64 libvmdk_extent_file_initialize
        example_KDMV_header = .success example_KDMV_values
    ∧ (example_file (example_KDMV_header ++ example_grain_directory_past_end)).contents.length
        = 1024
    ∧ libvmdk_extent_file_read_grain_directory .w64 example_KDMV_values []
        (example_file (example_KDMV_header ++ example_grain_directory_past_end)) 0 512
      = some (1, [{ file_io_pool_entry := 0, offset := 2199023255040, size := 2048,
                    range_flags := 0, mapped_size := 524288 }])
    ∧ 1024 < 2199023255040 := by
  decide

/-! ### Re-emitted headers -/

theorem le_bytes_length (count value : Nat) : (le_bytes count value).length = count := by
  induction count generalizing value with
  | zero => rfl
  | succ k ih => simp [le_bytes, ih]

theorem byte_value_eq_little_endian_value (data : List Byte) (offset : Nat) :
    byte_value data offset = little_endian_value data offset 1 := by
  simp [little_endian_value]

theorem little_endian_value_cons (x : Byte) (data : List Byte) (offset count : Nat) :
    little_endian_value (x :: data) (offset + 1) count
      = little_endian_value data offset count := by
  induction count generalizing offset with
  | zero => rfl
  | succ k ih =>
    rw [little_endian_value, little_endian_value, ih (offset + 1)]
    rfl

theorem little_endian_value_cons_skip (x : Byte) (data : List Byte) (offset count : Nat)
    (h : 1 ≤ offset) :
    little_endian_value (x :: data) offset count
      = little_endian_value data (offset - 1) count := by
  obtain ⟨o, rfl⟩ : ∃ o, offset = o + 1 := ⟨offset - 1, by omega⟩
  rw [little_endian_value_cons]
  rfl

theorem little_endian_value_append_skip (a b : List Byte) (offset count : Nat)
    (h : a.length ≤ offset) :
    little_endian_value (a ++ b) offset count
      = little_endian_value b (offset - a.length) count := by
  induction a generalizing offset with
  | nil => rfl
  | cons x a ih =>
    obtain ⟨o, rfl⟩ : ∃ o, offset = o + 1 := ⟨offset - 1, by simp at h; omega⟩
    rw [List.cons_append, little_endian_value_cons, ih o (by simp at h; omega)]
    simp

theorem little_endian_value_le_bytes (count value : Nat) (rest : List Byte) :
    little_endian_value (le_bytes count value ++ rest) 0 count = value % 256 ^ count := by
  induction count generalizing value with
  | zero => simp [little_endian_value, Nat.mod_one]
  | succ k ih =>
    rw [little_endian_value, le_bytes, List.cons_append, little_endian_value_cons, ih,
      pow_succ', Nat.mod_mul]
    rfl

theorem emit_vmdk_header_length (extent_file : ExtentFile) :
    (emit_vmdk_header extent_file).length = 512 := by
  simp [emit_vmdk_header, le_bytes_length, vmdk_sparse_file_signature]

theorem emit_vmdk_header_signature (extent_file : ExtentFile) :
    (emit_vmdk_header extent_file).take 4 = vmdk_sparse_file_signature := by
  unfold emit_vmdk_header
  exact List.take_left' rfl

theorem emit_vmdk_uint32_0x04 (extent_file : ExtentFile) :
    byte_stream_copy_to_uint32_little_endian (emit_vmdk_header extent_file) 0x04
      = extent_file.format_version % 256 ^ 4 := by
  simp [emit_vmdk_header, byte_stream_copy_to_uint32_little_endian,
    little_endian_value_append_skip, little_endian_value_cons_skip, le_bytes_length,
    little_endian_value_le_bytes, vmdk_sparse_file_signature]

theorem emit_vmdk_uint32_0x08 (extent_file : ExtentFile) :
    byte_stream_copy_to_uint32_little_endian (emit_vmdk_header extent_file) 0x08
      = extent_file.flags % 256 ^ 4 := by
  simp [emit_vmdk_header, byte_stream_copy_to_uint32_little_endian,
    little_endian_value_append_skip, little_endian_value_cons_skip, le_bytes_length,
    little_endian_value_le_bytes, vmdk_sparse_file_signature]

theorem emit_vmdk_uint64_0x0C (extent_file : ExtentFile) :
    byte_stream_copy_to_uint64_little_endian (emit_vmdk_header extent_file) 0x0C
      = extent_file.maximum_data_size / 512 % 256 ^ 8 := by
  simp [emit_vmdk_header, byte_stream_copy_to_uint64_little_endian,
    little_endian_value_append_skip, little_endian_value_cons_skip, le_bytes_length,
    little_endian_value_le_bytes, vmdk_sparse_file_signature]

theorem emit_vmdk_uint64_0x14 (extent_file : ExtentFile) :
    byte_stream_copy_to_uint64_little_endian (emit_vmdk_header extent_file) 0x14
      = extent_file.grain_size / 512 % 256 ^ 8 := by
  simp [emit_vmdk_header, byte_stream_copy_to_uint64_little_endian,
    little_endian_value_append_skip, little_endian_value_cons_skip, le_bytes_length,
    little_endian_value_le_bytes, vmdk_sparse_file_signature]

theorem emit_vmdk_uint64_0x1C (extent_file : ExtentFile) :
    byte_stream_copy_to_uint64_little_endian (emit_vmdk_header extent_file) 0x1C
      = extent_file.descriptor_offset / 512 % 256 ^ 8 := by
  simp [emit_vmdk_header, byte_stream_copy_to_uint64_little_endian,
    little_endian_value_append_skip, little_endian_value_cons_skip, le_bytes_length,
    little_endian_value_le_bytes, vmdk_sparse_file_signature]

theorem emit_vmdk_uint64_0x24 (extent_file : ExtentFile) :
    byte_stream_copy_to_uint64_little_endian (emit_vmdk_header extent_file) 0x24
      = extent_file.descriptor_size / 512 % 256 ^ 8 := by
  simp [emit_vmdk_header, byte_stream_copy_to_uint64_little_endian,
    little_endian_value_append_skip, little_endian_value_cons_skip, le_bytes_length,
    little_endian_value_le_bytes, vmdk_sparse_file_signature]

theorem emit_vmdk_uint32_0x2C (extent_file : ExtentFile) :
    byte_stream_copy_to_uint32_little_endian (emit_vmdk_header extent_file) 0x2C
      = extent_file.number_of_grain_table_entries % 256 ^ 4 := by
  simp [emit_vmdk_header, byte_stream_copy_to_uint32_little_endian,
    little_endian_value_append_skip, little_endian_value_cons_skip, le_bytes_length,
    little_endian_value_le_bytes, vmdk_sparse_file_signature]

theorem emit_vmdk_uint64_0x30 (extent_file : ExtentFile) :
    byte_stream_copy_to_uint64_little_endian (emit_vmdk_header extent_file) 0x30
      = extent_file.secondary_grain_directory_offset / 512 % 256 ^ 8 := by
  simp [emit_vmdk_header, byte_stream_copy_to_uint64_little_endian,
    little_endian_value_append_skip, little_endian_value_cons_skip, le_bytes_length,
    little_endian_value_le_bytes, vmdk_sparse_file_signature]

theorem emit_vmdk_uint64_0x38 (extent_file : ExtentFile) :
    byte_stream_copy_to_uint64_little_endian (emit_vmdk_header extent_file) 0x38
      = extent_file.primary_grain_directory_offset / 512 % 256 ^ 8 := by
  simp [emit_vmdk_header, byte_stream_copy_to_uint64_little_endian,
    little_endian_value_append_skip, little_endian_value_cons_skip, le_bytes_length,
    little_endian_value_le_bytes, vmdk_sparse_file_signature]

theorem emit_vmdk_uint16_0x4D (extent_file : ExtentFile) :
    byte_stream_copy_to_uint16_little_endian (emit_vmdk_header extent_file) 0x4D
      = extent_file.compression_method % 256 ^ 2 := by
  simp [emit_vmdk_header, byte_stream_copy_to_uint16_little_endian,
    little_endian_value_append_skip, little_endian_value_cons_skip, le_bytes_length,
    little_endian_value_le_bytes, vmdk_sparse_file_signature]

theorem emit_vmdk_byte_0x48 (extent_file : ExtentFile) :
    byte_value (emit_vmdk_header extent_file) 0x48 = extent_file.is_dirty % 256 := by
  simp [emit_vmdk_header, byte_value_eq_little_endian_value,
    little_endian_value_append_skip, little_endian_value_cons_skip, le_bytes_length,
    little_endian_value_le_bytes, vmdk_sparse_file_signature]

theorem emit_vmdk_byte_0x49 (extent_file : ExtentFile) :
    byte_value (emit_vmdk_header extent_file) 0x49 = 0x0A % 256 := by
  simp [emit_vmdk_header, byte_value_eq_little_endian_value,
    little_endian_value_append_skip, little_endian_value_cons_skip, le_bytes_length,
    little_endian_value_le_bytes, vmdk_sparse_file_signature]

theorem emit_vmdk_byte_0x4A (extent_file : ExtentFile) :
    byte_value (emit_vmdk_header extent_file) 0x4A = 0x20 % 256 := by
  simp [emit_vmdk_header, byte_value_eq_little_endian_value,
    little_endian_value_append_skip, little_endian_value_cons_skip, le_bytes_length,
    little_endian_value_le_bytes, vmdk_sparse_file_signature]

theorem emit_vmdk_byte_0x4B (extent_file : ExtentFile) :
    byte_value (emit_vmdk_header extent_file) 0x4B = 0x0D % 256 := by
  simp [emit_vmdk_header, byte_value_eq_little_endian_value,
    little_endian_value_append_skip, little_endian_value_cons_skip, le_bytes_length,
    little_endian_value_le_bytes, vmdk_sparse_file_signature]

theorem emit_vmdk_byte_0x4C (extent_file : ExtentFile) :
    byte_value (emit_vmdk_header extent_file) 0x4C = 0x0A % 256 := by
  simp [emit_vmdk_header, byte_value_eq_little_endian_value,
    little_endian_value_append_skip, little_endian_value_cons_skip, le_bytes_length,
    little_endian_value_le_bytes, vmdk_sparse_file_signature]

theorem extent_file_eq_of_fields (a b : ExtentFile)
    (h1 : a.file_type = b.file_type) (h2 : a.format_version = b.format_version)
    (h3 : a.flags = b.flags) (h4 : a.maximum_data_size = b.maximum_data_size)
    (h5 : a.grain_size = b.grain_size) (h6 : a.descriptor_offset = b.descriptor_offset)
    (h7 : a.descriptor_size = b.descriptor_size)
    (h8 : a.primary_grain_directory_offset = b.primary_grain_directory_offset)
    (h9 : a.secondary_grain_directory_offset = b.secondary_grain_directory_offset)
    (h10 : a.number_of_grain_table_entries = b.number_of_grain_table_entries)
    (h11 : a.grain_table_size = b.grain_table_size)
    (h12 : a.number_of_grain_directory_entries = b.number_of_grain_directory_entries)
    (h13 : a.grain_directory_size = b.grain_directory_size)
    (h14 : a.is_dirty = b.is_dirty) (h15 : a.compression_method = b.compression_method) :
    a = b := by
  cases a
  cases b
  simp only [ExtentFile.mk.injEq]
  exact ⟨h1, h2, h3, h4, h5, h6, h7, h8, h9, h10, h11, h12, h13, h14, h15⟩

/-- A full-size buffer with the VMDK signature makes the parser return 1 exactly when it
satisfies the listed validations and the conditions on the derived values. -/
theorem vmdk_return_value_one_iff (sw : SizeWidth) (extent_file : ExtentFile)
    (data : List Byte) (hsig : data.take 4 = vmdk_sparse_file_signature)
    (hsize : sizeof_vmdk_sparse_file_header_t ≤ data.length)
    (hmax : data.length ≤ SSIZE_MAX sw) :
    (libvmdk_extent_file_read_file_header_data sw extent_file data).return_value = some 1 ↔
      (vmdk_listed_validations data ∧ vmdk_derived_validations sw data) := by
  rw [read_file_header_data_vmdk sw extent_file data hsig, if_neg (by omega),
    if_neg (by omega)]
  have hchk := check_header_values_vmdk_listed extent_file data
  have hset := set_derived_values_vmdk_return_value sw
    (copy_header_values { extent_file with file_type := .VMDK_SPARSE_DATA } data)
    (copy_vmdk_file_type extent_file data)
  simp only [copy_vmdk_grain_size, copy_vmdk_number_of_grain_table_entries,
    copy_vmdk_maximum_data_size, copy_vmdk_descriptor_size] at hset
  unfold read_header_values
  simp only []
  cases hc : check_header_values
      (copy_header_values { extent_file with file_type := .VMDK_SPARSE_DATA } data) data with
  | some e =>
    simp only [Outcome.return_value]
    constructor
    · intro h; simp at h
    · intro h
      rw [hchk.mpr h.1] at hc
      cases hc
  | none =>
    simp only []
    rw [hset]
    unfold vmdk_derived_validations
    exact ⟨fun h => ⟨hchk.mp hc, h⟩, fun h => h.2⟩

/-- The conditions on the derived values that a successful run on a VMDK sparse header has
passed. -/
theorem vmdk_success_derived (sw : SizeWidth) (extent_file : ExtentFile) (data : List Byte)
    (hsig : data.take 4 = vmdk_sparse_file_signature) (result : ExtentFile)
    (h : libvmdk_extent_file_read_file_header_data sw extent_file data = .success result) :
    vmdk_derived_validations sw data := by
  obtain ⟨_, hsize, hmax⟩ := success_vmdk sw extent_file data hsig result h
  exact ((vmdk_return_value_one_iff sw extent_file data hsig hsize hmax).mp
    (by rw [h]; rfl)).2
theorem stored_round_trip (x : Nat) :
    x * 512 % 2 ^ 64 / 512 % 256 ^ 8 * 512 % 2 ^ 64 = x * 512 % 2 ^ 64 := by
  norm_num
  omega

theorem pow_two_grain_sectors_lt (k : Nat) (h : 2 ^ k * 512 % 2 ^ 64 ≠ 0) :
    2 ^ k < 36028797018963968 := by
  by_contra hlt
  apply h
  have hk : 55 ≤ k := by
    by_contra hk
    exact hlt (lt_of_lt_of_le (Nat.pow_lt_pow_right (by norm_num) (by omega : k < 55))
      (by norm_num))
  obtain ⟨j, rfl⟩ : ∃ j, k = 55 + j := ⟨k - 55, by omega⟩
  have : 2 ^ (55 + j) * 512 = 2 ^ 64 * 2 ^ j := by
    rw [pow_add]
    norm_num
    ring
  rw [this, Nat.mul_mod_right]

/-- C19: for every spec-conformant header that the header parser accepts, re-emitting the
parsed geometry in the wire format (byte values divided by 512, little-endian fields at the
documented offsets) and parsing the result again succeeds and yields the same extent
geometry, whatever the extent file held before the second parse. -/
theorem parse_emit_parse (sw : SizeWidth) (extent_file other : ExtentFile)
    (data : List Byte) (result : ExtentFile)
    (hconf : spec_conformant_header data)
    (h : libvmdk_extent_file_read_file_header_data sw extent_file data = .success result) :
    libvmdk_extent_file_read_file_header_data sw other (emit_header result)
      = .success result := by
  obtain ⟨hlen, hkind⟩ := hconf
  have hsigs := success_signature sw extent_file data result h
  rcases hkind with ⟨hcowd, _⟩ | ⟨hsig, hlisted, k, hk⟩
  · exfalso
    rw [hcowd] at hsigs
    revert hsigs
    decide
  obtain ⟨h1, hsize, hmax⟩ := success_vmdk sw extent_file data hsig result h
  have hderived := vmdk_success_derived sw extent_file data hsig result h
  obtain ⟨⟨a1, a2, a3, a4, a5, a6, a7, a8, a9, a10, a11⟩, ⟨b1, b2, b3, b4⟩, _⟩ :=
    vmdk_success_all sw extent_file data result h1
  have hemit : emit_header result = emit_vmdk_header result := by
    unfold emit_header
    rw [b1]
  rw [hemit]
  have hsig' := emit_vmdk_header_signature result
  have hlen' := emit_vmdk_header_length result
  -- the fields of the emitted header
  have e1 : byte_stream_copy_to_uint32_little_endian (emit_vmdk_header result) 0x04
      = byte_stream_copy_to_uint32_little_endian data 0x04 := by
    rw [emit_vmdk_uint32_0x04, a1]
    have := uint32_lt data 0x04
    norm_num
    omega
  have e2 : byte_stream_copy_to_uint32_little_endian (emit_vmdk_header result) 0x08
      = byte_stream_copy_to_uint32_little_endian data 0x08 := by
    rw [emit_vmdk_uint32_0x08, a2]
    have := uint32_lt data 0x08
    norm_num
    omega
  have e3 : byte_stream_copy_to_uint64_little_endian (emit_vmdk_header result) 0x0C * 512
      % 2 ^ 64 = byte_stream_copy_to_uint64_little_endian data 0x0C * 512 % 2 ^ 64 := by
    rw [emit_vmdk_uint64_0x0C, a3, stored_round_trip]
  have e5 : byte_stream_copy_to_uint64_little_endian (emit_vmdk_header result) 0x1C * 512
      % 2 ^ 64 = byte_stream_copy_to_uint64_little_endian data 0x1C * 512 % 2 ^ 64 := by
    rw [emit_vmdk_uint64_0x1C, a5, stored_round_trip]
  have e6 : byte_stream_copy_to_uint64_little_endian (emit_vmdk_header result) 0x24 * 512
      % 2 ^ 64 = byte_stream_copy_to_uint64_little_endian data 0x24 * 512 % 2 ^ 64 := by
    rw [emit_vmdk_uint64_0x24, a6, stored_round_trip]
  have e7 : byte_stream_copy_to_uint32_little_endian (emit_vmdk_header result) 0x2C
      = byte_stream_copy_to_uint32_little_endian data 0x2C := by
    rw [emit_vmdk_uint32_0x2C, a7]
    have := uint32_lt data 0x2C
    norm_num
    omega
  have e8 : byte_stream_copy_to_uint64_little_endian (emit_vmdk_header result) 0x30 * 512
      % 2 ^ 64 = byte_stream_copy_to_uint64_little_endian data 0x30 * 512 % 2 ^ 64 := by
    rw [emit_vmdk_uint64_0x30, a8, stored_round_trip]
  have e9 : byte_stream_copy_to_uint64_little_endian (emit_vmdk_header result) 0x38 * 512
      % 2 ^ 64 = byte_stream_copy_to_uint64_little_endian data 0x38 * 512 % 2 ^ 64 := by
    rw [emit_vmdk_uint64_0x38, a9, stored_round_trip]
  have e10 : byte_value (emit_vmdk_header result) 0x48 = byte_value data 0x48 := by
    rw [emit_vmdk_byte_0x48, a10]
    have : byte_value data 0x48 < 256 := by
      rw [byte_value_eq_little_endian_value]
      exact little_endian_value_lt data 1 0x48
    omega
  have e11 : byte_stream_copy_to_uint16_little_endian (emit_vmdk_header result) 0x4D
      = byte_stream_copy_to_uint16_little_endian data 0x4D := by
    rw [emit_vmdk_uint16_0x4D, a11]
    have : byte_stream_copy_to_uint16_little_endian data 0x4D < 65536 :=
      little_endian_value_lt data 2 0x4D
    norm_num
    omega
  -- the grain size in sectors is a power of two below 2 ^ 55
  have hg : byte_stream_copy_to_uint64_little_endian data 0x14 < 36028797018963968 := by
    rw [hk]
    apply pow_two_grain_sectors_lt
    rw [← hk]
    intro h0
    apply hderived.1
    rw [h0]
    simp
  have e4 : byte_stream_copy_to_uint64_little_endian (emit_vmdk_header result) 0x14
      = byte_stream_copy_to_uint64_little_endian data 0x14 := by
    rw [emit_vmdk_uint64_0x14, a4]
    norm_num
    omega
  have hone : (libvmdk_extent_file_read_file_header_data sw other
      (emit_vmdk_header result)).return_value = some 1 := by
    rw [vmdk_return_value_one_iff sw other _ hsig' (by rw [hlen']; decide)
      (by rw [hlen']; cases sw <;> decide)]
    unfold vmdk_listed_validations vmdk_derived_validations at *
    rw [emit_vmdk_byte_0x49, emit_vmdk_byte_0x4A, emit_vmdk_byte_0x4B, emit_vmdk_byte_0x4C,
      e11, e4, e7, e3, e6]
    exact ⟨⟨rfl, rfl, rfl, rfl, hlisted.2.2.2.2⟩, hderived⟩
  obtain ⟨result', hres⟩ := (return_value_eq_one_iff _).mp hone
  rw [hres]
  obtain ⟨h1', _, _⟩ := success_vmdk sw other _ hsig' result' hres
  obtain ⟨⟨c1, c2, c3, c4, c5, c6, c7, c8, c9, c10, c11⟩, ⟨d1, d2, d3, d4⟩, _⟩ :=
    vmdk_success_all sw other _ result' h1'
  rw [e1] at c1
  rw [e2] at c2
  rw [e3] at c3
  rw [e4] at c4
  rw [e5] at c5
  rw [e6] at c6
  rw [e7] at c7
  rw [e8] at c8
  rw [e9] at c9
  rw [e10] at c10
  rw [e11] at c11
  have f3 := c3.trans a3.symm
  have f4 := c4.trans a4.symm
  have f7 := c7.trans a7.symm
  have f12 : result'.number_of_grain_directory_entries
      = result.number_of_grain_directory_entries := by rw [d2, b2, f3, f4, f7]
  have heq : result' = result := extent_file_eq_of_fields result' result (d1.trans b1.symm) (c1.trans a1.symm)
    (c2.trans a2.symm) f3 f4 (c5.trans a5.symm) (c6.trans a6.symm) (c9.trans a9.symm)
    (c8.trans a8.symm) f7 (by rw [d3, b3, f7]) f12 (by rw [d4, b4, f12])
    (c10.trans a10.symm) (c11.trans a11.symm)
  rw [heq]

/-- C19, witness: the header of scenario S1 is spec-conformant and accepted; the header
re-emitted from its parsed values is parsed to the same values. -/
theorem parse_emit_parse_witness :
    spec_conformant_header example_KDMV_header
    ∧ libvmdk_extent_file_read_file_header_data .w64 libvmdk_extent_file_initialize
        example_KDMV_header = .success example_KDMV_values
    ∧ libvmdk_extent_file_read_file_header_data .w64 libvmdk_extent_file_initialize
        (emit_header example_KDMV_values) = .success example_KDMV_values :=
  have hconf : spec_conformant_header example_KDMV_header :=
    ⟨by decide, Or.inr ⟨by decide, by unfold vmdk_listed_validations; decide, 7, by decide⟩⟩
  ⟨hconf, by decide,
    parse_emit_parse .w64 libvmdk_extent_file_initialize libvmdk_extent_file_initialize
      example_KDMV_header example_KDMV_values hconf (by decide)⟩
/-! ### The values that the grain directory loader does not depend on -/

/-- The little-endian value depends only on the bytes it covers. -/
theorem little_endian_value_congr (data other : List Byte) (count offset : Nat)
    (h : ∀ i, offset ≤ i → i < offset + count → byte_value data i = byte_value other i) :
    little_endian_value data offset count = little_endian_value other offset count := by
  induction count generalizing offset with
  | zero => rfl
  | succ k ih =>
    rw [little_endian_value, little_endian_value, h offset (le_refl _) (by omega),
      ih (offset + 1) (fun i h1 h2 => h i (by omega) (by omega))]

/-- The checks on the copied values do not look at the format version, the flags or the
secondary grain directory offset, and of the header only at the four end-of-line bytes. -/
theorem check_header_values_congr (extent_file : ExtentFile) (data other : List Byte)
    (version flags secondary : Nat)
    (h49 : byte_value data 0x49 = byte_value other 0x49)
    (h4A : byte_value data 0x4A = byte_value other 0x4A)
    (h4B : byte_value data 0x4B = byte_value other 0x4B)
    (h4C : byte_value data 0x4C = byte_value other 0x4C) :
    check_header_values
        { extent_file with format_version := version, flags := flags,
                           secondary_grain_directory_offset := secondary } data
      = check_header_values extent_file other := by
  unfold check_header_values
  simp only [h49, h4A, h4B, h4C]

theorem byte_value_eq_of_getElem? (data other : List Byte) (i : Nat)
    (h : data[i]? = other[i]?) : byte_value data i = byte_value other i := by
  unfold byte_value
  rw [List.getD_eq_getElem?_getD, List.getD_eq_getElem?_getD, h]

theorem take_eq_of_getElem? (data other : List Byte) (n : Nat)
    (h : ∀ i, i < n → data[i]? = other[i]?) : data.take n = other.take n := by
  apply List.ext_getElem?
  intro i
  by_cases hi : i < n
  · rw [List.getElem?_take_of_lt hi, List.getElem?_take_of_lt hi, h i hi]
  · rw [List.getElem?_take_eq_none (by omega), List.getElem?_take_eq_none (by omega)]

theorem read_buffer_length (file : File) (offset size : Nat) :
    (file.read_buffer offset size).length = min size (file.contents.length - offset) := by
  simp [File.read_buffer]

theorem read_buffer_header (file : File) (size : Nat) :
    file.read_buffer 0 4 ++ file.read_buffer 4 size = file.contents.take (4 + size) := by
  simp only [File.read_buffer, List.drop_zero]
  exact (List.take_add file.contents 4 size).symm

/-- The function `libvmdk_extent_file_read_file_header` returns 1 exactly when the seek to
offset 0 succeeds, the file holds at least the 512 bytes of a header and the header parser
succeeds on them. -/
theorem read_file_header_eq_one_iff (sw : SizeWidth) (extent_file : ExtentFile) (file : File)
    (values : ExtentFile) :
    libvmdk_extent_file_read_file_header sw extent_file file = some (1, values) ↔
      (file.seekable 0 = true ∧ 512 ≤ file.contents.length
        ∧ libvmdk_extent_file_read_file_header_data sw extent_file (file.contents.take 512)
            = .success values) := by
  have hsig : file.read_buffer 0 4 = (file.contents.take 512).take 4 := by
    simp [File.read_buffer, List.take_take]
  unfold libvmdk_extent_file_read_file_header
  simp only [sizeof_cowd_sparse_file_header_t, sizeof_vmdk_sparse_file_header_t, ite_self,
    read_buffer_header, read_buffer_length]
  constructor
  · intro h
    split_ifs at h with h1 h2 h3 h4
    · simp at h
    · simp at h
    · simp at h
    · simp at h
    · have h512 : 512 ≤ file.contents.length := by omega
      refine ⟨by simpa using h1, h512, ?_⟩
      revert h
      cases libvmdk_extent_file_read_file_header_data sw extent_file
          (file.contents.take (4 + (512 - 4))) with
      | success result => intro h; simp at h; rw [h]
      | failure error result => intro h; simp at h
      | undefined => intro h; simp at h
  · rintro ⟨h1, h2, h3⟩
    have hs := success_signature sw extent_file _ values h3
    rw [← hsig] at hs
    rw [if_neg (by simp [h1]), if_neg (by omega), if_neg (by tauto), if_neg (by omega)]
    show (match libvmdk_extent_file_read_file_header_data sw extent_file
      (file.contents.take 512) with
      | .success extent_file => some ((1 : Int), extent_file)
      | .failure _ extent_file => some (-1, extent_file)
      | .undefined => none) = some (1, values)
    rw [h3]

/-- C17, divergence: for the present grain directory entry of `example_extent_file_state`,
whose grain table is in the file at offset 1024,
`libvmdk_extent_file_read_grain_group_element_data` returns 1 without a read and without a
value installed for the element; it never does either, whatever its arguments. -/
theorem read_grain_group_element_data_reads_nothing :
    libvmdk_extent_file_read_element_data .w64 example_extent_file_with_grain_table 0
      = some (1, some example_extent_file_state)
    ∧ libvmdk_extent_file_read_grain_group_element_data example_extent_file_state
        example_extent_file_with_grain_table 0 { reads := [], element_values := [] } 0 1024
        2048 = (1, { reads := [], element_values := [] })
    ∧ ∀ (extent_file : ExtentFileState) (file : File) (element : Nat)
        (effects : CallbackEffects) (file_io_pool_entry : Int) (offset size : Nat),
        (libvmdk_extent_file_read_grain_group_element_data extent_file file element effects
          file_io_pool_entry offset size).2 = effects := by
  refine ⟨by decide, by decide, ?_⟩
  intro extent_file file element effects file_io_pool_entry offset size
  unfold libvmdk_extent_file_read_grain_group_element_data
  split_ifs <;> rfl

/-- C18, divergence: on an extent file without descriptor data (descriptor size 0)
`libvmdk_extent_file_read_descriptor_data_file_io_handle` returns 1, not 0, and it returns
0 for no arguments at all. -/
theorem read_descriptor_data_never_returns_zero :
    example_KDMV_values.descriptor_size = 0
    ∧ libvmdk_extent_file_read_descriptor_data_file_io_handle .w64 example_KDMV_values
        (example_file example_KDMV_header) 16 = (1, [])
    ∧ ∀ (sw : SizeWidth) (extent_file : ExtentFile) (file : File)
        (descriptor_data_size : Nat),
        (libvmdk_extent_file_read_descriptor_data_file_io_handle sw extent_file file
          descriptor_data_size).1 ≠ 0 := by
  refine ⟨rfl, by decide, ?_⟩
  intro sw extent_file file descriptor_data_size
  unfold libvmdk_extent_file_read_descriptor_data_file_io_handle
  simp only []
  split_ifs <;> simp

/-! ### The grain directory buffer, COWD headers, the divisor -/

/-- The grain directory loader returns on every extent file that the header parser has
filled in. -/
theorem read_grain_directory_returns (sw : SizeWidth) (initial : ExtentFile)
    (file_header_data : List Byte) (extent_file : ExtentFile)
    (hparse : libvmdk_extent_file_read_file_header_data sw initial file_header_data
      = .success extent_file)
    (list : List GrainGroupElement) (file : File) (file_io_pool_entry : Int)
    (file_offset : Nat) :
    ∃ result, libvmdk_extent_file_read_grain_directory sw extent_file list file
      file_io_pool_entry file_offset = some result := by
  by_cases hseek : file.seekable file_offset = true
  · by_cases hread :
        ((file.read_buffer file_offset extent_file.grain_directory_size).length : Int)
          = size_as_ssize sw extent_file.grain_directory_size
    · obtain ⟨appended, h, _⟩ := read_grain_directory_data_ranges sw extent_file list file
        file_io_pool_entry file_offset
        (success_bounds sw initial file_header_data extent_file hparse).1
        (success_directory_entries_fit sw initial file_header_data extent_file hparse)
        hseek
        (success_grain_directory_size_bounds sw initial file_header_data extent_file
          hparse).1
        hread
      exact ⟨_, h⟩
    · exact ⟨_, read_grain_directory_read_failed sw extent_file list file file_io_pool_entry
        file_offset hread⟩
  · unfold libvmdk_extent_file_read_grain_directory
    have hf : file.seekable file_offset = false := by simpa using hseek
    simp only [hf, if_true]
    exact ⟨_, rfl⟩

/-- C25: for every extent file that a successful run of the header parser has filled in,
`4 * number_of_grain_directory_entries ≤ grain_directory_size`; so in every buffer of
`grain_directory_size` bytes the four bytes of each of the
`number_of_grain_directory_entries` entries lie inside the buffer, and
`libvmdk_extent_file_read_grain_directory` returns without a read outside the grain
directory data, whatever the file is. -/
theorem grain_directory_entries_inside_buffer (sw : SizeWidth) (initial : ExtentFile)
    (file_header_data : List Byte) (extent_file : ExtentFile)
    (hparse : libvmdk_extent_file_read_file_header_data sw initial file_header_data
      = .success extent_file) :
    4 * extent_file.number_of_grain_directory_entries ≤ extent_file.grain_directory_size
    ∧ (∀ (grain_directory_data : List Byte) (index : Nat),
        grain_directory_data.length = extent_file.grain_directory_size →
        index < extent_file.number_of_grain_directory_entries →
        4 * index + 4 ≤ grain_directory_data.length)
    ∧ ∀ (list : List GrainGroupElement) (file : File) (file_io_pool_entry : Int)
        (file_offset : Nat),
        ∃ result, libvmdk_extent_file_read_grain_directory sw extent_file list file
          file_io_pool_entry file_offset = some result := by
  have hfit := success_directory_entries_fit sw initial file_header_data extent_file hparse
  refine ⟨hfit, ?_, ?_⟩
  · intro data index hlen hindex
    omega
  · intro list file file_io_pool_entry file_offset
    exact read_grain_directory_returns sw initial file_header_data extent_file hparse list
      file file_io_pool_entry file_offset

/-- C25, witness: the values of the header of scenario S1, one grain directory entry in a
grain directory of 512 bytes. -/
theorem grain_directory_entries_inside_buffer_witness :
    libvmdk_extent_file_read_file_header_data .w64 libvmdk_extent_file_initialize
        example_KDMV_header = .success example_KDMV_values
    ∧ 4 * example_KDMV_values.number_of_grain_directory_entries
        ≤ example_KDMV_values.grain_directory_size
    ∧ example_KDMV_values.number_of_grain_directory_entries = 1
    ∧ example_KDMV_values.grain_directory_size = 512 :=
  ⟨by decide,
    (grain_directory_entries_inside_buffer .w64 libvmdk_extent_file_initialize
      example_KDMV_header example_KDMV_values (by decide)).1, rfl, rfl⟩

/-- C23, divergence: the header of scenario S1 with `2 ^ 55` sectors per grain passes all
checks on the copied values (grain size more than 8 and even, 512 grain table entries,
end-of-line bytes, compression method 0), the grain size in bytes wraps to 0, the divisor
`number_of_grain_table_entries * grain_size` is 0 and the run divides by it. -/
theorem vmdk_divisor_zero_after_checks :
    example_KDMV_header_grain_sectors_2_55.take 4 = vmdk_sparse_file_signature
    ∧ example_KDMV_header_grain_sectors_2_55.length = sizeof_vmdk_sparse_file_header_t
    ∧ byte_stream_copy_to_uint64_little_endian example_KDMV_header_grain_sectors_2_55 0x14
        = 2 ^ 55
    ∧ byte_stream_copy_to_uint32_little_endian example_KDMV_header_grain_sectors_2_55 0x2C
        = 512
    ∧ check_header_values
        (copy_header_values
          { libvmdk_extent_file_initialize with file_type := .VMDK_SPARSE_DATA }
          example_KDMV_header_grain_sectors_2_55)
        example_KDMV_header_grain_sectors_2_55 = none
    ∧ 512 * (2 ^ 55 * 512 % 2 ^ 64) % 2 ^ 64 = 0
    ∧ libvmdk_extent_file_read_file_header_data .w64 libvmdk_extent_file_initialize
        example_KDMV_header_grain_sectors_2_55 = .undefined := by
  decide

/-! ### The extent file after a failed run -/

theorem check_header_values_not_before_copy (extent_file : ExtentFile) (data : List Byte)
    (e : HeaderError) (h : check_header_values extent_file data = some e) :
    e.before_copy = false := by
  simp only [check_header_values, ite_some_eq_some, reduceCtorEq, and_false, or_false] at h
  rcases h with ⟨_, h⟩ | ⟨_, ⟨_, h⟩ | ⟨_, ⟨_, h⟩ | ⟨_, ⟨_, h⟩ | ⟨_, ⟨_, h⟩ | ⟨_, ⟨_, h⟩ |
    ⟨_, ⟨_, h⟩ | ⟨_, ⟨_, h⟩ | ⟨_, ⟨_, h⟩ | ⟨_, _, h⟩⟩⟩⟩⟩⟩⟩⟩⟩
  all_goals (subst h; rfl)

theorem check_derived_values_not_before_copy (sw : SizeWidth) (extent_file : ExtentFile)
    (e : HeaderError) (h : check_derived_values sw extent_file = some e) :
    e.before_copy = false := by
  simp only [check_derived_values, ite_some_eq_some, reduceCtorEq, and_false, or_false] at h
  rcases h with ⟨_, h⟩ | ⟨_, ⟨_, h⟩ | ⟨_, ⟨_, h⟩ | ⟨_, _, h⟩⟩⟩
  all_goals (subst h; rfl)

/-- A failure of the checks on the derived values leaves the extent file with the values of
lines 1052-1071, which are none of the file type, the format version, the flags and the two
table sizes. -/
theorem set_derived_values_failure (sw : SizeWidth) (extent_file : ExtentFile)
    (e : HeaderError) (result : ExtentFile)
    (h : set_derived_values sw extent_file = .failure e result) :
    e.before_copy = false
    ∧ result.file_type = extent_file.file_type
    ∧ result.format_version = extent_file.format_version
    ∧ result.flags = extent_file.flags
    ∧ result.grain_table_size = extent_file.grain_table_size
    ∧ result.grain_directory_size = extent_file.grain_directory_size := by
  unfold set_derived_values at h
  simp only [] at h
  cases hs : set_file_type_values (sector_values_to_byte_values extent_file) with
  | none => rw [hs] at h; cases h
  | some x =>
    rw [hs] at h
    simp only [] at h
    cases hd : check_derived_values sw x with
    | none => rw [hd] at h; cases h
    | some e2 =>
      rw [hd] at h
      simp only [Outcome.failure.injEq] at h
      obtain ⟨he, hr⟩ := h
      subst he
      subst hr
      refine ⟨check_derived_values_not_before_copy sw x e2 hd, ?_⟩
      unfold set_file_type_values at hs
      split_ifs at hs with h1 h2 h3
      · cases hs; exact ⟨rfl, rfl, rfl, rfl, rfl⟩
      · cases hs; exact ⟨rfl, rfl, rfl, rfl, rfl⟩
      · cases hs; exact ⟨rfl, rfl, rfl, rfl, rfl⟩

/-- A failure after the file type has been set leaves the extent file with the format
version and the flags of the header, and with the table sizes it had. -/
theorem read_header_values_failure_values (sw : SizeWidth) (extent_file : ExtentFile)
    (data : List Byte) (e : HeaderError) (result : ExtentFile)
    (hft : extent_file.file_type = .COWD_SPARSE_DATA
      ∨ extent_file.file_type = .VMDK_SPARSE_DATA)
    (h : read_header_values sw extent_file data = .failure e result) :
    e.before_copy = false
    ∧ result.file_type = extent_file.file_type
    ∧ result.format_version = byte_stream_copy_to_uint32_little_endian data 0x04
    ∧ result.flags = byte_stream_copy_to_uint32_little_endian data 0x08
    ∧ result.grain_table_size = extent_file.grain_table_size
    ∧ result.grain_directory_size = extent_file.grain_directory_size := by
  have hcopy : (copy_header_values extent_file data).file_type = extent_file.file_type
      ∧ (copy_header_values extent_file data).format_version
          = byte_stream_copy_to_uint32_little_endian data 0x04
      ∧ (copy_header_values extent_file data).flags
          = byte_stream_copy_to_uint32_little_endian data 0x08
      ∧ (copy_header_values extent_file data).grain_table_size = extent_file.grain_table_size
      ∧ (copy_header_values extent_file data).grain_directory_size
          = extent_file.grain_directory_size := by
    unfold copy_header_values
    rcases hft with hft | hft
    · rw [if_pos hft]
      exact ⟨rfl, rfl, rfl, rfl, rfl⟩
    · rw [if_neg (by rw [hft]; decide), if_pos hft]
      exact ⟨rfl, rfl, rfl, rfl, rfl⟩
  unfold read_header_values at h
  simp only [] at h
  cases hc : check_header_values (copy_header_values extent_file data) data with
  | some e2 =>
    rw [hc] at h
    simp only [Outcome.failure.injEq] at h
    obtain ⟨he, hr⟩ := h
    subst he
    subst hr
    exact ⟨check_header_values_not_before_copy _ data _ hc, hcopy⟩
  | none =>
    rw [hc] at h
    simp only [] at h
    obtain ⟨h1, h2, h3, h4, h5, h6⟩ := set_derived_values_failure sw _ e result h
    exact ⟨h1, h2.trans hcopy.1, h3.trans hcopy.2.1, h4.trans hcopy.2.2.1,
      h5.trans hcopy.2.2.2.1, h6.trans hcopy.2.2.2.2⟩

/-- C27, as amended: when the parser returns -1 with an error of the data size or of the
signature, the extent file is the same as before the call; when it returns -1 with a later
error, the file type is the one of the signature of the header (COWD sparse data for
`cowd_sparse_file_signature`, VMDK sparse data for `vmdk_sparse_file_signature`) and the
format version and the flags are those of the header, whatever they were before.  In both
cases the grain table size and the grain directory size are the same as before the call. -/
theorem failed_run_extent_file (sw : SizeWidth) (extent_file : ExtentFile)
    (data : List Byte) (e : HeaderError) (result : ExtentFile)
    (h : libvmdk_extent_file_read_file_header_data sw extent_file data
      = .failure e result) :
    (e.before_copy = true → result = extent_file)
    ∧ (e.before_copy = false →
        ((data.take 4 = cowd_sparse_file_signature
            ∧ result.file_type = .COWD_SPARSE_DATA)
          ∨ (data.take 4 = vmdk_sparse_file_signature
            ∧ result.file_type = .VMDK_SPARSE_DATA))
        ∧ result.format_version = byte_stream_copy_to_uint32_little_endian data 0x04
        ∧ result.flags = byte_stream_copy_to_uint32_little_endian data 0x08)
    ∧ result.grain_table_size = extent_file.grain_table_size
    ∧ result.grain_directory_size = extent_file.grain_directory_size := by
  have hearly : ∀ e2 : HeaderError,
      Outcome.failure e2 extent_file = .failure e result → e2.before_copy = true →
      (e.before_copy = true → result = extent_file)
      ∧ (e.before_copy = false →
          ((data.take 4 = cowd_sparse_file_signature
              ∧ result.file_type = .COWD_SPARSE_DATA)
            ∨ (data.take 4 = vmdk_sparse_file_signature
              ∧ result.file_type = .VMDK_SPARSE_DATA))
          ∧ result.format_version = byte_stream_copy_to_uint32_little_endian data 0x04
          ∧ result.flags = byte_stream_copy_to_uint32_little_endian data 0x08)
      ∧ result.grain_table_size = extent_file.grain_table_size
      ∧ result.grain_directory_size = extent_file.grain_directory_size := by
    intro e2 heq he2
    simp only [Outcome.failure.injEq] at heq
    obtain ⟨he, hr⟩ := heq
    subst he
    subst hr
    refine ⟨fun _ => rfl, fun hf => ?_, rfl, rfl⟩
    rw [he2] at hf
    cases hf
  have hlate : ∀ file_type : FileType,
      (file_type = .COWD_SPARSE_DATA ∨ file_type = .VMDK_SPARSE_DATA) →
      ((data.take 4 = cowd_sparse_file_signature ∧ file_type = .COWD_SPARSE_DATA)
        ∨ (data.take 4 = vmdk_sparse_file_signature ∧ file_type = .VMDK_SPARSE_DATA)) →
      read_header_values sw { extent_file with file_type := file_type } data
        = .failure e result →
      (e.before_copy = true → result = extent_file)
      ∧ (e.before_copy = false →
          ((data.take 4 = cowd_sparse_file_signature
              ∧ result.file_type = .COWD_SPARSE_DATA)
            ∨ (data.take 4 = vmdk_sparse_file_signature
              ∧ result.file_type = .VMDK_SPARSE_DATA))
          ∧ result.format_version = byte_stream_copy_to_uint32_little_endian data 0x04
          ∧ result.flags = byte_stream_copy_to_uint32_little_endian data 0x08)
      ∧ result.grain_table_size = extent_file.grain_table_size
      ∧ result.grain_directory_size = extent_file.grain_directory_size := by
    intro file_type hft hsig hr
    obtain ⟨h1, h2, h3, h4, h5, h6⟩ :=
      read_header_values_failure_values sw _ data e result hft hr
    have h2b : result.file_type = file_type := h2
    refine ⟨fun ht => ?_, fun _ => ⟨?_, h3, h4⟩, h5, h6⟩
    · rw [h1] at ht
      cases ht
    · rw [h2b]
      exact hsig
  unfold libvmdk_extent_file_read_file_header_data at h
  simp only [] at h
  split_ifs at h with c1 c2 c3 c4 c5 c6
  · exact hearly _ h rfl
  · exact hearly _ h rfl
  · exact hlate _ (Or.inl rfl) (Or.inl ⟨c3, rfl⟩) h
  · exact hearly _ h rfl
  · exact hlate _ (Or.inr rfl) (Or.inr ⟨c5, rfl⟩) h
  · exact hearly _ h rfl

/-- C27, witness: an extent file that holds the values of a COWD sparse header, with the
table sizes 16384 and 512, is given the header of scenario S1 with compression method 2.
The parser returns -1 for the compression method, a late error, and the extent file now has
the file type of a VMDK sparse file, the signature of the header, with its format version 1
and flags 3, the sector values 1024 and 128 and 512 grain table entries; the table sizes
are still 16384 and 512. -/
theorem failed_run_extent_file_witness :
    libvmdk_extent_file_read_file_header_data .w64 example_DWOC_values_two_entries
        example_KDMV_header_compression_2
      = .failure .compression_method
          { example_DWOC_values_two_entries with
            file_type := .VMDK_SPARSE_DATA, maximum_data_size := 1024, grain_size := 128,
            primary_grain_directory_offset := 1, number_of_grain_table_entries := 512,
            compression_method := 2 }
    ∧ example_DWOC_values_two_entries.file_type = .COWD_SPARSE_DATA
    ∧ (((example_KDMV_header_compression_2.take 4 = cowd_sparse_file_signature
          ∧ FileType.VMDK_SPARSE_DATA = .COWD_SPARSE_DATA)
        ∨ (example_KDMV_header_compression_2.take 4 = vmdk_sparse_file_signature
          ∧ FileType.VMDK_SPARSE_DATA = .VMDK_SPARSE_DATA))
      ∧ 1 = byte_stream_copy_to_uint32_little_endian example_KDMV_header_compression_2 0x04
      ∧ 3 = byte_stream_copy_to_uint32_little_endian example_KDMV_header_compression_2 0x08)
    ∧ (16384 = example_DWOC_values_two_entries.grain_table_size
      ∧ 512 = example_DWOC_values_two_entries.grain_directory_size) :=
  have h := failed_run_extent_file .w64 example_DWOC_values_two_entries
    example_KDMV_header_compression_2 .compression_method
    { example_DWOC_values_two_entries with
      file_type := .VMDK_SPARSE_DATA, maximum_data_size := 1024, grain_size := 128,
      primary_grain_directory_offset := 1, number_of_grain_table_entries := 512,
      compression_method := 2 } (by decide)
  ⟨by decide, rfl, h.2.1 rfl, h.2.2⟩

/-- C27, counterexample: on the header of scenario S1 with compression method 2 the parser
returns -1, and the freshly initialised extent file, whose file type was not set and whose
format version, flags, maximum data size and grain size were 0, now has the file type of a
VMDK sparse file, format version 1, flags 3 and the sector values 1024 and 128. -/
theorem failed_run_changes_extent_file :
    (libvmdk_extent_file_read_file_header_data .w64 libvmdk_extent_file_initialize
        example_KDMV_header_compression_2).return_value = some (-1)
    ∧ (libvmdk_extent_file_read_file_header_data .w64 libvmdk_extent_file_initialize
        example_KDMV_header_compression_2).extent_file.map
          (fun e => (e.file_type, e.format_version, e.flags, e.maximum_data_size,
            e.grain_size))
        = some (.VMDK_SPARSE_DATA, 1, 3, 1024, 128)
    ∧ ( libvmdk_extent_file_initialize.file_type, libvmdk_extent_file_initialize.format_version,
        libvmdk_extent_file_initialize.flags, libvmdk_extent_file_initialize.maximum_data_size,
        libvmdk_extent_file_initialize.grain_size) = (.zero_filled, 0, 0, 0, 0) := by
  decide

/-! ### Headers that differ in the fields that the parser does not use -/

theorem set_derived_values_clear_version_and_flags (sw : SizeWidth)
    (extent_file : ExtentFile) (version flags : Nat) :
    (set_derived_values sw
        { extent_file with format_version := version, flags := flags }).map
        clear_version_and_flags
      = (set_derived_values sw extent_file).map clear_version_and_flags := by
  cases extent_file with
  | mk file_type a b c d e f g h i j k l m n =>
    cases file_type
    · simp only [set_derived_values, set_file_type_values, sector_values_to_byte_values,
        set_vmdk_values, check_derived_values, reduceCtorEq, if_true, if_false]
      split_ifs <;> rfl
    · simp only [set_derived_values, set_file_type_values, sector_values_to_byte_values,
        set_vmdk_values, check_derived_values, reduceCtorEq, if_true, if_false]
      split_ifs <;> rfl
    · by_cases hz : i * (d * 512 % 2 ^ 64) % 2 ^ 64 = 0
      · simp only [set_derived_values, set_file_type_values, sector_values_to_byte_values,
          set_vmdk_values, check_derived_values, reduceCtorEq, if_true, if_false, hz]
      · simp only [set_derived_values, set_file_type_values, sector_values_to_byte_values,
          set_vmdk_values, check_derived_values, reduceCtorEq, if_true, if_false, hz]
        split_ifs <;> rfl

/-- The outcome of the part of the parser after the file type has been set, apart from the
format version and the flags, depends only on the bytes `0x0C .. 0x3F` and
`0x48 .. 0x4E` of the header. -/
theorem read_header_values_clear_version_and_flags (sw : SizeWidth)
    (extent_file : ExtentFile) (data other : List Byte)
    (h : ∀ i, (0x0C ≤ i ∧ i < 0x40) ∨ (0x48 ≤ i ∧ i < 0x4F) →
      byte_value data i = byte_value other i) :
    (read_header_values sw extent_file data).map clear_version_and_flags
      = (read_header_values sw extent_file other).map clear_version_and_flags := by
  have h16 : ∀ offset, (0x0C ≤ offset ∧ offset + 2 ≤ 0x40) ∨ (0x48 ≤ offset ∧ offset + 2 ≤ 0x4F) →
      byte_stream_copy_to_uint16_little_endian data offset
        = byte_stream_copy_to_uint16_little_endian other offset :=
    fun offset h1 => little_endian_value_congr data other 2 offset
      (fun i hi1 hi2 => h i (by omega))
  have h32 : ∀ offset, (0x0C ≤ offset ∧ offset + 4 ≤ 0x40) ∨ (0x48 ≤ offset ∧ offset + 4 ≤ 0x4F) →
      byte_stream_copy_to_uint32_little_endian data offset
        = byte_stream_copy_to_uint32_little_endian other offset :=
    fun offset h1 => little_endian_value_congr data other 4 offset
      (fun i hi1 hi2 => h i (by omega))
  have h64 : ∀ offset, (0x0C ≤ offset ∧ offset + 8 ≤ 0x40) ∨ (0x48 ≤ offset ∧ offset + 8 ≤ 0x4F) →
      byte_stream_copy_to_uint64_little_endian data offset
        = byte_stream_copy_to_uint64_little_endian other offset :=
    fun offset h1 => little_endian_value_congr data other 8 offset
      (fun i hi1 hi2 => h i (by omega))
  have hcopy : copy_header_values extent_file data
      = { copy_header_values extent_file other with
          format_version := (copy_header_values extent_file data).format_version
          flags := (copy_header_values extent_file data).flags } := by
    unfold copy_header_values
    rw [h64 0x0C (by omega), h64 0x14 (by omega), h64 0x1C (by omega), h64 0x24 (by omega),
      h64 0x30 (by omega), h64 0x38 (by omega), h32 0x2C (by omega), h32 0x0C (by omega),
      h32 0x10 (by omega), h32 0x14 (by omega), h32 0x18 (by omega), h16 0x4D (by omega),
      h 0x48 (by omega)]
    split_ifs <;> rfl
  unfold read_header_values
  simp only []
  rw [hcopy]
  have hcheck := check_header_values_congr (copy_header_values extent_file other) data other
    (copy_header_values extent_file data).format_version
    (copy_header_values extent_file data).flags
    (copy_header_values extent_file other).secondary_grain_directory_offset
    (h 0x49 (by omega)) (h 0x4A (by omega)) (h 0x4B (by omega)) (h 0x4C (by omega))
  rw [show check_header_values
      { copy_header_values extent_file other with
        format_version := (copy_header_values extent_file data).format_version
        flags := (copy_header_values extent_file data).flags } data
      = check_header_values (copy_header_values extent_file other) other from hcheck]
  cases check_header_values (copy_header_values extent_file other) other with
  | some error => rfl
  | none => exact set_derived_values_clear_version_and_flags sw _ _ _

/-- The outcome of the header parser, apart from the format version and the flags, is the
same for two buffers of the same size that agree in the signature and in the bytes
`0x0C .. 0x3F` and `0x48 .. 0x4E`. -/
theorem read_file_header_data_clear_version_and_flags (sw : SizeWidth)
    (extent_file : ExtentFile) (data other : List Byte) (hlen : data.length = other.length)
    (h : ∀ i, i < 4 ∨ (0x0C ≤ i ∧ i < 0x40) ∨ (0x48 ≤ i ∧ i < 0x4F) →
      data[i]? = other[i]?) :
    (libvmdk_extent_file_read_file_header_data sw extent_file data).map
        clear_version_and_flags
      = (libvmdk_extent_file_read_file_header_data sw extent_file other).map
          clear_version_and_flags := by
  have htake : data.take 4 = other.take 4 :=
    take_eq_of_getElem? data other 4 (fun i hi => h i (Or.inl hi))
  have hvalues : ∀ file_type,
      (read_header_values sw { extent_file with file_type := file_type } data).map
          clear_version_and_flags
        = (read_header_values sw { extent_file with file_type := file_type } other).map
            clear_version_and_flags :=
    fun file_type => read_header_values_clear_version_and_flags sw _ data other
      (fun i h1 => byte_value_eq_of_getElem? data other i (h i (Or.inr h1)))
  unfold libvmdk_extent_file_read_file_header_data
  simp only [hlen, htake]
  split_ifs
  · rfl
  · rfl
  · rfl
  · exact hvalues _
  · rfl
  · exact hvalues _
  · rfl

theorem map_return_value (change : ExtentFile → ExtentFile) (outcome : Outcome) :
    (outcome.map change).return_value = outcome.return_value := by
  cases outcome <;> rfl

theorem map_error (change : ExtentFile → ExtentFile) (outcome : Outcome) :
    (outcome.map change).error = outcome.error := by
  cases outcome <;> rfl

/-- C26: two headers of the same size that differ only in the format version (bytes
`4 .. 7`), the flags (bytes `8 .. 11`), the metadata sectors (bytes `0x40 .. 0x47`) or the
padding (bytes from `0x4F` on) make the parser return the same value, with the same error,
and leave the same values in the extent file but for the format version and the flags.  In
particular no format version is rejected and, whatever the flags are, a KDMV header of full
size whose end-of-line bytes are not `0x0A 0x20 0x0D 0x0A` is rejected. -/
theorem unused_header_fields_do_not_matter (sw : SizeWidth) (extent_file : ExtentFile)
    (data other : List Byte) (hlen : data.length = other.length)
    (h : ∀ i, i < 4 ∨ (0x0C ≤ i ∧ i < 0x40) ∨ (0x48 ≤ i ∧ i < 0x4F) →
      data[i]? = other[i]?) :
    (libvmdk_extent_file_read_file_header_data sw extent_file data).return_value
      = (libvmdk_extent_file_read_file_header_data sw extent_file other).return_value
    ∧ (libvmdk_extent_file_read_file_header_data sw extent_file data).error
      = (libvmdk_extent_file_read_file_header_data sw extent_file other).error
    ∧ (libvmdk_extent_file_read_file_header_data sw extent_file data).map
        clear_version_and_flags
      = (libvmdk_extent_file_read_file_header_data sw extent_file other).map
          clear_version_and_flags
    ∧ (data.take 4 = vmdk_sparse_file_signature →
        ¬ (byte_value data 0x49 = 0x0A ∧ byte_value data 0x4A = 0x20
          ∧ byte_value data 0x4B = 0x0D ∧ byte_value data 0x4C = 0x0A) →
        (libvmdk_extent_file_read_file_header_data sw extent_file data).return_value
            = some (-1)
        ∧ (libvmdk_extent_file_read_file_header_data sw extent_file other).return_value
            = some (-1)) := by
  have hmap := read_file_header_data_clear_version_and_flags sw extent_file data other hlen h
  have hret : (libvmdk_extent_file_read_file_header_data sw extent_file data).return_value
      = (libvmdk_extent_file_read_file_header_data sw extent_file other).return_value := by
    rw [← map_return_value clear_version_and_flags, hmap, map_return_value]
  refine ⟨hret, ?_, hmap, ?_⟩
  · rw [← map_error clear_version_and_flags, hmap, map_error]
  · intro hsig heol
    have hrej := vmdk_not_listed_rejected sw extent_file data hsig
      (fun hl => heol ⟨hl.1, hl.2.1, hl.2.2.1, hl.2.2.2.1⟩)
    exact ⟨hrej, hret ▸ hrej⟩

/-- C26, witness: the header of scenario S1 and the same header with version 7, flags 0, 9
metadata sectors and `0xFF` at the end of the padding are both accepted, with the same
values but for the format version and the flags. -/
theorem unused_header_fields_do_not_matter_witness :
    byte_stream_copy_to_uint32_little_endian example_KDMV_header_other_unused_fields 0x04 = 7
    ∧ byte_stream_copy_to_uint32_little_endian example_KDMV_header_other_unused_fields 0x08
        = 0
    ∧ libvmdk_extent_file_read_file_header_data .w64 libvmdk_extent_file_initialize
        example_KDMV_header_other_unused_fields
      = .success { example_KDMV_values with format_version := 7, flags := 0 }
    ∧ (libvmdk_extent_file_read_file_header_data .w64 libvmdk_extent_file_initialize
        example_KDMV_header).return_value
      = (libvmdk_extent_file_read_file_header_data .w64 libvmdk_extent_file_initialize
          example_KDMV_header_other_unused_fields).return_value :=
  ⟨by decide, by decide, by decide,
    (unused_header_fields_do_not_matter .w64 libvmdk_extent_file_initialize
      example_KDMV_header example_KDMV_header_other_unused_fields (by decide)
      (fun i hi => by
        unfold example_KDMV_header_other_unused_fields
        rw [List.getElem?_set_ne (by omega), List.getElem?_set_ne (by omega),
          List.getElem?_set_ne (by omega), List.getElem?_set_ne (by omega)])).1⟩

/-! ### The backup grain directory -/

theorem grain_directory_entry_values_some (extent_file : ExtentFile)
    (file_io_pool_entry : Int) (data : List Byte) (index total : Nat)
    (hG : 0 < extent_file.grain_size) :
    ∃ result, grain_directory_entry_values extent_file file_io_pool_entry data index total
      = some result := by
  unfold grain_directory_entry_values
  simp only []
  split_ifs
  all_goals first
    | omega
    | exact ⟨_, rfl⟩

/-- The loop over the backup grain directory returns 1 when the entries fit in the data, the
grain size is not 0 and the grain groups list has an element for every entry. -/
theorem backup_grain_directory_loop_eq_one (extent_file : ExtentFileState)
    (file_io_pool_entry : Int) (data : List Byte)
    (hG : 0 < extent_file.values.grain_size) :
    ∀ (remaining index total : Nat),
      4 * (index + remaining) ≤ data.length →
      (∀ i, index ≤ i → i < index + remaining →
        libfdata_list_get_element_by_index extent_file.grain_groups_list i ≠ none) →
      backup_grain_directory_loop extent_file file_io_pool_entry data remaining index total
        = some 1 := by
  intro remaining
  induction remaining with
  | zero => intro index total _ _; rfl
  | succ k ih =>
    intro index total hfit hlookup
    obtain ⟨⟨element, total2⟩, hvalues⟩ := grain_directory_entry_values_some
      extent_file.values file_io_pool_entry data index total hG
    rw [backup_grain_directory_loop, if_pos (by omega), hvalues]
    simp only []
    cases hget : libfdata_list_get_element_by_index extent_file.grain_groups_list index with
    | none => exact absurd hget (hlookup index (le_refl _) (by omega))
    | some found =>
      simp only []
      exact ih (index + 1) total2 (by omega) (fun i h1 h2 => hlookup i (by omega) (by omega))

/-- C21: `libvmdk_extent_file_read_backup_grain_directory` leaves the extent file, its grain
groups list and its values, as it was, whatever it returns.  On an extent file whose values
the header parser has filled in it returns 1 when the seek succeeds, the read succeeds by
the test of line 1580 (the read count is `(ssize_t) grain_directory_size`: the whole grain
directory was delivered and its size is at most `SSIZE_MAX`) and the grain groups list has
an element at the index of every grain directory entry, whatever the words of the backup
grain directory are.  When the read fails by that test it returns -1. -/
theorem read_backup_grain_directory_frame (sw : SizeWidth) (extent_file : ExtentFileState)
    (file : File) (file_io_pool_entry : Int) (file_offset : Nat) :
    (∀ result after,
      libvmdk_extent_file_read_backup_grain_directory sw extent_file file file_io_pool_entry
        file_offset = some (result, after) → after = extent_file)
    ∧ (∀ (initial : ExtentFile) (file_header_data : List Byte),
        libvmdk_extent_file_read_file_header_data sw initial file_header_data
          = .success extent_file.values →
        file.seekable file_offset = true →
        ((file.read_buffer file_offset extent_file.values.grain_directory_size).length : Int)
          = size_as_ssize sw extent_file.values.grain_directory_size →
        (∀ i, i < extent_file.values.number_of_grain_directory_entries →
          libfdata_list_get_element_by_index extent_file.grain_groups_list i ≠ none) →
        libvmdk_extent_file_read_backup_grain_directory sw extent_file file
          file_io_pool_entry file_offset = some (1, extent_file))
    ∧ (((file.read_buffer file_offset extent_file.values.grain_directory_size).length : Int)
          ≠ size_as_ssize sw extent_file.values.grain_directory_size →
        libvmdk_extent_file_read_backup_grain_directory sw extent_file file
          file_io_pool_entry file_offset = some (-1, extent_file)) := by
  refine ⟨?_, ?_, ?_⟩
  · intro result after h
    unfold libvmdk_extent_file_read_backup_grain_directory at h
    simp only [] at h
    split_ifs at h with h1 h2
    · simp only [Option.some.injEq, Prod.mk.injEq] at h
      exact h.2.symm
    · simp only [Option.some.injEq, Prod.mk.injEq] at h
      exact h.2.symm
    · cases hl : backup_grain_directory_loop extent_file file_io_pool_entry
          (file.read_buffer file_offset extent_file.values.grain_directory_size)
          extent_file.values.number_of_grain_directory_entries 0 0 with
      | none => rw [hl] at h; cases h
      | some r =>
        rw [hl] at h
        simp only [Option.some.injEq, Prod.mk.injEq] at h
        exact h.2.symm
  · intro initial file_header_data hparse hseek hread hlookup
    have hG := (success_bounds sw initial file_header_data extent_file.values hparse).1
    have hfit := success_directory_entries_fit sw initial file_header_data
      extent_file.values hparse
    have hsize := (success_grain_directory_size_bounds sw initial file_header_data
      extent_file.values hparse).1
    have hlen := ((eq_size_as_ssize_iff sw _ _ hsize).mp hread).1
    have hloop := backup_grain_directory_loop_eq_one extent_file file_io_pool_entry
      (file.read_buffer file_offset extent_file.values.grain_directory_size) hG
      extent_file.values.number_of_grain_directory_entries 0 0 (by rw [hlen]; omega)
      (fun i _ hi => hlookup i (by omega))
    unfold libvmdk_extent_file_read_backup_grain_directory
    simp only [hseek, Bool.true_eq_false, if_false, hread, ne_eq, not_true_eq_false, hloop]
  · intro hread
    unfold libvmdk_extent_file_read_backup_grain_directory
    simp only [hread, ne_eq, not_false_eq_true, if_true, ite_self]

/-- C21, witness: for the extent file of scenario S1, whose primary grain directory entry is
sector 2, the backup grain directory at offset 1024 has the entry 7 and the function
returns 1, with the extent file as it was. -/
theorem read_backup_grain_directory_frame_witness :
    libvmdk_extent_file_read_grain_directory .w64 example_KDMV_values []
        example_extent_file_with_backup 0 512
      = some (1, example_extent_file_state.grain_groups_list.getD [])
    ∧ byte_stream_copy_to_uint32_little_endian
        (example_extent_file_with_backup.read_buffer 512 512) 0 = 2
    ∧ byte_stream_copy_to_uint32_little_endian
        (example_extent_file_with_backup.read_buffer 1024 512) 0 = 7
    ∧ libvmdk_extent_file_read_backup_grain_directory .w64 example_extent_file_state
        example_extent_file_with_backup 0 1024 = some (1, example_extent_file_state) :=
  ⟨by decide, by decide, by decide,
    (read_backup_grain_directory_frame .w64 example_extent_file_state
      example_extent_file_with_backup 0 1024).2.1 libvmdk_extent_file_initialize
      example_KDMV_header (by decide) rfl (by decide) (by decide)⟩

/-! ### The steps of reading the element data -/

/-- With both `libvmdk_extent_file_initialize` and
`libfdata_list_element_set_element_value` returning 1, the function with its calls
recorded returns and installs what `libvmdk_extent_file_read_element_data` does. -/
theorem read_element_data_steps_eq (sw : SizeWidth) (file : File)
    (file_io_pool_entry : Int) :
    (libvmdk_extent_file_read_element_data_steps sw file file_io_pool_entry 1 1).map
        (fun r => (r.1, r.2.1))
      = libvmdk_extent_file_read_element_data sw file file_io_pool_entry := by
  unfold libvmdk_extent_file_read_element_data_steps libvmdk_extent_file_read_element_data
  simp only [ne_eq, not_true_eq_false, if_false]
  cases libvmdk_extent_file_read_file_header sw ( extent_file_state_initialize).values
      file with
  | none => rfl
  | some p =>
    obtain ⟨result, values⟩ := p
    simp only []
    by_cases h1 : result = 1
    · simp only [h1, not_true_eq_false, if_false]
      cases libvmdk_extent_file_read_grain_directory sw values
          (( extent_file_state_initialize).grain_groups_list.getD []) file
          file_io_pool_entry values.primary_grain_directory_offset with
      | none => rfl
      | some q =>
        obtain ⟨result2, list⟩ := q
        simp only []
        by_cases h2 : result2 = 1
        · simp only [h2, not_true_eq_false, if_false, Option.map_some']
        · simp only [h2, not_false_eq_true, if_true, Option.map_some']
    · simp only [h1, not_false_eq_true, if_true, Option.map_some']

/-- C22: `libvmdk_extent_file_read_element_data` makes its calls in the order create, read
file header, read grain directory, set element value, and stops at the first one that does
not return 1: the grain directory is read only after the file header was read with result
1, the element value is set only after the grain directory was read with result 1 as well;
the function returns 1 or -1, with -1 no element value is installed, and with 1 all four
calls were made and the extent file with the values of the header and the grain groups
list of the directory is installed.  The run is undefined only when reading the file
header is. -/
theorem read_element_data_steps_in_order (sw : SizeWidth) (file : File)
    (file_io_pool_entry : Int) (create_result set_element_value_result : Int) :
    (∀ result installed steps,
      libvmdk_extent_file_read_element_data_steps sw file file_io_pool_entry create_result
        set_element_value_result = some (result, installed, steps) →
      (result = 1 ∨ result = -1)
      ∧ steps <+: [ElementDataStep.create, .read_file_header, .read_grain_directory,
          .set_element_value]
      ∧ (ElementDataStep.read_file_header ∈ steps → create_result = 1)
      ∧ (ElementDataStep.read_grain_directory ∈ steps →
          ∃ values, libvmdk_extent_file_read_file_header sw libvmdk_extent_file_initialize
            file = some (1, values))
      ∧ (ElementDataStep.set_element_value ∈ steps →
          ∃ values list,
            libvmdk_extent_file_read_file_header sw libvmdk_extent_file_initialize file
              = some (1, values)
            ∧ libvmdk_extent_file_read_grain_directory sw values [] file file_io_pool_entry
                values.primary_grain_directory_offset = some (1, list)
            ∧ (result = 1 →
                installed = some { values := values, grain_groups_list := some list }))
      ∧ (result = -1 → installed = none)
      ∧ (result = 1 →
          steps = [ElementDataStep.create, .read_file_header, .read_grain_directory,
            .set_element_value]
          ∧ set_element_value_result = 1)
      ∧ (installed ≠ none → result = 1))
    ∧ (libvmdk_extent_file_read_element_data_steps sw file file_io_pool_entry create_result
          set_element_value_result = none ↔
        (create_result = 1
          ∧ libvmdk_extent_file_read_file_header sw libvmdk_extent_file_initialize file
              = none)) := by
  have hinit : ( extent_file_state_initialize).values = libvmdk_extent_file_initialize := rfl
  have hlist : ( extent_file_state_initialize).grain_groups_list.getD [] = [] := rfl
  unfold libvmdk_extent_file_read_element_data_steps
  simp only [hinit, hlist]
  by_cases hc : create_result = 1
  swap
  · simp only [ne_eq, hc, not_false_eq_true, if_true, Option.some.injEq, Prod.mk.injEq,
      reduceCtorEq, false_and, iff_false, not_false_eq_true, and_true]
    rintro result installed steps ⟨rfl, rfl, rfl⟩
    simp [List.prefix_iff_eq_take]
  simp only [ne_eq, hc, not_true_eq_false, if_false, true_and]
  cases hh : libvmdk_extent_file_read_file_header sw libvmdk_extent_file_initialize file with
  | none => simp
  | some p =>
    obtain ⟨hresult, values⟩ := p
    simp only []
    by_cases h1 : hresult = 1
    swap
    · simp only [h1, not_false_eq_true, if_true, Option.some.injEq, Prod.mk.injEq,
        reduceCtorEq, iff_false, not_false_eq_true, and_true]
      rintro result installed steps ⟨rfl, rfl, rfl⟩
      simp [List.prefix_iff_eq_take]
    subst h1
    simp only [not_true_eq_false, if_false]
    have hparse := ((read_file_header_eq_one_iff sw _ file values).mp hh).2.2
    obtain ⟨⟨dresult, list⟩, hd⟩ := read_grain_directory_returns sw _ _ values hparse []
      file file_io_pool_entry values.primary_grain_directory_offset
    rw [hd]
    simp only []
    by_cases h2 : dresult = 1
    swap
    · simp only [h2, not_false_eq_true, if_true, Option.some.injEq, Prod.mk.injEq,
        reduceCtorEq, iff_false, not_false_eq_true, and_true]
      rintro result installed steps ⟨rfl, rfl, rfl⟩
      simp [List.prefix_iff_eq_take]
    subst h2
    simp only [not_true_eq_false, if_false]
    by_cases h3 : set_element_value_result = 1
    swap
    · simp only [h3, not_false_eq_true, if_true, Option.some.injEq, Prod.mk.injEq,
        reduceCtorEq, iff_false, not_false_eq_true, and_true]
      rintro result installed steps ⟨rfl, rfl, rfl⟩
      simp [List.prefix_iff_eq_take]
      exact ⟨list, hd⟩
    simp only [h3, not_true_eq_false, if_false, Option.some.injEq, Prod.mk.injEq,
      reduceCtorEq, iff_false, not_false_eq_true, and_true]
    rintro result installed steps ⟨rfl, rfl, rfl⟩
    simp
    exact hd

/-- C22, witness: for the extent file of scenario S1 all four calls are made and the extent
file is installed; when setting the element value fails the same calls are made, the
function returns -1 and nothing is installed. -/
theorem read_element_data_steps_in_order_witness :
    libvmdk_extent_file_read_element_data_steps .w64 example_extent_file 0 1 1
      = some (1, some example_extent_file_state,
          [.create, .read_file_header, .read_grain_directory, .set_element_value])
    ∧ libvmdk_extent_file_read_element_data_steps .w64 example_extent_file 0 1 (-1)
      = some (-1, none,
          [.create, .read_file_header, .read_grain_directory, .set_element_value])
    ∧ ((-1 : Int) = -1 → (none : Option ExtentFileState) = none) :=
  ⟨by decide, by decide,
    ((read_element_data_steps_in_order .w64 example_extent_file 0 1 (-1)).1 (-1) none
      [.create, .read_file_header, .read_grain_directory, .set_element_value]
      (by decide)).2.2.2.2.2.1⟩

/-! ### The running total of the grain directory loop -/

/-- The list that the loop over the grain directory builds is the list of the elements of
its passes, appended to the list it started with. -/
theorem grain_directory_loop_eq_passes (extent_file : ExtentFile)
    (file_io_pool_entry : Int) (data : List Byte) :
    ∀ (remaining index total : Nat) (list : List GrainGroupElement),
      grain_directory_loop extent_file file_io_pool_entry data remaining index total list
        = (grain_directory_loop_passes extent_file file_io_pool_entry data remaining index
            total).map (fun passes => list ++ passes.map Prod.fst) := by
  intro remaining
  induction remaining with
  | zero =>
    intro index total list
    simp [grain_directory_loop, grain_directory_loop_passes]
  | succ k ih =>
    intro index total list
    rw [grain_directory_loop, grain_directory_loop_passes]
    split_ifs with hfit
    · cases grain_directory_entry_values extent_file file_io_pool_entry data index total with
      | none => rfl
      | some p =>
        obtain ⟨element, total2⟩ := p
        simp only []
        rw [ih (index + 1) total2 (list ++ [element])]
        cases grain_directory_loop_passes extent_file file_io_pool_entry data k (index + 1)
            total2 with
        | none => rfl
        | some passes => simp
    · rfl

/-- One pass of the loop over the grain directory, from a total that is at most the maximum
data size and with a grain group size `number_of_grain_table_entries * grain_size` that
does not overflow: either the total with a full grain group exceeds the maximum data size,
and the pass maps what remains in whole grains and leaves the maximum data size as total, or
it maps a full grain group. -/
theorem grain_directory_entry_values_cases (extent_file : ExtentFile)
    (file_io_pool_entry : Int) (data : List Byte) (index total : Nat)
    (hG : 0 < extent_file.grain_size)
    (hT : extent_file.number_of_grain_table_entries ≤ INT_MAX)
    (hP : extent_file.number_of_grain_table_entries * extent_file.grain_size < 2 ^ 64)
    (hM : extent_file.maximum_data_size < 2 ^ 64)
    (htotal : total ≤ extent_file.maximum_data_size) :
    ∃ element after,
      grain_directory_entry_values extent_file file_io_pool_entry data index total
        = some (element, after)
      ∧ ((extent_file.maximum_data_size
              < total + extent_file.number_of_grain_table_entries * extent_file.grain_size
            ∧ total + extent_file.number_of_grain_table_entries * extent_file.grain_size
              < 2 ^ 64
            ∧ element.mapped_size
              = extent_file.grain_size
                * ((extent_file.maximum_data_size - total) / extent_file.grain_size)
            ∧ after = extent_file.maximum_data_size)
        ∨ (element.mapped_size
              = extent_file.number_of_grain_table_entries * extent_file.grain_size
            ∧ after
              = (total + extent_file.number_of_grain_table_entries * extent_file.grain_size)
                % 2 ^ 64
            ∧ after ≤ extent_file.maximum_data_size)) := by
  unfold grain_directory_entry_values
  rw [int_as_uint64_eq _ hT]
  rw [two_pow_64] at hP hM ⊢
  generalize hPP : extent_file.number_of_grain_table_entries * extent_file.grain_size = P
    at hP ⊢
  generalize hMM : extent_file.maximum_data_size = M at hM htotal ⊢
  generalize hGG : extent_file.grain_size = G at hG hPP ⊢
  generalize hTT : extent_file.number_of_grain_table_entries = T at hT hPP ⊢
  unfold INT_MAX at hT
  have hPm : P % 18446744073709551616 = P := Nat.mod_eq_of_lt hP
  have hP2 : G * T = P := by rw [Nat.mul_comm]; exact hPP
  simp only [hPP, hP2, hPm, show ¬ G = 0 by omega, if_false]
  by_cases hc : (total + P) % 18446744073709551616 > M
  · simp only [hc, if_true]
    have hno : total + P < 18446744073709551616 := by
      by_contra hov
      have : (total + P) % 18446744073709551616 = total + P - 18446744073709551616 := by
        rw [Nat.mod_eq_sub_mod (by omega), Nat.mod_eq_of_lt (by omega)]
      omega
    rw [Nat.mod_eq_of_lt hno] at hc
    have hrem : (M + 18446744073709551616 - total) % 18446744073709551616 = M - total := by
      have : M + 18446744073709551616 - total = (M - total) + 18446744073709551616 := by
        omega
      rw [this, Nat.add_mod_right, Nat.mod_eq_of_lt (by omega)]
    rw [hrem]
    have hq : (M - total) / G < T := by
      apply Nat.div_lt_of_lt_mul
      rw [Nat.mul_comm, hPP]
      omega
    have hmul : G * ((M - total) / G) ≤ M - total := Nat.mul_div_le _ _
    rw [int_as_uint64_eq _ (by unfold INT_MAX; omega)]
    have e1 : G * ((M - total) / G) % 18446744073709551616 = G * ((M - total) / G) :=
      Nat.mod_eq_of_lt (by omega)
    have e2 : (total + (M - total)) % 18446744073709551616 = M := by
      rw [Nat.mod_eq_of_lt (by omega)]
      omega
    rw [e1, e2]
    exact ⟨_, _, rfl, Or.inl ⟨hc, hno, rfl, rfl⟩⟩
  · simp only [hc, if_false]
    exact ⟨_, _, rfl, Or.inr ⟨rfl, rfl, by omega⟩⟩

/-- The invariant of the loop over the grain directory: from a total that is at most the
maximum data size, every pass leaves a total that is at most the maximum data size and maps
a multiple of the grain size that is at most a full grain group; and when the maximum data
size plus a grain group does not overflow, or all passes but the last stay below the
maximum data size, a pass after the total has reached the maximum data size maps 0. -/
theorem grain_directory_loop_passes_invariant (extent_file : ExtentFile)
    (file_io_pool_entry : Int) (data : List Byte)
    (hG : 0 < extent_file.grain_size)
    (hT0 : 0 < extent_file.number_of_grain_table_entries)
    (hT : extent_file.number_of_grain_table_entries ≤ INT_MAX)
    (hP : extent_file.number_of_grain_table_entries * extent_file.grain_size < 2 ^ 64)
    (hM : extent_file.maximum_data_size < 2 ^ 64) :
    ∀ (remaining index total : Nat),
      total ≤ extent_file.maximum_data_size →
      4 * (index + remaining) ≤ data.length →
      (extent_file.maximum_data_size
            + extent_file.number_of_grain_table_entries * extent_file.grain_size < 2 ^ 64
        ∨ ∀ k, remaining = k + 1 →
            total + k * (extent_file.number_of_grain_table_entries * extent_file.grain_size)
              < extent_file.maximum_data_size) →
      ∃ passes,
        grain_directory_loop_passes extent_file file_io_pool_entry data remaining index total
          = some passes
        ∧ passes.length = remaining
        ∧ (∀ p, p ∈ passes →
            p.2 ≤ extent_file.maximum_data_size
            ∧ extent_file.grain_size ∣ p.1.mapped_size
            ∧ p.1.mapped_size
              ≤ extent_file.number_of_grain_table_entries * extent_file.grain_size)
        ∧ (total = extent_file.maximum_data_size → ∀ p, p ∈ passes → p.1.mapped_size = 0)
        ∧ (∀ (i j : Nat) (p q : GrainGroupElement × Nat), i < j →
            passes[i]? = some p → passes[j]? = some q →
            p.2 = extent_file.maximum_data_size → q.1.mapped_size = 0) := by
  have hPpos : 0 < extent_file.number_of_grain_table_entries * extent_file.grain_size :=
    Nat.mul_pos hT0 hG
  intro remaining
  induction remaining with
  | zero =>
    intro index total _ _ _
    refine ⟨[], rfl, rfl, ?_, ?_, ?_⟩
    · intro p hp; cases hp
    · intro _ p hp; cases hp
    · intro i j p q _ hi; simp at hi
  | succ k ih =>
    intro index total htotal hfit hH
    obtain ⟨element, after, hvalues, hcase⟩ := grain_directory_entry_values_cases extent_file
      file_io_pool_entry data index total hG hT hP hM htotal
    have hafter : after ≤ extent_file.maximum_data_size := by
      rcases hcase with ⟨_, _, _, h⟩ | ⟨_, _, h⟩
      · rw [h]
      · exact h
    have hH2 : extent_file.maximum_data_size
            + extent_file.number_of_grain_table_entries * extent_file.grain_size < 2 ^ 64
        ∨ ∀ k2, k = k2 + 1 →
            after + k2 * (extent_file.number_of_grain_table_entries * extent_file.grain_size)
              < extent_file.maximum_data_size := by
      rcases hH with h | h
      · exact Or.inl h
      · right
        intro k2 hk2
        have hk := h k rfl
        rw [hk2, Nat.succ_mul] at hk
        rw [two_pow_64] at hM
        rcases hcase with ⟨hlt, _, _, _⟩ | ⟨_, ha, _⟩
        · omega
        · rw [ha, two_pow_64, Nat.mod_eq_of_lt (by omega)]
          omega
    obtain ⟨passes, hloop, hlen, hall, hzero, hpair⟩ := ih (index + 1) after hafter
      (by omega) hH2
    have hhead : extent_file.grain_size ∣ element.mapped_size
        ∧ element.mapped_size
          ≤ extent_file.number_of_grain_table_entries * extent_file.grain_size := by
      rcases hcase with ⟨hlt, _, hm, _⟩ | ⟨hm, _, _⟩
      · rw [hm]
        refine ⟨Dvd.intro _ rfl, ?_⟩
        have := Nat.mul_div_le (extent_file.maximum_data_size - total) extent_file.grain_size
        omega
      · rw [hm]
        exact ⟨Dvd.intro_left _ rfl, le_refl _⟩
    have hreached : total = extent_file.maximum_data_size →
        element.mapped_size = 0 ∧ after = extent_file.maximum_data_size := by
      intro heq
      rcases hH with h | h
      · rcases hcase with ⟨_, _, hm, ha⟩ | ⟨_, ha, hle⟩
        · rw [hm, heq, Nat.sub_self, Nat.zero_div, Nat.mul_zero]
          exact ⟨rfl, ha⟩
        · exfalso
          rw [ha, heq, Nat.mod_eq_of_lt h] at hle
          omega
      · exfalso
        have hk := h k rfl
        have : 0 ≤ k * (extent_file.number_of_grain_table_entries * extent_file.grain_size) :=
          Nat.zero_le _
        omega
    refine ⟨(element, after) :: passes, ?_, by simp [hlen], ?_, ?_, ?_⟩
    · rw [grain_directory_loop_passes, if_pos (by omega), hvalues]
      simp only [hloop]
    · intro p hp
      rcases List.mem_cons.mp hp with rfl | hp
      · exact ⟨hafter, hhead⟩
      · exact hall p hp
    · intro heq p hp
      obtain ⟨hm, ha⟩ := hreached heq
      rcases List.mem_cons.mp hp with rfl | hp
      · exact hm
      · exact hzero ha p hp
    · intro i j p q hij hi hj hp
      cases j with
      | zero => omega
      | succ j2 =>
        rw [List.getElem?_cons_succ] at hj
        cases i with
        | zero =>
          rw [List.getElem?_cons_zero] at hi
          cases hi
          exact hzero hp q (List.getElem?_mem hj)
        | succ i2 =>
          rw [List.getElem?_cons_succ] at hi
          exact hpair i2 j2 p q (by omega) hi hj hp

/-- All passes but the last of a VMDK sparse file stay below the maximum data size: with one
pass less than the number of grain directory entries, whole grain groups do not reach it. -/
theorem vmdk_number_of_grain_directory_entries_slack (maximum_data_size
    number_of_grain_table_entries grain_size : Nat)
    (hpos : 0 < number_of_grain_table_entries * grain_size)
    (hP : number_of_grain_table_entries * grain_size < 2 ^ 64) (k : Nat)
    (h : vmdk_number_of_grain_directory_entries maximum_data_size
      number_of_grain_table_entries grain_size = k + 1) :
    k * (number_of_grain_table_entries * grain_size) < maximum_data_size := by
  unfold vmdk_number_of_grain_directory_entries at h
  simp only [Nat.mod_eq_of_lt hP] at h
  generalize number_of_grain_table_entries * grain_size = P at hpos hP h ⊢
  have hdm := Nat.div_add_mod maximum_data_size P
  have hr := Nat.mod_lt maximum_data_size hpos
  have hq1 : maximum_data_size / P % 2 ^ 32 ≤ maximum_data_size / P := Nat.mod_le _ _
  rw [Nat.mul_comm] at hdm
  split_ifs at h with hz
  · have hq2 : (maximum_data_size / P % 2 ^ 32 + 1) % 2 ^ 32
        ≤ maximum_data_size / P % 2 ^ 32 + 1 := Nat.mod_le _ _
    have hk : k ≤ maximum_data_size / P := by omega
    have := Nat.mul_le_mul_right P hk
    omega
  · have hk : k + 1 ≤ maximum_data_size / P := by omega
    have := Nat.mul_le_mul_right P hk
    rw [Nat.succ_mul] at this
    omega

/-- C29: for an extent file that the header parser has filled in and whose
`number_of_grain_table_entries * grain_size` does not overflow 64 bits, when the seek and
the read succeed (the read count is `(ssize_t) grain_directory_size`, the test of line
1332), the passes of the entry loop of `libvmdk_extent_file_read_grain_directory`, one per
grain directory entry, are made and the function returns 1 with their elements appended:
after every pass `total_grain_data_size` is at most the maximum data size; every mapped size
registered is a multiple of the grain size and at most
`number_of_grain_table_entries * grain_size`; and every entry after a pass that has left
the total at the maximum data size is registered with the mapped size 0. -/
theorem grain_directory_loop_total_invariant (sw : SizeWidth) (initial : ExtentFile)
    (file_header_data : List Byte) (extent_file : ExtentFile)
    (hparse : libvmdk_extent_file_read_file_header_data sw initial file_header_data
      = .success extent_file)
    (hprod : extent_file.number_of_grain_table_entries * extent_file.grain_size < 2 ^ 64)
    (list : List GrainGroupElement) (file : File) (file_io_pool_entry : Int)
    (file_offset : Nat) (hseek : file.seekable file_offset = true)
    (hread :
      ((file.read_buffer file_offset extent_file.grain_directory_size).length : Int)
        = size_as_ssize sw extent_file.grain_directory_size) :
    ∃ passes,
      grain_directory_loop_passes extent_file file_io_pool_entry
          (file.read_buffer file_offset extent_file.grain_directory_size)
          extent_file.number_of_grain_directory_entries 0 0 = some passes
      ∧ libvmdk_extent_file_read_grain_directory sw extent_file list file
          file_io_pool_entry file_offset = some (1, list ++ passes.map Prod.fst)
      ∧ passes.length = extent_file.number_of_grain_directory_entries
      ∧ (∀ p, p ∈ passes →
          p.2 ≤ extent_file.maximum_data_size
          ∧ extent_file.grain_size ∣ p.1.mapped_size
          ∧ p.1.mapped_size
            ≤ extent_file.number_of_grain_table_entries * extent_file.grain_size)
      ∧ (∀ (i j : Nat) (p q : GrainGroupElement × Nat), i < j →
          passes[i]? = some p → passes[j]? = some q →
          p.2 = extent_file.maximum_data_size → q.1.mapped_size = 0) := by
  obtain ⟨hG, _, hM, hT0, hT, _⟩ := success_bounds sw initial file_header_data extent_file
    hparse
  have hfit := success_directory_entries_fit sw initial file_header_data extent_file hparse
  have hsize :=
    (success_grain_directory_size_bounds sw initial file_header_data extent_file hparse).1
  have hlen2 := ((eq_size_as_ssize_iff sw _ _ hsize).mp hread).1
  have hH : extent_file.maximum_data_size
        + extent_file.number_of_grain_table_entries * extent_file.grain_size < 2 ^ 64
      ∨ ∀ k, extent_file.number_of_grain_directory_entries = k + 1 →
          0 + k * (extent_file.number_of_grain_table_entries * extent_file.grain_size)
            < extent_file.maximum_data_size := by
    rcases success_signature sw initial file_header_data extent_file hparse with hsig | hsig
    · left
      obtain ⟨h1, _, _⟩ := success_cowd sw initial file_header_data hsig extent_file hparse
      obtain ⟨hv, hd, _⟩ := cowd_success_all sw initial file_header_data extent_file h1
      have h0C := uint32_lt file_header_data 0x0C
      have h10 := uint32_lt file_header_data 0x10
      rw [hd.2.1, hv.2.2.1, hv.2.2.2.1, two_pow_64]
      omega
    · right
      intro k hk
      obtain ⟨h1, _, _⟩ := success_vmdk sw initial file_header_data hsig extent_file hparse
      obtain ⟨_, hd, _⟩ := vmdk_success_all sw initial file_header_data extent_file h1
      rw [hd.2.1] at hk
      rw [Nat.zero_add]
      exact vmdk_number_of_grain_directory_entries_slack _ _ _ (Nat.mul_pos hT0 hG) hprod k hk
  obtain ⟨passes, hloop, hlen, hall, _, hpair⟩ :=
    grain_directory_loop_passes_invariant extent_file file_io_pool_entry
      (file.read_buffer file_offset extent_file.grain_directory_size) hG hT0 hT hprod hM
      extent_file.number_of_grain_directory_entries 0 0 (Nat.zero_le _)
      (by rw [hlen2]; omega) hH
  refine ⟨passes, hloop, ?_, hlen, hall, hpair⟩
  unfold libvmdk_extent_file_read_grain_directory
  simp only [hseek, hread, ne_eq, not_true_eq_false, if_false, Bool.true_eq_false,
    grain_directory_loop_eq_passes, hloop, Option.map_some']

/-- C29, witness: the accepted COWD example header with 2 grain directory entries; the
first pass maps the whole maximum data size of 4194304 bytes, which is less than a grain
group, and the second pass maps 0. -/
theorem grain_directory_loop_total_invariant_witness :
    libvmdk_extent_file_read_file_header_data .w64 libvmdk_extent_file_initialize
        example_DWOC_header_two_entries = .success example_DWOC_values_two_entries
    ∧ ∃ passes,
        grain_directory_loop_passes example_DWOC_values_two_entries 0
            ((example_file (example_DWOC_header_two_entries
              ++ example_grain_directory)).read_buffer 512 512) 2 0 0 = some passes
        ∧ passes.map (fun p => (p.1.mapped_size, p.2)) = [(4194304, 4194304), (0, 4194304)]
        ∧ ∀ p, p ∈ passes →
            p.2 ≤ 4194304 ∧ 8192 ∣ p.1.mapped_size ∧ p.1.mapped_size ≤ 4096 * 8192 := by
  obtain ⟨passes, h1, _, _, h4, _⟩ :=
    grain_directory_loop_total_invariant .w64 libvmdk_extent_file_initialize
      example_DWOC_header_two_entries example_DWOC_values_two_entries (by decide)
      (by decide) []
      (example_file (example_DWOC_header_two_entries ++ example_grain_directory)) 0 512 rfl
      (by decide)
  refine ⟨by decide, passes, h1, ?_, h4⟩
  have h2 : grain_directory_loop_passes example_DWOC_values_two_entries 0
      ((example_file (example_DWOC_header_two_entries
        ++ example_grain_directory)).read_buffer 512 512) 2 0 0
      = some [(({ file_io_pool_entry := 0, offset := 1024, size := 16384, range_flags := 0,
                  mapped_size := 4194304 } : GrainGroupElement), 4194304),
              ({ file_io_pool_entry := 0, offset := 0, size := 16384, range_flags := 1,
                 mapped_size := 0 }, 4194304)] := by
    decide
  have h3 := h1.symm.trans h2
  cases h3
  rfl

/-! ### The memory accesses of the empty-block check -/

theorem align_data_start_accesses_fst (sw : SizeWidth) (W addr : Nat) (data : List Byte) :
    ∀ (fuel s i sz : Nat),
      (align_data_start_accesses sw W addr data fuel s i sz).1
        = align_data_start sw W addr data fuel s i sz := by
  intro fuel
  induction fuel with
  | zero =>
    intro s i sz
    rw [align_data_start_accesses, align_data_start]
    split_ifs <;> rfl
  | succ f ih =>
    intro s i sz
    rw [align_data_start_accesses, align_data_start]
    split_ifs with h
    · cases hs : data[s]? with
      | none => rfl
      | some x =>
        cases hi : data[i]? with
        | none => rfl
        | some y =>
          simp only []
          split_ifs
          · rfl
          · exact ih _ _ _
    · rfl

theorem align_data_index_accesses_fst (sw : SizeWidth) (W addr : Nat) (data : List Byte) :
    ∀ (fuel s i sz : Nat),
      (align_data_index_accesses sw W addr data fuel s i sz).1
        = align_data_index sw W addr data fuel s i sz := by
  intro fuel
  induction fuel with
  | zero =>
    intro s i sz
    rw [align_data_index_accesses, align_data_index]
    split_ifs <;> rfl
  | succ f ih =>
    intro s i sz
    rw [align_data_index_accesses, align_data_index]
    split_ifs with h
    · cases hs : data[s]? with
      | none => rfl
      | some x =>
        cases hi : data[i]? with
        | none => rfl
        | some y =>
          simp only []
          split_ifs
          · rfl
          · exact ih _ _ _
    · rfl

theorem aligned_loop_accesses_fst (sw : SizeWidth) (W : Nat) (data : List Byte) :
    ∀ (fuel s i sz : Nat),
      (aligned_loop_accesses sw W data fuel s i sz).1 = aligned_loop sw W data fuel s i sz := by
  intro fuel
  induction fuel with
  | zero =>
    intro s i sz
    rw [aligned_loop_accesses, aligned_loop]
    split_ifs <;> rfl
  | succ f ih =>
    intro s i sz
    rw [aligned_loop_accesses, aligned_loop]
    split_ifs with h
    · cases hs : read_word data W s with
      | none => rfl
      | some x =>
        cases hi : read_word data W i with
        | none => rfl
        | some y =>
          simp only []
          split_ifs
          · rfl
          · exact ih _ _ _
    · rfl

theorem byte_loop_accesses_fst (sw : SizeWidth) (data : List Byte) :
    ∀ (fuel s i sz : Nat),
      (byte_loop_accesses sw data fuel s i sz).1 = byte_loop sw data fuel s i sz := by
  intro fuel
  induction fuel with
  | zero =>
    intro s i sz
    rw [byte_loop_accesses, byte_loop]
    split_ifs <;> rfl
  | succ f ih =>
    intro s i sz
    rw [byte_loop_accesses, byte_loop]
    split_ifs with h
    · cases hs : data[s]? with
      | none => rfl
      | some x =>
        cases hi : data[i]? with
        | none => rfl
        | some y =>
          simp only []
          split_ifs
          · rfl
          · exact ih _ _ _
    · rfl

/-- The function with its accesses recorded returns what
`libvmdk_extent_file_check_for_empty_block` returns. -/
theorem check_for_empty_block_accesses_fst (sw : SizeWidth) (W addr : Nat)
    (data : List Byte) :
    (libvmdk_extent_file_check_for_empty_block_accesses sw W addr data).1
      = libvmdk_extent_file_check_for_empty_block sw W addr data := by
  unfold libvmdk_extent_file_check_for_empty_block_accesses
    libvmdk_extent_file_check_for_empty_block
  simp only []
  split_ifs with h1 h2
  · rfl
  · rw [← align_data_start_accesses_fst]
    rcases align_data_start_accesses sw W addr data data.length 0 1
      (size_sub sw data.length 1) with ⟨r1, a1⟩
    cases r1 with
    | none => rfl
    | some step1 =>
      cases step1 with
      | ret code => rfl
      | next s1 i1 sz1 =>
        simp only []
        rw [← align_data_index_accesses_fst]
        rcases align_data_index_accesses sw W addr data data.length s1 i1 sz1 with ⟨r2, a2⟩
        cases r2 with
        | none => rfl
        | some step2 =>
          cases step2 with
          | ret code => rfl
          | next s2 i2 sz2 =>
            simp only []
            rw [← aligned_loop_accesses_fst]
            rcases aligned_loop_accesses sw W data data.length s2 i2 sz2 with ⟨r3, a3⟩
            cases r3 with
            | none => rfl
            | some step3 =>
              cases step3 with
              | ret code => rfl
              | next s3 i3 sz3 =>
                simp only []
                exact byte_loop_accesses_fst sw data _ _ _ _
  · exact byte_loop_accesses_fst sw data _ _ _ _

theorem align_data_start_accesses_valid (sw : SizeWidth) (W addr : Nat) (data : List Byte)
    (hW : 0 < W) (hn : data.length < 2 ^ sw.bits) :
    ∀ (fuel s sz : Nat), s + 1 + sz = data.length →
      align_distance W (addr + s) < sz → align_distance W (addr + s) ≤ fuel →
      (∀ a, a ∈ (align_data_start_accesses sw W addr data fuel s (s + 1) sz).2 →
        a.valid data.length W)
      ∧ ((align_data_start_accesses sw W addr data fuel s (s + 1) sz).1 = some (.ret 0)
        ∨ ∃ s', (align_data_start_accesses sw W addr data fuel s (s + 1) sz).1
              = some (.next s' (s' + 1) (data.length - (s' + 1)))
            ∧ (addr + s') % W = 0 ∧ s' ≤ s + align_distance W (addr + s)) := by
  intro fuel
  induction fuel with
  | zero =>
    intro s sz hsz hd hf
    have hal : (addr + s) % W = 0 := by
      by_contra hne
      have := align_distance_succ W (addr + s) hW hne
      omega
    rw [align_data_start_accesses]
    simp only [hal, ne_eq, not_true_eq_false, if_false]
    refine ⟨(fun a ha => by cases ha), Or.inr ⟨s, ?_, hal, by omega⟩⟩
    congr 2
    omega
  | succ f ih =>
    intro s sz hsz hd hf
    by_cases hal : (addr + s) % W = 0
    · rw [align_data_start_accesses]
      simp only [hal, ne_eq, not_true_eq_false, if_false]
      refine ⟨(fun a ha => by cases ha), Or.inr ⟨s, ?_, hal, by omega⟩⟩
      congr 2
      omega
    · have hds := align_distance_succ W (addr + s) hW hal
      obtain ⟨x, hx⟩ : ∃ x, data[s]? = some x :=
        ⟨_, List.getElem?_eq_getElem (by omega : s < data.length)⟩
      obtain ⟨y, hy⟩ : ∃ y, data[s + 1]? = some y :=
        ⟨_, List.getElem?_eq_getElem (by omega : s + 1 < data.length)⟩
      rw [align_data_start_accesses]
      simp only [hal, ne_eq, not_false_eq_true, if_true, hx, hy]
      by_cases hxy : x = y
      · simp only [hxy, not_true_eq_false, if_false]
        rw [size_sub_eq sw sz 1 (by omega) (by omega)]
        obtain ⟨hv, hr⟩ := ih (s + 1) (sz - 1) (by omega)
          (by rw [← Nat.add_assoc]; omega) (by rw [← Nat.add_assoc]; omega)
        refine ⟨?_, ?_⟩
        · intro a ha
          simp only [List.cons_append, List.nil_append, List.mem_cons] at ha
          rcases ha with rfl | rfl | rfl | ha
          · show s < data.length
            omega
          · show s + 1 < data.length
            omega
          · show 1 ≤ sz
            omega
          · exact hv a ha
        · rcases hr with h | ⟨s', h1, h2, h3⟩
          · exact Or.inl h
          · refine Or.inr ⟨s', h1, h2, ?_⟩
            rw [← Nat.add_assoc] at h3
            omega
      · simp only [hxy, not_false_eq_true, if_true, true_or, and_true]
        intro a ha
        simp only [List.mem_cons, List.mem_singleton, List.not_mem_nil, or_false] at ha
        rcases ha with rfl | rfl
        · show s < data.length
          omega
        · show s + 1 < data.length
          omega

theorem align_data_index_accesses_valid (sw : SizeWidth) (W addr : Nat) (data : List Byte)
    (hW : 0 < W) (hn : data.length < 2 ^ sw.bits) (s : Nat) :
    ∀ (fuel i sz : Nat), s < i → i + sz = data.length →
      align_distance W (addr + i) < sz → align_distance W (addr + i) ≤ fuel →
      (∀ a, a ∈ (align_data_index_accesses sw W addr data fuel s i sz).2 →
        a.valid data.length W)
      ∧ ((align_data_index_accesses sw W addr data fuel s i sz).1 = some (.ret 0)
        ∨ ∃ i', (align_data_index_accesses sw W addr data fuel s i sz).1
              = some (.next s i' (data.length - i'))
            ∧ (addr + i') % W = 0 ∧ i ≤ i' ∧ i' ≤ i + align_distance W (addr + i)) := by
  intro fuel
  induction fuel with
  | zero =>
    intro i sz hsi hsz hd hf
    have hal : (addr + i) % W = 0 := by
      by_contra hne
      have := align_distance_succ W (addr + i) hW hne
      omega
    rw [align_data_index_accesses]
    simp only [hal, ne_eq, not_true_eq_false, if_false]
    refine ⟨(fun a ha => by cases ha), Or.inr ⟨i, ?_, hal, le_refl _, by omega⟩⟩
    congr 2
    omega
  | succ f ih =>
    intro i sz hsi hsz hd hf
    by_cases hal : (addr + i) % W = 0
    · rw [align_data_index_accesses]
      simp only [hal, ne_eq, not_true_eq_false, if_false]
      refine ⟨(fun a ha => by cases ha), Or.inr ⟨i, ?_, hal, le_refl _, by omega⟩⟩
      congr 2
      omega
    · have hds := align_distance_succ W (addr + i) hW hal
      obtain ⟨x, hx⟩ : ∃ x, data[s]? = some x :=
        ⟨_, List.getElem?_eq_getElem (by omega : s < data.length)⟩
      obtain ⟨y, hy⟩ : ∃ y, data[i]? = some y :=
        ⟨_, List.getElem?_eq_getElem (by omega : i < data.length)⟩
      rw [align_data_index_accesses]
      simp only [hal, ne_eq, not_false_eq_true, if_true, hx, hy]
      by_cases hxy : x = y
      · simp only [hxy, not_true_eq_false, if_false]
        rw [size_sub_eq sw sz 1 (by omega) (by omega)]
        obtain ⟨hv, hr⟩ := ih (i + 1) (sz - 1) (by omega) (by omega)
          (by rw [← Nat.add_assoc]; omega) (by rw [← Nat.add_assoc]; omega)
        refine ⟨?_, ?_⟩
        · intro a ha
          simp only [List.cons_append, List.nil_append, List.mem_cons] at ha
          rcases ha with rfl | rfl | rfl | ha
          · show s < data.length
            omega
          · show i < data.length
            omega
          · show 1 ≤ sz
            omega
          · exact hv a ha
        · rcases hr with h | ⟨i', h1, h2, h3, h4⟩
          · exact Or.inl h
          · refine Or.inr ⟨i', h1, h2, by omega, ?_⟩
            rw [← Nat.add_assoc] at h4
            omega
      · simp only [hxy, not_false_eq_true, if_true, true_or, and_true]
        intro a ha
        simp only [List.mem_cons, List.mem_singleton, List.not_mem_nil, or_false] at ha
        rcases ha with rfl | rfl
        · show s < data.length
          omega
        · show i < data.length
          omega

theorem aligned_loop_accesses_valid (sw : SizeWidth) (W : Nat) (data : List Byte)
    (hW : 0 < W) (hn : data.length < 2 ^ sw.bits) (s : Nat) :
    ∀ (fuel i sz : Nat), s + W ≤ i → i + sz = data.length → sz ≤ fuel →
      (∀ a, a ∈ (aligned_loop_accesses sw W data fuel s i sz).2 → a.valid data.length W)
      ∧ ((aligned_loop_accesses sw W data fuel s i sz).1 = some (.ret 0)
        ∨ ∃ i', (aligned_loop_accesses sw W data fuel s i sz).1
              = some (.next s i' (data.length - i'))
            ∧ s < i' ∧ i' ≤ data.length) := by
  intro fuel
  induction fuel with
  | zero =>
    intro i sz hsi hsz hf
    rw [aligned_loop_accesses]
    simp only [show ¬ sz > W by omega, if_false]
    refine ⟨(fun a ha => by cases ha), Or.inr ⟨i, ?_, by omega, by omega⟩⟩
    congr 2
    omega
  | succ f ih =>
    intro i sz hsi hsz hf
    by_cases hgt : sz > W
    · rw [aligned_loop_accesses]
      simp only [hgt, if_true, read_word, show s + W ≤ data.length by omega,
        show i + W ≤ data.length by omega]
      by_cases hxy : (data.drop s).take W = (data.drop i).take W
      · simp only [hxy, ne_eq, not_true_eq_false, if_false]
        rw [size_sub_eq sw sz W (by omega) (by omega)]
        obtain ⟨hv, hr⟩ := ih (i + W) (sz - W) (by omega) (by omega) (by omega)
        refine ⟨?_, ?_⟩
        · intro a ha
          simp only [List.cons_append, List.nil_append, List.mem_cons] at ha
          rcases ha with rfl | rfl | rfl | ha
          · show s + W ≤ data.length
            omega
          · show i + W ≤ data.length
            omega
          · show W ≤ sz
            omega
          · exact hv a ha
        · rcases hr with h | ⟨i', h1, h2, h3⟩
          · exact Or.inl h
          · exact Or.inr ⟨i', h1, h2, h3⟩
      · simp only [hxy, ne_eq, not_false_eq_true, if_true, true_or, and_true]
        intro a ha
        simp only [List.mem_cons, List.mem_singleton, List.not_mem_nil, or_false] at ha
        rcases ha with rfl | rfl
        · show s + W ≤ data.length
          omega
        · show i + W ≤ data.length
          omega
    · rw [aligned_loop_accesses]
      simp only [hgt, if_false]
      refine ⟨(fun a ha => by cases ha), Or.inr ⟨i, ?_, by omega, by omega⟩⟩
      congr 2
      omega

theorem byte_loop_accesses_valid (sw : SizeWidth) (W : Nat) (data : List Byte)
    (hn : data.length < 2 ^ sw.bits) (s : Nat) :
    ∀ (fuel i sz : Nat), s < i → i + sz = data.length → sz ≤ fuel →
      (∀ a, a ∈ (byte_loop_accesses sw data fuel s i sz).2 → a.valid data.length W)
      ∧ ((byte_loop_accesses sw data fuel s i sz).1 = some 0
        ∨ (byte_loop_accesses sw data fuel s i sz).1 = some 1) := by
  intro fuel
  induction fuel with
  | zero =>
    intro i sz hsi hsz hf
    rw [byte_loop_accesses]
    simp only [show sz = 0 by omega, ne_eq, not_true_eq_false, if_false]
    exact ⟨(fun a ha => by cases ha), Or.inr trivial⟩
  | succ f ih =>
    intro i sz hsi hsz hf
    by_cases h0 : sz = 0
    · rw [byte_loop_accesses]
      simp only [h0, ne_eq, not_true_eq_false, if_false]
      exact ⟨(fun a ha => by cases ha), Or.inr trivial⟩
    · obtain ⟨x, hx⟩ : ∃ x, data[s]? = some x :=
        ⟨_, List.getElem?_eq_getElem (by omega : s < data.length)⟩
      obtain ⟨y, hy⟩ : ∃ y, data[i]? = some y :=
        ⟨_, List.getElem?_eq_getElem (by omega : i < data.length)⟩
      rw [byte_loop_accesses]
      simp only [h0, ne_eq, not_false_eq_true, if_true, hx, hy]
      by_cases hxy : x = y
      · simp only [hxy, not_true_eq_false, if_false]
        rw [size_sub_eq sw sz 1 (by omega) (by omega)]
        obtain ⟨hv, hr⟩ := ih (i + 1) (sz - 1) (by omega) (by omega) (by omega)
        refine ⟨?_, hr⟩
        intro a ha
        simp only [List.cons_append, List.nil_append, List.mem_cons] at ha
        rcases ha with rfl | rfl | rfl | ha
        · show s < data.length
          omega
        · show i < data.length
          omega
        · show 1 ≤ sz
          omega
        · exact hv a ha
      · simp only [hxy, not_false_eq_true, if_true, true_or, and_true]
        intro a ha
        simp only [List.mem_cons, List.mem_singleton, List.not_mem_nil, or_false] at ha
        rcases ha with rfl | rfl
        · show s < data.length
          omega
        · show i < data.length
          omega

/-- On a buffer of at least one byte every access of the empty-block check is valid and the
check returns. -/
theorem check_for_empty_block_accesses_valid (sw : SizeWidth) (W addr : Nat)
    (data : List Byte) (hW : 0 < W) (hpos : 1 ≤ data.length) :
    (∀ a, a ∈ (libvmdk_extent_file_check_for_empty_block_accesses sw W addr data).2 →
      a.valid data.length W)
    ∧ ∃ code, (libvmdk_extent_file_check_for_empty_block_accesses sw W addr data).1
        = some code := by
  unfold libvmdk_extent_file_check_for_empty_block_accesses
  simp only []
  by_cases hmax : data.length > SSIZE_MAX sw
  · simp only [hmax, if_true]
    exact ⟨(fun a ha => by cases ha), _, rfl⟩
  have hn : data.length < 2 ^ sw.bits :=
    Nat.lt_of_le_of_lt (by omega) (ssize_max_lt sw)
  have hfirst : ∀ a, a ∈ [Access.decrease data.length 1] → a.valid data.length W := by
    intro a ha
    simp only [List.mem_singleton] at ha
    subst ha
    exact hpos
  simp only [hmax, if_false]
  rw [size_sub_eq sw data.length 1 hpos hn]
  by_cases hbig : data.length - 1 > 2 * W
  · simp only [hbig, if_true]
    have hdl := align_distance_lt W (addr + 0) hW
    obtain ⟨hv1, hr1⟩ := align_data_start_accesses_valid sw W addr data hW hn data.length 0
      (data.length - 1) (by omega) (by omega) (by omega)
    simp only [Nat.zero_add] at hv1 hr1
    generalize align_data_start_accesses sw W addr data data.length 0 1 (data.length - 1)
      = A1 at hv1 hr1 ⊢
    obtain ⟨r1, a1⟩ := A1
    simp only at hv1 hr1
    rcases hr1 with rfl | ⟨s1, rfl, hal1, hs1⟩
    · refine ⟨?_, _, rfl⟩
      intro a ha
      rcases List.mem_append.mp ha with h | h
      · exact hfirst a h
      · exact hv1 a h
    · simp only []
      have hdl2 := align_distance_lt W (addr + (s1 + 1)) hW
      obtain ⟨hv2, hr2⟩ := align_data_index_accesses_valid sw W addr data hW hn s1
        data.length (s1 + 1) (data.length - (s1 + 1)) (by omega) (by omega) (by omega)
        (by omega)
      generalize align_data_index_accesses sw W addr data data.length s1 (s1 + 1)
        (data.length - (s1 + 1)) = A2 at hv2 hr2 ⊢
      obtain ⟨r2, a2⟩ := A2
      simp only at hv2 hr2
      rcases hr2 with rfl | ⟨i2, rfl, hal2, hi2, hi2b⟩
      · refine ⟨?_, _, rfl⟩
        intro a ha
        simp only [List.mem_append] at ha
        rcases ha with (h | h) | h
        · exact hfirst a h
        · exact hv1 a h
        · exact hv2 a h
      · simp only []
        have hgap := aligned_gap W (addr + s1) (addr + i2) hal1 hal2 (by omega)
        obtain ⟨hv3, hr3⟩ := aligned_loop_accesses_valid sw W data hW hn s1 data.length i2
          (data.length - i2) (by omega) (by omega) (by omega)
        generalize aligned_loop_accesses sw W data data.length s1 i2 (data.length - i2)
          = A3 at hv3 hr3 ⊢
        obtain ⟨r3, a3⟩ := A3
        simp only at hv3 hr3
        rcases hr3 with rfl | ⟨i3, rfl, hsi3, hi3⟩
        · refine ⟨?_, _, rfl⟩
          intro a ha
          simp only [List.mem_append] at ha
          rcases ha with ((h | h) | h) | h
          · exact hfirst a h
          · exact hv1 a h
          · exact hv2 a h
          · exact hv3 a h
        · simp only []
          obtain ⟨hv4, hr4⟩ := byte_loop_accesses_valid sw W data hn s1 data.length i3
            (data.length - i3) hsi3 (by omega) (by omega)
          refine ⟨?_, ?_⟩
          · intro a ha
            simp only [List.mem_append] at ha
            rcases ha with (((h | h) | h) | h) | h
            · exact hfirst a h
            · exact hv1 a h
            · exact hv2 a h
            · exact hv3 a h
            · exact hv4 a h
          · rcases hr4 with h | h
            · exact ⟨_, h⟩
            · exact ⟨_, h⟩
  · simp only [hbig, if_false]
    obtain ⟨hv4, hr4⟩ := byte_loop_accesses_valid sw W data hn 0 data.length 1
      (data.length - 1) (by omega) (by omega) (by omega)
    refine ⟨?_, ?_⟩
    · intro a ha
      rcases List.mem_append.mp ha with h | h
      · exact hfirst a h
      · exact hv4 a h
    · rcases hr4 with h | h
      · exact ⟨_, h⟩
      · exact ⟨_, h⟩

theorem check_for_empty_block_accesses_one_byte (sw : SizeWidth) (W addr : Nat) (b : Byte) :
    libvmdk_extent_file_check_for_empty_block_accesses sw W addr [b]
      = (some 1, [.decrease 1 1]) := by
  have hmax : ¬ 1 > SSIZE_MAX sw := by cases sw <;> simp [SSIZE_MAX, SizeWidth.bits]
  have hsub : size_sub sw 1 1 = 0 := by cases sw <;> simp [size_sub, SizeWidth.bits]
  unfold libvmdk_extent_file_check_for_empty_block_accesses
  simp only [List.length_singleton, hmax, if_false, hsub,
    show ¬ 0 > 2 * W by omega]
  rw [byte_loop_accesses]
  simp

/-- C24: on a buffer of `n ≥ 1` bytes that starts at any address, with any size of
`libvmdk_aligned_t`, every byte and every word that
`libvmdk_extent_file_check_for_empty_block` reads lies inside the buffer, no subtraction
from its remaining-size counter underflows, and the check returns; on a buffer of one byte
it returns 1 and the only access is the subtraction of 1 from the size, no byte is read. -/
theorem check_for_empty_block_reads_inside (sw : SizeWidth) (W addr : Nat)
    (data : List Byte) (hW : 0 < W) (hpos : 1 ≤ data.length) :
    (∀ a, a ∈ (libvmdk_extent_file_check_for_empty_block_accesses sw W addr data).2 →
      a.valid data.length W)
    ∧ (∃ code, libvmdk_extent_file_check_for_empty_block sw W addr data = some code
        ∧ (libvmdk_extent_file_check_for_empty_block_accesses sw W addr data).1 = some code)
    ∧ (data.length = 1 →
        libvmdk_extent_file_check_for_empty_block_accesses sw W addr data
          = (some 1, [.decrease 1 1])) := by
  obtain ⟨hv, code, hcode⟩ := check_for_empty_block_accesses_valid sw W addr data hW hpos
  refine ⟨hv, ⟨code, ?_, hcode⟩, ?_⟩
  · rw [← check_for_empty_block_accesses_fst, hcode]
  · intro hone
    obtain ⟨b, rfl⟩ := List.length_eq_one.mp hone
    exact check_for_empty_block_accesses_one_byte sw W addr b

/-- C24, witness: a buffer of 20 bytes at address 3 with words of 4 bytes: the check returns
1, its first accesses are the subtraction of 1 from 20 and the reads of the bytes 0 and 1,
and all of its accesses are inside the buffer. -/
theorem check_for_empty_block_reads_inside_witness :
    (libvmdk_extent_file_check_for_empty_block_accesses .w64 4 3
        (List.replicate 20 (7 : Byte))).1 = some 1
    ∧ (libvmdk_extent_file_check_for_empty_block_accesses .w64 4 3
        (List.replicate 20 (7 : Byte))).2.take 3 = [.decrease 20 1, .byte 0, .byte 1]
    ∧ ∀ a, a ∈ (libvmdk_extent_file_check_for_empty_block_accesses .w64 4 3
        (List.replicate 20 (7 : Byte))).2 → a.valid 20 4 :=
  ⟨by decide, by decide,
    (check_for_empty_block_reads_inside .w64 4 3 (List.replicate 20 (7 : Byte)) (by decide)
      (by decide)).1⟩

/-! ### The paths of vmdkmount -/

/-- The names that the loop of `vmdkmount_fuse_readdir` hands to `filler` are the first ones
of the names of the input handles, in order, and all of them when `filler` never
returns 1. -/
theorem readdir_loop_names (filler : List Int → Int) :
    ∀ (remaining index : Nat) (names : List (List Int)),
      (∃ k, k ≤ remaining
        ∧ (readdir_loop filler remaining index names).2
          = names ++ (List.range k).map (fun j => (readdir_fuse_path (index + j)).drop 1))
      ∧ ((∀ name, filler name ≠ 1) →
          readdir_loop filler remaining index names
            = (0, names ++ (List.range remaining).map
                (fun j => (readdir_fuse_path (index + j)).drop 1))) := by
  intro remaining
  induction remaining with
  | zero =>
    intro index names
    exact ⟨⟨0, le_refl _, by simp [readdir_loop]⟩, fun _ => by simp [readdir_loop]⟩
  | succ r ih =>
    intro index names
    have hrange : ∀ k, names ++ [(readdir_fuse_path index).drop 1]
          ++ (List.range k).map (fun j => (readdir_fuse_path (index + 1 + j)).drop 1)
        = names ++ (List.range (k + 1)).map
            (fun j => (readdir_fuse_path (index + j)).drop 1) := by
      intro k
      rw [List.range_succ_eq_map, List.map_cons, List.map_map, List.append_assoc]
      simp only [Nat.add_zero, List.singleton_append, Function.comp, Nat.succ_eq_add_one]
      congr 2
      apply List.map_congr_left
      intro j _
      congr 2
      omega
    obtain ⟨⟨k, hk, hnames⟩, hall⟩ := ih (index + 1) (names ++ [(readdir_fuse_path index).drop 1])
    constructor
    · by_cases hf : filler ((readdir_fuse_path index).drop 1) = 1
      · refine ⟨1, by omega, ?_⟩
        rw [readdir_loop]
        simp only [hf, if_true]
        rw [show (1 : Nat) = 0 + 1 from rfl, ← hrange 0]
        simp only [List.range_zero, List.map_nil, List.append_nil]
      · refine ⟨k + 1, by omega, ?_⟩
        rw [readdir_loop]
        simp only [hf, if_false]
        rw [hnames, hrange]
    · intro hfill
      rw [readdir_loop]
      simp only [hfill, if_false]
      rw [hall hfill, hrange]

/-- The path that `vmdkmount_fuse_readdir` builds for an input handle index from 1 to 99 is
`"/vmdk"` followed by the decimal digits of the index, and `vmdkmount_fuse_read` and
`vmdkmount_fuse_getattr` decode it to the index minus 1. -/
theorem readdir_fuse_path_round_trip (i : Nat) (h1 : 1 ≤ i) (h99 : i ≤ 99) :
    (readdir_fuse_path i).drop 1 = vmdk_name i
    ∧ vmdkmount_fuse_read_path (47 :: vmdk_name i) = .input_handle_index ((i : Int) - 1)
    ∧ vmdkmount_fuse_getattr_path (47 :: vmdk_name i) = .input_handle_index ((i : Int) - 1) := by
  interval_cases i <;> decide

theorem readdir_names_getElem? (k i : Nat) (h1 : 1 ≤ i) :
    (([[46], [46, 46]] : List (List Int))
        ++ (List.range k).map (fun j => (readdir_fuse_path (1 + j)).drop 1))[i + 1]?
      = if i ≤ k then some ((readdir_fuse_path i).drop 1) else none := by
  obtain ⟨m, rfl⟩ : ∃ m, i = m + 1 := ⟨i - 1, by omega⟩
  rw [List.getElem?_append_right (by simp), List.getElem?_map]
  simp only [List.length_cons, List.length_nil, Nat.zero_add, Nat.reduceAdd,
    show m + 1 + 1 - 2 = m by omega]
  by_cases hm : m < k
  · rw [List.getElem?_range hm, if_pos (by omega), Option.map_some', Nat.add_comm 1 m]
  · rw [List.getElem?_eq_none (by simp; omega), if_neg (by omega), Option.map_none']

/-- C30: for `0 ≤ number_of_input_handles ≤ 99` and `1 ≤ i ≤ number_of_input_handles`, the
name that `vmdkmount_fuse_readdir` hands to `filler` for input handle `i`, the one after
`"."`, `".."` and the names of the handles before, is `"vmdk"` followed by the decimal
digits of `i`, whatever `filler` returns; when `filler` never returns 1 the function
returns 0 and has handed over that name; and `vmdkmount_fuse_read` and
`vmdkmount_fuse_getattr` accept that name after a `'/'` and decode it to the input handle
index `i - 1`. -/
theorem readdir_names_round_trip (number_of_input_handles i : Nat)
    (filler : List Int → Int) (hn : number_of_input_handles ≤ 99) (h1 : 1 ≤ i)
    (hi : i ≤ number_of_input_handles) :
    (∀ name,
      (vmdkmount_fuse_readdir [47] (some (number_of_input_handles : Int)) filler).2[i + 1]?
        = some name →
      name = vmdk_name i)
    ∧ ((∀ name, filler name ≠ 1) →
        (vmdkmount_fuse_readdir [47] (some (number_of_input_handles : Int)) filler).1 = 0
        ∧ (vmdkmount_fuse_readdir [47] (some (number_of_input_handles : Int))
            filler).2[i + 1]? = some (vmdk_name i))
    ∧ vmdkmount_fuse_read_path (47 :: vmdk_name i) = .input_handle_index ((i : Int) - 1)
    ∧ vmdkmount_fuse_getattr_path (47 :: vmdk_name i)
        = .input_handle_index ((i : Int) - 1) := by
  obtain ⟨hname, hread, hgetattr⟩ := readdir_fuse_path_round_trip i h1 (by omega)
  have hloop := readdir_loop_names filler number_of_input_handles 1 [[46], [46, 46]]
  have hdir : vmdkmount_fuse_readdir [47] (some (number_of_input_handles : Int)) filler
      = if filler [46] = 1 then (- EIO, [[46]])
        else if filler [46, 46] = 1 then (- EIO, [[46], [46, 46]])
        else readdir_loop filler number_of_input_handles 1 [[46], [46, 46]] := by
    unfold vmdkmount_fuse_readdir
    simp only [List.length_singleton, ne_eq, not_true_eq_false, List.getD_cons_zero,
      or_self, if_false, Int.toNat_ofNat]
    rw [if_neg (by omega)]
  refine ⟨?_, ?_, hread, hgetattr⟩
  · intro name hget
    rw [hdir] at hget
    split_ifs at hget with hf1 hf2
    · rw [List.getElem?_eq_none (by simp)] at hget
      cases hget
    · rw [List.getElem?_eq_none (by simp; omega)] at hget
      cases hget
    · obtain ⟨⟨k, hk, hnames⟩, _⟩ := hloop
      rw [hnames, readdir_names_getElem? k i h1] at hget
      split_ifs at hget with hik
      rw [← hname]
      exact (Option.some.inj hget).symm
  · intro hfill
    rw [hdir, if_neg (hfill _), if_neg (hfill _), hloop.2 hfill]
    refine ⟨rfl, ?_⟩
    rw [readdir_names_getElem? number_of_input_handles i h1, if_pos hi, hname]

/-- C30, witness: with 12 input handles and a `filler` that always returns 0, the
directory listing is `"."`, `".."`, `"vmdk1"` to `"vmdk12"`; the entry for handle 12 is
`"vmdk12"` and `"/vmdk12"` is decoded to the input handle index 11. -/
theorem readdir_names_round_trip_witness :
    (vmdkmount_fuse_readdir [47] (some 12) (fun _ => 0)).2[13]?
      = some [118, 109, 100, 107, 49, 50]
    ∧ vmdk_name 12 = [118, 109, 100, 107, 49, 50]
    ∧ vmdkmount_fuse_read_path [47, 118, 109, 100, 107, 49, 50] = .input_handle_index 11
    ∧ ∀ name, (vmdkmount_fuse_readdir [47] (some ((12 : Nat) : Int)) (fun _ => 0)).2[12 + 1]?
        = some name → name = vmdk_name 12 :=
  ⟨by decide, by decide, by decide,
    (readdir_names_round_trip 12 12 (fun _ => 0) (by decide) (by decide) (by decide)).1⟩

end Libvmdk
